import Mathlib

/-!
# Luminous Locus session server: connection buffer and client registry

Shallow embedding of `client_conn.c` (the per-connection frame buffer) and
`client.c` (the client registry) of the Luminous Locus server, followed by the
properties of the specification that concern them.

Conventions of the embedding

* A C pointer that the code tests against `NULL` is an `Option`; `none` is `NULL`.
* `size_t` is a `Nat` below `SIZE_MOD = 2 ^ 64`; unsigned arithmetic is reduced
  modulo `SIZE_MOD` where the C code computes it.
* `int` is an `Int` in `[INT_MIN, INT_MAX]`; `++` and `--` on an `int` go through
  `wrap_int` (two's-complement wrap-around, what the usual targets do where
  ISO C leaves signed overflow undefined).
* A `char` array is a `List Nat` whose length is the declared size of the array.
* `memcpy` / `memmove` that leave the bounds of an array have no defined
  result: the functions that call them return `Option`, `none` being
  "undefined behaviour": the call writes outside the array and the code does
  not determine the state it leaves behind. Such a call may well return (on
  the usual targets it does, with the neighbouring members of the record
  overwritten), so `none` stands for "no result can be attributed", never for
  "the call does not happen"; a property of all calls has to account for it.
* The result of `malloc` and of `time(NULL)` is an explicit argument.
-/

namespace Locus

/-! ## C integers and memory primitives -/

/-- Number of values of `size_t` on the 64-bit target. -/
def SIZE_MOD : Nat := 2 ^ 64

/-- Largest `size_t`. -/
def SIZE_MAX : Nat := SIZE_MOD - 1

/-- Largest `int`. -/
def INT_MAX : Int := 2147483647

/-- Smallest `int`. -/
def INT_MIN : Int := -2147483648

/-- Reduction of a mathematical integer to the 32-bit two's-complement `int`
that represents it. -/
def wrap_int (v : Int) : Int := (v + 2147483648) % 4294967296 - 2147483648

/-- The call `memcpy(dst + off, src, n)`: the `n` bytes at `dst[off ..]` are replaced by
the first `n` bytes of `src`.  `none` when the copy would leave either array. -/
def memcpy (dst : List Nat) (off : Nat) (src : List Nat) (n : Nat) : Option (List Nat) :=
  if off + n ≤ dst.length ∧ n ≤ src.length then
    some (dst.take off ++ src.take n ++ dst.drop (off + n))
  else none

/-- The call `memmove(buf + dstOff, buf + srcOff, n)` inside one array (the regions may
overlap: the source bytes are read before any is written).  `none` when a region
would leave the array. -/
def memmove (buf : List Nat) (dstOff srcOff n : Nat) : Option (List Nat) :=
  if srcOff + n ≤ buf.length ∧ dstOff + n ≤ buf.length then
    some (buf.take dstOff ++ (buf.drop srcOff).take n ++ buf.drop (dstOff + n))
  else none

/-- The call `strncpy(dst, src, n)` with `n` at most the size of `dst`: `src` holds the bytes of
a C string (the copy stops at its first NUL, or at its end where the terminator
sits); exactly `n` bytes of `dst` are written, padded with NUL. -/
def strncpy (dst : List Nat) (src : List Nat) (n : Nat) : List Nat :=
  let s := (src.takeWhile (fun b => b != 0)).take n
  s ++ List.replicate (n - s.length) 0 ++ dst.drop n

/-! ## `client_conn.c` -/

/-- Connection states (`enum ConnState`). -/
inductive ConnState where
  | CONN_NEW
  | CONN_READING
  | CONN_CLOSED
deriving DecidableEq

/-- Size of the connection buffer (`#define BUFFER_SIZE 8192`). -/
def BUFFER_SIZE : Nat := 8192

/-- The C `struct Conn`. -/
structure Conn where
  /-- Socket descriptor (`int FD`). -/
  FD : Int
  /-- Lifecycle state. -/
  State : ConnState
  /-- Last peer address (`char LastAddr[64]`). -/
  LastAddr : List Nat
  /-- Last peer port. -/
  LastPort : Int
  /-- Receive buffer (`char Buffer[BUFFER_SIZE]`). -/
  Buffer : List Nat
  /-- Number of buffered bytes (`size_t BufferUsed`). -/
  BufferUsed : Nat
  /-- Master flag. -/
  IsMaster : Bool
deriving DecidableEq

/-- The function `conn_create`: `NULL` when `malloc` fails, otherwise a zeroed connection
with the descriptor set, state `CONN_NEW`, an empty buffer and the master flag
cleared. -/
def conn_create (fd : Int) (malloc_ok : Bool) : Option Conn :=
  if malloc_ok then
    some
      { FD := fd
        State := ConnState.CONN_NEW
        LastAddr := List.replicate 64 0
        LastPort := 0
        Buffer := List.replicate BUFFER_SIZE 0
        BufferUsed := 0
        IsMaster := false }
  else none

/-- The function `conn_add_buffer`: returns the connection after the call and the returned
`size_t`. The bound test and the update of `BufferUsed` are computed in `size_t`;
`data` is the array the pointer refers to and `length` the `size_t` argument. The
result is `none` when the `memcpy` leaves `Buffer` or `data`: the call then writes over
whatever is stored around `Buffer` (the other members of the `Conn` record first),
and the record it leaves is not determined by the code. -/
def conn_add_buffer (conn : Option Conn) (data : List Nat) (length : Nat) :
    Option (Option Conn × Nat) :=
  match conn with
  | none => some (none, 0)
  | some c =>
    if (c.BufferUsed + length) % SIZE_MOD > BUFFER_SIZE then some (some c, 0)
    else
      match memcpy c.Buffer c.BufferUsed data length with
      | none => none
      | some buf =>
        some (some { c with Buffer := buf, BufferUsed := (c.BufferUsed + length) % SIZE_MOD },
          length)

/-- The function `conn_get_buffer`: the buffer array, `NULL` for a `NULL` connection. -/
def conn_get_buffer (conn : Option Conn) : Option (List Nat) :=
  match conn with
  | none => none
  | some c => some c.Buffer

/-- The function `conn_get_buffer_used`: the used length, 0 for a `NULL` connection. -/
def conn_get_buffer_used (conn : Option Conn) : Nat :=
  match conn with
  | none => 0
  | some c => c.BufferUsed

/-- The function `conn_clear_buffer`: resets the used length. -/
def conn_clear_buffer (conn : Option Conn) : Option Conn :=
  match conn with
  | none => none
  | some c => some { c with BufferUsed := 0 }

/-- The function `conn_consume_buffer`: returns the connection after the call and the
returned `size_t`. -/
def conn_consume_buffer (conn : Option Conn) (amount : Nat) : Option (Option Conn × Nat) :=
  match conn with
  | none => some (none, 0)
  | some c =>
    if amount > c.BufferUsed then some (some c, 0)
    else
      match memmove c.Buffer 0 amount (c.BufferUsed - amount) with
      | none => none
      | some buf =>
        some (some { c with Buffer := buf, BufferUsed := c.BufferUsed - amount }, amount)

/-- The buffered bytes of a connection: the first `BufferUsed` bytes of `Buffer`
(what a caller sees through `conn_get_buffer` and `conn_get_buffer_used`). -/
def conn_peek (c : Conn) : List Nat :=
  ((conn_get_buffer (some c)).getD []).take (conn_get_buffer_used (some c))

/-- Representation invariant of a `struct Conn`: the buffer array has its declared
size and the used length is within it. -/
def conn_wf (c : Conn) : Prop := c.Buffer.length = BUFFER_SIZE ∧ c.BufferUsed ≤ BUFFER_SIZE

/-- Well-formedness of what a connection pointer points to (`NULL` included). -/
def ptr_wf (p : Option Conn) : Prop := ∀ c, p = some c → conn_wf c

/-- A call on the buffer of a connection. -/
inductive ConnOp where
  | add (data : List Nat) (length : Nat)
  | consume (amount : Nat)
  | clear
deriving DecidableEq

/-- One buffer call on a connection pointer; `none` when the call has no defined result. -/
def conn_step (conn : Option Conn) : ConnOp → Option (Option Conn)
  | ConnOp.add data length => (conn_add_buffer conn data length).map Prod.fst
  | ConnOp.consume amount => (conn_consume_buffer conn amount).map Prod.fst
  | ConnOp.clear => some (conn_clear_buffer conn)

/-- A sequence of buffer calls, in order. -/
def conn_run (conn : Option Conn) : List ConnOp → Option (Option Conn)
  | [] => some conn
  | op :: ops =>
    match conn_step conn op with
    | none => none
    | some conn1 => conn_run conn1 ops

/-! ## `client.c` -/

/-- Client states (`enum ClientState`). -/
inductive ClientState where
  | CLIENT_DISCONNECTED
  | CLIENT_CONNECTING
  | CLIENT_LOGGED_IN
  | CLIENT_ACTIVE
deriving DecidableEq

/-- The C `struct Client`.  A `float` is kept as its IEEE-754 bit pattern: the code
only stores and copies positions. -/
structure Client where
  /-- Client identifier (`int ID`). -/
  ID : Int
  /-- Peer address (`char Address[64]`). -/
  Address : List Nat
  /-- Peer port. -/
  Port : Int
  /-- Login name (`char Login[64]`). -/
  Login : List Nat
  /-- Master flag. -/
  IsMaster : Bool
  /-- Administrator flag. -/
  IsAdmin : Bool
  /-- Authentication state. -/
  State : ClientState
  /-- Time of the last activity (`time_t LastSeen`). -/
  LastSeen : Int
  /-- Position, x coordinate. -/
  PositionX : Nat
  /-- Position, y coordinate. -/
  PositionY : Nat
  /-- Position, z coordinate. -/
  PositionZ : Nat
deriving DecidableEq

/-- Capacity of the slot table (`#define MAX_CLIENTS 256`). -/
def MAX_CLIENTS : Nat := 256

/-- The C `struct ClientRegistry`; a slot of `clients` is `none` for a `NULL` pointer
and `some c` for a pointer to the heap record `c` that the slot alone owns. The
table has `MAX_CLIENTS` slots (`reg_wf`), so every index the loops read,
`clients.getD i none` with `i < MAX_CLIENTS`, is in range. -/
structure ClientRegistry where
  /-- Next identifier to hand out (`int next_id`). -/
  next_id : Int
  /-- Running count (`int count`). -/
  count : Int
  /-- Slot table (`struct Client* clients[MAX_CLIENTS]`). -/
  clients : List (Option Client)
deriving DecidableEq

/-- The function `client_registry_create`: `NULL` when `malloc` fails, otherwise a zeroed
registry. -/
def client_registry_create (malloc_ok : Bool) : Option ClientRegistry :=
  if malloc_ok then
    some { next_id := 0, count := 0, clients := List.replicate MAX_CLIENTS none }
  else none

/-- The record that `client_registry_register` fills in after `memset(client, 0, ...)`. -/
def new_client (id : Int) (address : List Nat) (port : Int) (login : List Nat)
    (is_admin : Bool) (now : Int) : Client :=
  { ID := id
    Address := strncpy (List.replicate 64 0) address 63
    Port := port
    Login := strncpy (List.replicate 64 0) login 63
    IsMaster := false
    IsAdmin := is_admin
    State := ClientState.CLIENT_CONNECTING
    LastSeen := now
    PositionX := 0
    PositionY := 0
    PositionZ := 0 }

/-- The slot search of `client_registry_register`,
`for (int i = 0; i < MAX_CLIENTS; i++)`, with `fuel` iterations left at index `i`:
the first `NULL` slot takes the client, `count` is incremented and the ID returned;
when the loop runs out the client is freed and -1 returned. -/
def register_loop (reg : ClientRegistry) (client : Client) :
    Nat → Nat → ClientRegistry × Int
  | 0, _ => (reg, -1)
  | fuel + 1, i =>
    match reg.clients.getD i none with
    | none =>
      ({ reg with clients := reg.clients.set i (some client), count := wrap_int (reg.count + 1) },
        client.ID)
    | some _ => register_loop reg client fuel (i + 1)

/-- The function `client_registry_register`: returns the registry after the call and the
returned `int` (the new ID, or -1). `now` is the value of `time(NULL)`, `malloc_ok`
tells whether the allocation of the client record succeeds. The post-increment
`reg->next_id++` is done before the slot search, as in the source. -/
def client_registry_register (reg : ClientRegistry) (address : List Nat) (port : Int)
    (login : List Nat) (is_admin : Bool) (now : Int) (malloc_ok : Bool) :
    ClientRegistry × Int :=
  if reg.count ≥ (MAX_CLIENTS : Int) then (reg, -1)
  else if malloc_ok = false then (reg, -1)
  else
    let client := new_client reg.next_id address port login is_admin now
    let reg1 := { reg with next_id := wrap_int (reg.next_id + 1) }
    register_loop reg1 client MAX_CLIENTS 0

/-- The scan of `client_registry_remove`, with `fuel` iterations left at index `i`:
the first slot that holds a client with the ID is freed and set to `NULL`,
`count` is decremented and `true` returned; `false` when the loop runs out. -/
def remove_loop (reg : ClientRegistry) (client_id : Int) : Nat → Nat → ClientRegistry × Bool
  | 0, _ => (reg, false)
  | fuel + 1, i =>
    match reg.clients.getD i none with
    | some c =>
      if c.ID = client_id then
        ({ reg with clients := reg.clients.set i none, count := wrap_int (reg.count - 1) }, true)
      else remove_loop reg client_id fuel (i + 1)
    | none => remove_loop reg client_id fuel (i + 1)

/-- The function `client_registry_remove`: the registry after the call and the
returned `bool`. -/
def client_registry_remove (reg : ClientRegistry) (client_id : Int) : ClientRegistry × Bool :=
  remove_loop reg client_id MAX_CLIENTS 0

/-- The function `client_registry_count`: the running count. -/
def client_registry_count (reg : ClientRegistry) : Int := reg.count

/-- First index in `[i, i + fuel)` at which `P` holds: the index at which a scan
`for (; i < ...; i++) if (P(i)) return ...` stops. -/
def first_index (P : Nat → Bool) : Nat → Nat → Option Nat
  | 0, _ => none
  | fuel + 1, i => if P i then some i else first_index P fuel (i + 1)

/-- Slot `m` is `NULL`. -/
def slot_empty (reg : ClientRegistry) (m : Nat) : Bool :=
  match reg.clients.getD m none with
  | none => true
  | some _ => false

/-- Slot `m` holds a client whose ID is `client_id`
(`reg->clients[m] != NULL && reg->clients[m]->ID == client_id`). -/
def slot_has_id (reg : ClientRegistry) (client_id : Int) (m : Nat) : Bool :=
  match reg.clients.getD m none with
  | none => false
  | some c => decide (c.ID = client_id)

/-- Number of non-empty slots of the slot table. -/
def live_count (reg : ClientRegistry) : Nat := reg.clients.countP (fun s => s.isSome)

/-- Slot `i` of the table holds the live client `c`. -/
def live_at (reg : ClientRegistry) (i : Nat) (c : Client) : Prop :=
  i < MAX_CLIENTS ∧ reg.clients.getD i none = some c

/-- Structural invariant of a registry: the slot table has its declared size and
`count` is the number of non-empty slots. -/
def reg_wf (reg : ClientRegistry) : Prop :=
  reg.clients.length = MAX_CLIENTS ∧ reg.count = (live_count reg : Int)

/-- No two live entries share an ID. -/
def ids_distinct (reg : ClientRegistry) : Prop :=
  ∀ i j c d, live_at reg i c → live_at reg j d → c.ID = d.ID → i = j

/-- Every live ID has been handed out already: it lies in `[0, next_id)`. -/
def ids_below_next (reg : ClientRegistry) : Prop :=
  0 ≤ reg.next_id ∧ ∀ i c, live_at reg i c → 0 ≤ c.ID ∧ c.ID < reg.next_id

/-- A call on the registry. -/
inductive RegOp where
  | register (address : List Nat) (port : Int) (login : List Nat) (is_admin : Bool)
      (now : Int) (malloc_ok : Bool)
  | remove (client_id : Int)
deriving DecidableEq

/-- Whether a call is a `client_registry_register`. -/
def RegOp.is_register : RegOp → Bool
  | RegOp.register _ _ _ _ _ _ => true
  | RegOp.remove _ => false

/-- One registry call: the registry after it and the IDs it handed out (the value
returned by a register that did not return -1). -/
def reg_step (reg : ClientRegistry) : RegOp → ClientRegistry × List Int
  | RegOp.register address port login is_admin now malloc_ok =>
    let r := client_registry_register reg address port login is_admin now malloc_ok
    (r.1, if r.2 = -1 then [] else [r.2])
  | RegOp.remove client_id => ((client_registry_remove reg client_id).1, [])

/-- A sequence of registry calls, in order: the final registry and the IDs handed
out, oldest first. -/
def reg_run (reg : ClientRegistry) : List RegOp → ClientRegistry × List Int
  | [] => (reg, [])
  | op :: ops =>
    let r1 := reg_step reg op
    let r2 := reg_run r1.1 ops
    (r2.1, r1.2 ++ r2.2)

/-- The call `client_registry_register(reg, "", 0, "", false)` with a successful
allocation, at time 0. -/
def register_call : RegOp := RegOp.register [] 0 [] false 0 true

/-- The sequence of `n` rounds of "register a client, then remove it"; round `k`
(from 0) removes the ID `wrap_int k` that its register returned. -/
def reg_churn : Nat → List RegOp
  | 0 => []
  | n + 1 => reg_churn n ++ [register_call, RegOp.remove (wrap_int n)]

/-- The registry with an empty slot table, `count = 0` and the given `next_id`. -/
def empty_registry (next_id : Int) : ClientRegistry :=
  { next_id := next_id, count := 0, clients := List.replicate MAX_CLIENTS none }

/-- A full registry: slot `k` holds the client with ID `k`, for `k < 256`. -/
def full_registry : ClientRegistry :=
  { next_id := 256
    count := 256
    clients := (List.range MAX_CLIENTS).map (fun k => some (new_client k [] 0 [] false 0)) }

/-- The scan of `client_registry_get`, with `fuel` iterations left at index `i`: the
first slot that holds a client with the ID is returned, `NULL` when the loop runs
out. -/
def get_loop (reg : ClientRegistry) (client_id : Int) : Nat → Nat → Option Client
  | 0, _ => none
  | fuel + 1, i =>
    match reg.clients.getD i none with
    | some c => if c.ID = client_id then some c else get_loop reg client_id fuel (i + 1)
    | none => get_loop reg client_id fuel (i + 1)

/-- The function `client_registry_get`: the client found, `none` for `NULL`. -/
def client_registry_get (reg : ClientRegistry) (client_id : Int) : Option Client :=
  get_loop reg client_id MAX_CLIENTS 0

/-- The C string held in a `char` array: the bytes before the first NUL. -/
def cstr (a : List Nat) : List Nat := a.takeWhile (fun b => b != 0)

/-- The registry whose slot 0 holds the client that `register_call` creates with
ID 0, every other slot being empty, with the given `next_id`. -/
def resident_registry (next_id : Int) : ClientRegistry :=
  { next_id := next_id
    count := 1
    clients := (List.replicate MAX_CLIENTS none).set 0 (some (new_client 0 [] 0 [] false 0)) }

/-- The sequence of `n` register/remove rounds numbered from 1: round `k` removes
the ID `wrap_int k`. -/
def reg_churn_above : Nat → List RegOp
  | 0 => []
  | n + 1 => reg_churn_above n ++ [register_call, RegOp.remove (wrap_int ((n + 1 : Nat) : Int))]

/-- The registry reached from `resident_registry 0` by registering a client with
address "1", port 80, login "2" and the admin flag: the register returns the ID 0
that the resident client of slot 0 already carries. -/
def wrapped_registry : ClientRegistry :=
  (client_registry_register (resident_registry 0) [49] 80 [50] true 5 true).1

/-! ## `model.h`, `message.c` -/

/-- Message ID `MSGID_LOGIN` of `enum MessageType`. -/
def MSGID_LOGIN : Int := 1

/-- Message ID `MSGID_EXIT`. -/
def MSGID_EXIT : Int := 2

/-- Message ID `MSGID_HASH`. -/
def MSGID_HASH : Int := 3

/-- Message ID `MSGID_RESTART`. -/
def MSGID_RESTART : Int := 4

/-- Message ID `MSGID_NEXTTICK`. -/
def MSGID_NEXTTICK : Int := 5

/-- Message ID `MSGID_SUCCESSFULCONNECT`. -/
def MSGID_SUCCESSFULCONNECT : Int := 201

/-- Message ID `MSGID_MAPUPLOAD`. -/
def MSGID_MAPUPLOAD : Int := 202

/-- Message ID `MSGID_NEWTICK`. -/
def MSGID_NEWTICK : Int := 203

/-- Message ID `MSGID_NEWCLIENT`. -/
def MSGID_NEWCLIENT : Int := 204

/-- Message ID `MSGID_CURRENTCONNECTIONS`. -/
def MSGID_CURRENTCONNECTIONS : Int := 205

/-- Message ID `MSGID_REQUESTHASH`. -/
def MSGID_REQUESTHASH : Int := 206

/-- Message ID `MSGID_WRONGGAMEVERSION`. -/
def MSGID_WRONGGAMEVERSION : Int := 401

/-- Message ID `MSGID_WRONGAUTH`. -/
def MSGID_WRONGAUTH : Int := 402

/-- Message ID `MSGID_UNDEFINEDERROR`. -/
def MSGID_UNDEFINEDERROR : Int := 403

/-- Message ID `MSGID_SERVEREXIT`. -/
def MSGID_SERVEREXIT : Int := 404

/-- Message ID `MSGID_NOMASTER`. -/
def MSGID_NOMASTER : Int := 405

/-- Message ID `MSGID_OUTOFSYNC`. -/
def MSGID_OUTOFSYNC : Int := 406

/-- Message ID `MSGID_TOOSLOW`. -/
def MSGID_TOOSLOW : Int := 407

/-- Message ID `MSGID_INTERNALSERVERERROR`. -/
def MSGID_INTERNALSERVERERROR : Int := 408

/-- Message ID `MSGID_SERVERRESTARTING`. -/
def MSGID_SERVERRESTARTING : Int := 409

/-- Message ID `MSGID_ORDINARY`. -/
def MSGID_ORDINARY : Int := 1001

/-- Message ID `MSGID_JUSTMESSAGE`. -/
def MSGID_JUSTMESSAGE : Int := 1002

/-- Message ID `MSGID_GUI`. -/
def MSGID_GUI : Int := 1003

/-- Message ID `MSGID_MOUSECLICK`. -/
def MSGID_MOUSECLICK : Int := 1004

/-- Message ID `MSGID_OOCMESSAGE`. -/
def MSGID_OOCMESSAGE : Int := 1005

/-- Message ID `MSGID_PING`. -/
def MSGID_PING : Int := 1102

/-- Message ID `MSGID_INPUT`. -/
def MSGID_INPUT : Int := 1006

/-- Default ceiling `MAX_MESSAGE_LENGTH` (1 MB) of `message.c`. -/
def MAX_MESSAGE_LENGTH : Int := 1 * 1024 * 1024

/-- The function `get_max_message_length`. Its first case label, `MSGID_CHAT`, is not a
member of `enum MessageType` in `model.h`: the value of that constant is the parameter
`MSGID_CHAT`. -/
def get_max_message_length (MSGID_CHAT : Int) (kind : Int) : Int :=
  if kind = MSGID_CHAT ∨ kind = MSGID_JUSTMESSAGE ∨ kind = MSGID_OOCMESSAGE then 4096
  else if kind = MSGID_LOGIN then 256
  else MAX_MESSAGE_LENGTH

/-! ## `json_db.c`, `auth.c` -/

/-- The C `struct UserInfo`. -/
structure UserInfo where
  /-- Login name (`char Login[64]`). -/
  Login : List Nat
  /-- Password hash (`char Passhash[128]`). -/
  Passhash : List Nat
  /-- Administrator flag. -/
  IsAdmin : Bool
deriving DecidableEq

/-- The C `struct json_db_t`; `users` is the `void*` of the record, `none` for `NULL`. -/
structure json_db_t where
  /-- User table (`void* users`). -/
  users : Option Unit
deriving DecidableEq

/-- The function `json_db_create`: `NULL` when `malloc` fails, otherwise a zeroed record. -/
def json_db_create (malloc_ok : Bool) : Option json_db_t :=
  if malloc_ok then some { users := none } else none

/-- The function `json_db_get_user`: the stub of the source, which returns `NULL` for every
database and user name. -/
def json_db_get_user (_db : Option json_db_t) (_username : List Nat) : Option UserInfo :=
  none

/-- The constant `GuestInfo`: empty login, empty password hash, not an admin. -/
def GuestInfo : UserInfo :=
  { Login := List.replicate 64 0, Passhash := List.replicate 128 0, IsAdmin := false }

/-- The constant `ErrNotAuthenticated`. -/
def ErrNotAuthenticated : Int := -1

/-- The call `strcmp(a, b)` on two C strings held in lists (a string ends at its first NUL,
or at the end of the list where the terminator sits): 0 when the strings are equal,
otherwise the difference of the first bytes that differ. -/
def strcmp : List Nat → List Nat → Int
  | [], [] => 0
  | [], b :: _ => if b = 0 then 0 else -(b : Int)
  | a :: _, [] => if a = 0 then 0 else (a : Int)
  | a :: as, b :: bs =>
    if a = b then (if a = 0 then 0 else strcmp as bs) else (a : Int) - (b : Int)

/-- What a call of `authenticate` leaves behind: the returned `int`, the record `*result`
after the call, and the user names it looked up in the credential store. -/
structure AuthOutcome where
  /-- Returned value. -/
  ret : Int
  /-- The record `*result` after the call. -/
  result : UserInfo
  /-- User names passed to the lookup, in order. -/
  lookups : List (List Nat)
deriving DecidableEq

/-- The body of `authenticate`, with the lookup `json_db_get_user` it calls taken as the
parameter `get_user`. -/
def authenticate_with (get_user : Option json_db_t → List Nat → Option UserInfo)
    (db : Option json_db_t) (username passhash : List Nat) (is_guest : Bool)
    (result : UserInfo) : AuthOutcome :=
  if is_guest then { ret := 0, result := GuestInfo, lookups := [] }
  else
    match get_user db username with
    | none => { ret := ErrNotAuthenticated, result := result, lookups := [username] }
    | some info =>
      if strcmp info.Passhash passhash ≠ 0 then
        { ret := ErrNotAuthenticated, result := result, lookups := [username] }
      else { ret := 0, result := info, lookups := [username] }

/-- The function `authenticate` of the source, which looks users up with
`json_db_get_user`. -/
def authenticate (db : Option json_db_t) (username passhash : List Nat) (is_guest : Bool)
    (result : UserInfo) : AuthOutcome :=
  authenticate_with json_db_get_user db username passhash is_guest result

/-- A credential store with one user, "alice" with password hash "h1", not an admin. -/
def alice_store (_db : Option json_db_t) (username : List Nat) : Option UserInfo :=
  if username = [97, 108, 105, 99, 101] then
    some { Login := strncpy (List.replicate 64 0) [97, 108, 105, 99, 101] 63
           Passhash := strncpy (List.replicate 128 0) [104, 49] 127
           IsAdmin := false }
  else none

/-! ## `telemetry.c` -/

/-- Reduction of a mathematical integer to the 64-bit two's-complement `int64_t` that
represents it. -/
def wrap_int64 (v : Int) : Int :=
  (v + 9223372036854775808) % 18446744073709551616 - 9223372036854775808

/-- The C `struct StatsCollector`. -/
structure StatsCollector where
  /-- Gauge of connected clients (`int`). -/
  current_clients : Int
  /-- Clients seen since the start (`int`). -/
  total_session_clients : Int
  /-- Messages received (`int`). -/
  total_messages_in : Int
  /-- Messages sent (`int`). -/
  total_messages_out : Int
  /-- Bytes received (`int64_t`). -/
  bytes_received : Int
  /-- Bytes sent (`int64_t`). -/
  bytes_sent : Int
  /-- Start time (`time_t`). -/
  start_time : Int
deriving DecidableEq

/-- The function `stats_collector_create`: `NULL` when `malloc` fails, otherwise a zeroed
collector stamped with the current time. -/
def stats_collector_create (now : Int) (malloc_ok : Bool) : Option StatsCollector :=
  if malloc_ok then
    some
      { current_clients := 0
        total_session_clients := 0
        total_messages_in := 0
        total_messages_out := 0
        bytes_received := 0
        bytes_sent := 0
        start_time := now }
  else none

/-- The function `stats_collector_record_incoming`. -/
def stats_collector_record_incoming (sc : Option StatsCollector) : Option StatsCollector :=
  match sc with
  | none => none
  | some s => some { s with total_messages_in := wrap_int (s.total_messages_in + 1) }

/-- The function `stats_collector_record_outgoing`. -/
def stats_collector_record_outgoing (sc : Option StatsCollector) : Option StatsCollector :=
  match sc with
  | none => none
  | some s => some { s with total_messages_out := wrap_int (s.total_messages_out + 1) }

/-- The function `stats_collector_bytes_received`. -/
def stats_collector_bytes_received (sc : Option StatsCollector) (bytes : Int) :
    Option StatsCollector :=
  match sc with
  | none => none
  | some s => some { s with bytes_received := wrap_int64 (s.bytes_received + bytes) }

/-- The function `stats_collector_bytes_sent`. -/
def stats_collector_bytes_sent (sc : Option StatsCollector) (bytes : Int) :
    Option StatsCollector :=
  match sc with
  | none => none
  | some s => some { s with bytes_sent := wrap_int64 (s.bytes_sent + bytes) }

/-- The function `stats_collector_add_client`: both counters are incremented. -/
def stats_collector_add_client (sc : Option StatsCollector) : Option StatsCollector :=
  match sc with
  | none => none
  | some s =>
    some { s with
      current_clients := wrap_int (s.current_clients + 1)
      total_session_clients := wrap_int (s.total_session_clients + 1) }

/-- The function `stats_collector_remove_client`: the gauge is decremented when positive. -/
def stats_collector_remove_client (sc : Option StatsCollector) : Option StatsCollector :=
  match sc with
  | none => none
  | some s =>
    if s.current_clients > 0 then
      some { s with current_clients := wrap_int (s.current_clients - 1) }
    else some s

/-- The function `stats_collector_get_clients`. -/
def stats_collector_get_clients (sc : Option StatsCollector) : Int :=
  match sc with
  | none => 0
  | some s => s.current_clients

/-- The function `stats_collector_get_total_clients`. -/
def stats_collector_get_total_clients (sc : Option StatsCollector) : Int :=
  match sc with
  | none => 0
  | some s => s.total_session_clients

/-- The function `stats_collector_get_total_messages`. -/
def stats_collector_get_total_messages (sc : Option StatsCollector) : Int :=
  match sc with
  | none => 0
  | some s => wrap_int (s.total_messages_in + s.total_messages_out)

/-- The function `stats_collector_reset_clients`. -/
def stats_collector_reset_clients (sc : Option StatsCollector) : Option StatsCollector :=
  match sc with
  | none => none
  | some s => some { s with current_clients := 0 }

/-! ## `assetserver.c`, `main.c` -/

/-- The C `struct AssetServer`. -/
structure AssetServer where
  /-- Port to listen on. -/
  Port : Int
  /-- Listening socket, -1 when closed. -/
  Socket : Int
  /-- Whether the server is running. -/
  Running : Bool
deriving DecidableEq

/-- The function `asset_server_create`: `NULL` when `malloc` fails. -/
def asset_server_create (port : Int) (malloc_ok : Bool) : Option AssetServer :=
  if malloc_ok then some { Port := port, Socket := -1, Running := false } else none

/-- The C `struct ServerState` of `main.c`; the four pointers are `none` for `NULL`. -/
structure ServerState where
  /-- Listen port. -/
  Port : Int
  /-- Listening socket. -/
  Socket : Int
  /-- Client registry (`ClientRegistry* Clients`). -/
  Clients : Option ClientRegistry
  /-- Telemetry collector (`StatsCollector* Telemetry`). -/
  Telemetry : Option StatsCollector
  /-- Asset server (`AssetServer* AssetServer`). -/
  AssetServer : Option AssetServer
  /-- Credential store (`json_db_t* DB`). -/
  DB : Option json_db_t
  /-- Whether a master client is connected. -/
  MasterIsHere : Bool
deriving DecidableEq

/-- The function `accept_connections` of `main.c`. The arguments `client_fd`, `addr_str`
and `port` are what `accept`, `inet_ntop` and `ntohs` return for the pending
connection (`client_fd < 0` when `accept` fails); `now` and `malloc_ok` are passed
on to `client_registry_register`. The result is the server state after the call
and the descriptors passed to `close`; `none` when `state->Clients` is `NULL`, which
the register call dereferences. -/
def accept_connections (state : ServerState) (client_fd : Int) (addr_str : List Nat)
    (port : Int) (now : Int) (malloc_ok : Bool) : Option (ServerState × List Int) :=
  if client_fd ≥ 0 then
    match state.Clients with
    | none => none
    | some reg =>
      let r := client_registry_register reg addr_str port [] false now malloc_ok
      if r.2 ≥ 0 then
        some ({ state with
            Clients := some r.1
            Telemetry := stats_collector_add_client state.Telemetry }, [])
      else some ({ state with Clients := some r.1 }, [client_fd])
  else some (state, [])

/-- A server state of `main.c` around the given registry and collector, listening on
port 8766 with socket 3. -/
def server_state_of (reg : ClientRegistry) (sc : Option StatsCollector) : ServerState :=
  { Port := 8766
    Socket := 3
    Clients := some reg
    Telemetry := sc
    AssetServer := asset_server_create 8767 true
    DB := json_db_create true
    MasterIsHere := false }

/-- A collector that has counted `n` clients, all still connected. -/
def collector_of (n : Int) : StatsCollector :=
  { current_clients := n
    total_session_clients := n
    total_messages_in := 0
    total_messages_out := 0
    bytes_received := 0
    bytes_sent := 0
    start_time := 0 }

/-! ## `griefly-server/server.c` -/

/-- Capacity of the client table (`#define DEFAULT_MAX_CLIENTS 64`). -/
def DEFAULT_MAX_CLIENTS : Nat := 64

/-- Message type `MSG_TYPE_POSITION`. -/
def MSG_TYPE_POSITION : Nat := 1

/-- Message type `MSG_TYPE_CHAT`. -/
def MSG_TYPE_CHAT : Nat := 2

/-- Message type `MSG_TYPE_ACTION`. -/
def MSG_TYPE_ACTION : Nat := 3

/-- Message type `MSG_TYPE_PING`. -/
def MSG_TYPE_PING : Nat := 4

/-- Message type `MSG_TYPE_PONG`. -/
def MSG_TYPE_PONG : Nat := 5

/-- Message type `MSG_TYPE_CONNECT`. -/
def MSG_TYPE_CONNECT : Nat := 6

/-- Message type `MSG_TYPE_DISCONNECT`. -/
def MSG_TYPE_DISCONNECT : Nat := 7

/-- Client state `CLIENT_STATE_DISCONNECTED`. -/
def CLIENT_STATE_DISCONNECTED : Int := 0

/-- Client state `CLIENT_STATE_CONNECTING`. -/
def CLIENT_STATE_CONNECTING : Int := 1

/-- Client state `CLIENT_STATE_CONNECTED`. -/
def CLIENT_STATE_CONNECTED : Int := 2

/-- Client state `CLIENT_STATE_AUTHENTICATED`. -/
def CLIENT_STATE_AUTHENTICATED : Int := 3

/-- The C `server_state_t` (its `state_mutex` is only initialised and destroyed). -/
structure server_state_t where
  /-- Listening socket. -/
  listen_fd : Int
  /-- Metrics socket. -/
  metrics_fd : Int
  /-- Server URL (`char[256]`). -/
  server_url : List Nat
  /-- Tick interval. -/
  tick_interval : Int
  /-- Dumps directory (`char[256]`). -/
  dumps_root : List Nat
  /-- Database directory (`char[256]`). -/
  db_root : List Nat
  /-- Whether the main loop runs. -/
  running : Bool
  /-- Start time. -/
  start_time : Int
deriving DecidableEq

/-- The C `client_t` (its `client_mutex` is only initialised and destroyed). A `float` is
kept as the 4 bytes of its object representation, which is what `memcpy` writes. -/
structure client_t where
  /-- Socket of the client. -/
  fd : Int
  /-- Peer address (`char[64]`). -/
  address : List Nat
  /-- Peer port. -/
  port : Int
  /-- Client state, one of the `CLIENT_STATE_` constants. -/
  state : Int
  /-- User name (`char[64]`). -/
  username : List Nat
  /-- Time of the last activity. -/
  last_activity : Int
  /-- Bytes received (`uint64_t`). -/
  bytes_received : Nat
  /-- Bytes sent (`uint64_t`). -/
  bytes_sent : Nat
  /-- Position, x coordinate (4 bytes). -/
  pos_x : List Nat
  /-- Position, y coordinate (4 bytes). -/
  pos_y : List Nat
  /-- Position, z coordinate (4 bytes). -/
  pos_z : List Nat
deriving DecidableEq

/-- The C `message_t`: `type` is a `uint8_t`, `length` a `uint32_t`, and `data` is `none` for
a `NULL` pointer, otherwise the bytes the pointer refers to. -/
structure message_t where
  /-- Message type. -/
  type : Nat
  /-- Declared payload length. -/
  length : Nat
  /-- Payload. -/
  data : Option (List Nat)
deriving DecidableEq

/-- Size of a `message_t` on the 64-bit target (`sizeof(message_t)`). -/
def SIZEOF_MESSAGE_T : Nat := 16

/-- The globals of `server.c`. The flag `g_clients_mutex` tells whether the mutex is
held (the server has one thread that takes it, the reactor). A client pointer is
a slot of `g_clients`: the server holds no other pointer to a `client_t`. -/
structure Globals where
  /-- Server state (`g_server`). -/
  g_server : server_state_t
  /-- Client table (`client_t* g_clients[DEFAULT_MAX_CLIENTS]`). -/
  g_clients : List (Option client_t)
  /-- Number of clients (`int g_num_clients`). -/
  g_num_clients : Int
  /-- Whether `g_clients_mutex` is locked. -/
  g_clients_mutex : Bool
deriving DecidableEq

/-- A call `send(fd, msg, nbytes, 0)`: the descriptor, the `message_t` at the start of the
bytes sent, and the number of bytes asked for. -/
structure SendEvent where
  /-- Destination socket. -/
  fd : Int
  /-- Message header at the start of the buffer. -/
  msg : message_t
  /-- Byte count passed to `send`. -/
  nbytes : Nat
deriving DecidableEq

/-- How a call of a `server.c` function ends: it returns (`returned`, with the globals,
the `send` calls made, the descriptors closed and the returned value), it waits for
ever in `pthread_mutex_lock` on a mutex the thread already holds (`blocked`, with
what happened before), or it has no defined behaviour (`undefined`). -/
inductive Outcome (α : Type) where
  | returned (g : Globals) (sends : List SendEvent) (closed : List Int) (val : α)
  | blocked (g : Globals) (sends : List SendEvent) (closed : List Int)
  | undefined
deriving DecidableEq

/-- The call `strcpy(dst, src)` into a `char` array: the string and its terminator are
written; `none` when they do not fit. -/
def strcpy (dst : List Nat) (src : List Nat) : Option (List Nat) :=
  if (cstr src).length + 1 ≤ dst.length then
    some (cstr src ++ [0] ++ dst.drop ((cstr src).length + 1))
  else none

/-- The record that `server_accept_client` fills in after `memset(client, 0, ...)`, given
the content of its `address` field. -/
def accepted_client (client_fd : Int) (address : List Nat) (port : Int) (now : Int) :
    client_t :=
  { fd := client_fd
    address := address
    port := port
    state := CLIENT_STATE_CONNECTING
    username := List.replicate 64 0
    last_activity := now
    bytes_received := 0
    bytes_sent := 0
    pos_x := [0, 0, 0, 0]
    pos_y := [0, 0, 0, 0]
    pos_z := [0, 0, 0, 0] }

/-- The slot search of `server_accept_client`, with `fuel` iterations left at index `i`:
at the first `NULL` slot a client is allocated and, when the allocation succeeds,
stored and counted; then the loop is left (`break`). The result is the globals
and the slot of the client returned (`none` for `NULL`); `none` when `strcpy` leaves
the `address` array. -/
def accept_loop (g : Globals) (client_fd : Int) (addr_str : List Nat) (port : Int)
    (now : Int) (malloc_ok : Bool) : Nat → Nat → Option (Globals × Option Nat)
  | 0, _ => some (g, none)
  | fuel + 1, i =>
    match g.g_clients.getD i none with
    | none =>
      if malloc_ok then
        match strcpy (List.replicate 64 0) addr_str with
        | none => none
        | some address =>
          some ({ g with
              g_clients := g.g_clients.set i
                (some (accepted_client client_fd address port now))
              g_num_clients := wrap_int (g.g_num_clients + 1) }, some i)
      else some (g, none)
    | some _ => accept_loop g client_fd addr_str port now malloc_ok fuel (i + 1)

/-- The function `server_accept_client`. The arguments `client_fd`, `addr_str` and `port`
are what `accept`, `inet_ntoa` and `ntohs` return for the pending connection; the
value returned is the slot of the new client, `none` for `NULL`. The mutex is taken
for the search and released after it. -/
def server_accept_client (g : Globals) (client_fd : Int) (addr_str : List Nat) (port : Int)
    (now : Int) (malloc_ok : Bool) : Outcome (Option Nat) :=
  if client_fd < 0 then Outcome.returned g [] [] none
  else if g.g_clients_mutex then Outcome.blocked g [] []
  else
    match accept_loop g client_fd addr_str port now malloc_ok DEFAULT_MAX_CLIENTS 0 with
    | none => Outcome.undefined
    | some r => Outcome.returned r.1 [] [] r.2

/-- The `send` that the chat broadcast makes for slot content `s`: one for a client in
state `CLIENT_STATE_AUTHENTICATED`, none otherwise. -/
def chat_event (msg : message_t) (s : Option client_t) : Option SendEvent :=
  match s with
  | none => none
  | some c =>
    if c.state = CLIENT_STATE_AUTHENTICATED then
      some { fd := c.fd, msg := msg, nbytes := SIZEOF_MESSAGE_T + msg.length }
    else none

/-- The loop of the `MSG_TYPE_CHAT` case of `handle_client_message` (and of
`server_broadcast`), with `fuel` iterations left at index `i`: the `send` calls made,
in order. -/
def chat_loop (clients : List (Option client_t)) (msg : message_t) :
    Nat → Nat → List SendEvent
  | 0, _ => []
  | fuel + 1, i =>
    match clients.getD i none with
    | some c =>
      if c.state = CLIENT_STATE_AUTHENTICATED then
        { fd := c.fd, msg := msg, nbytes := SIZEOF_MESSAGE_T + msg.length } ::
          chat_loop clients msg fuel (i + 1)
      else chat_loop clients msg fuel (i + 1)
    | none => chat_loop clients msg fuel (i + 1)

/-- The function `handle_client_message` for the client of slot `idx`; `now` is the value
of `time(NULL)`. A `NULL` client, or a position message whose `data` holds fewer
than 12 bytes, has no defined behaviour. -/
def handle_client_message (g : Globals) (idx : Nat) (msg : message_t) (now : Int) :
    Outcome Unit :=
  match g.g_clients.getD idx none with
  | none => Outcome.undefined
  | some c =>
    let c1 := { c with last_activity := now }
    let g1 := { g with g_clients := g.g_clients.set idx (some c1) }
    if msg.type = MSG_TYPE_PING then
      Outcome.returned g1
        [{ fd := c1.fd
           msg := { type := MSG_TYPE_PONG, length := 0, data := none }
           nbytes := SIZEOF_MESSAGE_T }] [] ()
    else if msg.type = MSG_TYPE_CHAT then
      if g1.g_clients_mutex then Outcome.blocked g1 [] []
      else Outcome.returned g1 (chat_loop g1.g_clients msg DEFAULT_MAX_CLIENTS 0) [] ()
    else if msg.type = MSG_TYPE_POSITION then
      match msg.data with
      | none => Outcome.undefined
      | some d =>
        if 12 ≤ d.length then
          Outcome.returned
            { g with
              g_clients := g.g_clients.set idx
                (some { c1 with
                  pos_x := d.take 4
                  pos_y := (d.drop 4).take 4
                  pos_z := (d.drop 8).take 4 }) } [] [] ()
        else Outcome.undefined
    else Outcome.returned g1 [] [] ()

/-- A client of `server.c` with the given socket and state, at the origin. -/
def client_of (fd : Int) (state : Int) : client_t :=
  { fd := fd
    address := List.replicate 64 0
    port := 0
    state := state
    username := List.replicate 64 0
    last_activity := 0
    bytes_received := 0
    bytes_sent := 0
    pos_x := [0, 0, 0, 0]
    pos_y := [0, 0, 0, 0]
    pos_z := [0, 0, 0, 0] }

/-- The server state that `server_init` leaves, but for the strings. -/
def idle_server : server_state_t :=
  { listen_fd := -1
    metrics_fd := -1
    server_url := List.replicate 256 0
    tick_interval := 100
    dumps_root := List.replicate 256 0
    db_root := List.replicate 256 0
    running := false
    start_time := 0 }

/-- Globals whose table starts with the given slots, the other slots being `NULL`, with
the mutex free. -/
def globals_of (slots : List (Option client_t)) : Globals :=
  { g_server := idle_server
    g_clients := slots ++ List.replicate (DEFAULT_MAX_CLIENTS - slots.length) none
    g_num_clients := (slots.countP (fun s => s.isSome) : Nat)
    g_clients_mutex := false }

/-- Globals with a full table: slot `k` holds a connecting client with socket `k + 4`. -/
def full_globals : Globals :=
  { g_server := idle_server
    g_clients := (List.range DEFAULT_MAX_CLIENTS).map
      (fun (k : Nat) => some (client_of ((k : Int) + 4) CLIENT_STATE_CONNECTING))
    g_num_clients := 64
    g_clients_mutex := false }

/-- Three connections: two authenticated clients, on sockets 5 and 6, and a client
that is still connecting, on socket 7. -/
def three_clients : Globals :=
  globals_of
    [some (client_of 5 CLIENT_STATE_AUTHENTICATED), some (client_of 6 CLIENT_STATE_AUTHENTICATED),
      some (client_of 7 CLIENT_STATE_CONNECTING)]

/-- Two connections: a client that is still connecting, on socket 5, and an
authenticated client on socket 6. -/
def two_clients : Globals :=
  globals_of
    [some (client_of 5 CLIENT_STATE_CONNECTING), some (client_of 6 CLIENT_STATE_AUTHENTICATED)]

/-- A chat message with the two-byte payload "hi". -/
def chat_hi : message_t := { type := MSG_TYPE_CHAT, length := 2, data := some [104, 105] }

/-- A chat message that declares a payload of 5000 bytes. -/
def chat_5000 : message_t :=
  { type := MSG_TYPE_CHAT, length := 5000, data := some (List.replicate 5000 97) }

/-- A position message whose payload is the 12 bytes 1 to 12. -/
def position_msg : message_t :=
  { type := MSG_TYPE_POSITION
    length := 12
    data := some [1, 2, 3, 4, 5, 6, 7, 8, 9, 10, 11, 12] }

/-! ## `client.c`: operations on one client -/

/-- The function `client_is_master`: `false` for a `NULL` client. -/
def client_is_master (client : Option Client) : Bool :=
  match client with
  | none => false
  | some c => c.IsMaster

/-- The function `client_update_position`: the client after the call; nothing is done
for a `NULL` client. -/
def client_update_position (client : Option Client) (x y z : Nat) : Option Client :=
  match client with
  | none => none
  | some c => some { c with PositionX := x, PositionY := y, PositionZ := z }

/-- The function `client_mark_active`: the client after the call, `now` being the value
of `time(NULL)`; nothing is done for a `NULL` client. -/
def client_mark_active (client : Option Client) (now : Int) : Option Client :=
  match client with
  | none => none
  | some c => some { c with LastSeen := now, State := ClientState.CLIENT_ACTIVE }

/-! ## `message.c`, `model.c`: the switch on the message kind -/

/-- The payload structures of `model.h` that `get_concrete_message` allocates: the value
`T` stands for a block of `sizeof(T)` bytes returned by `malloc`. -/
inductive Payload where
  | MessageInput
  | MessageChat
  | MessageLogin
  | MessageHash
  | MessageRestart
  | MessageNextTick
  | MessageRequestHash
  | MessageSuccessfulConnect
  | MessageMapUpload
  | MessageNewTick
  | MessageNewClient
  | MessageCurrentConnections
  | MessageOrdinary
  | MessageJustMessage
  | MessageMouseClick
  | MessageOOC
  | MessagePing
deriving DecidableEq

/-- The call `malloc(sizeof(T))`: `none` for `NULL`, when the allocation fails. -/
def malloc_payload (malloc_ok : Bool) (p : Payload) : Option Payload :=
  if malloc_ok then some p else none

/-- The function `get_concrete_message`; the cases are tried in the order of the source.
`MSGID_CHAT` is used by `message.c` but is not declared in `enum MessageType`: it is a
parameter. The result is `none` for `NULL`. -/
def get_concrete_message (MSGID_CHAT : Int) (kind : Int) (malloc_ok : Bool) : Option Payload :=
  if kind = MSGID_INPUT then malloc_payload malloc_ok Payload.MessageInput
  else if kind = MSGID_CHAT then malloc_payload malloc_ok Payload.MessageChat
  else if kind = MSGID_LOGIN then malloc_payload malloc_ok Payload.MessageLogin
  else if kind = MSGID_HASH then malloc_payload malloc_ok Payload.MessageHash
  else if kind = MSGID_RESTART then malloc_payload malloc_ok Payload.MessageRestart
  else if kind = MSGID_NEXTTICK then malloc_payload malloc_ok Payload.MessageNextTick
  else if kind = MSGID_REQUESTHASH then malloc_payload malloc_ok Payload.MessageRequestHash
  else if kind = MSGID_SUCCESSFULCONNECT then
    malloc_payload malloc_ok Payload.MessageSuccessfulConnect
  else if kind = MSGID_MAPUPLOAD then malloc_payload malloc_ok Payload.MessageMapUpload
  else if kind = MSGID_NEWTICK then malloc_payload malloc_ok Payload.MessageNewTick
  else if kind = MSGID_NEWCLIENT then malloc_payload malloc_ok Payload.MessageNewClient
  else if kind = MSGID_CURRENTCONNECTIONS then
    malloc_payload malloc_ok Payload.MessageCurrentConnections
  else if kind = MSGID_ORDINARY then malloc_payload malloc_ok Payload.MessageOrdinary
  else if kind = MSGID_JUSTMESSAGE then malloc_payload malloc_ok Payload.MessageJustMessage
  else if kind = MSGID_GUI then malloc_payload malloc_ok Payload.MessageInput
  else if kind = MSGID_MOUSECLICK then malloc_payload malloc_ok Payload.MessageMouseClick
  else if kind = MSGID_OOCMESSAGE then malloc_payload malloc_ok Payload.MessageOOC
  else if kind = MSGID_PING then malloc_payload malloc_ok Payload.MessagePing
  else none

/-- The function `message_type_name` of `model.c`; the cases are tried in the order of the
source, with `MSGID_CHAT` a parameter as in `get_concrete_message`. -/
def message_type_name (MSGID_CHAT : Int) (type : Int) : String :=
  if type = MSGID_INPUT then "MessageInput"
  else if type = MSGID_CHAT then "MessageChat"
  else if type = MSGID_LOGIN then "MessageLogin"
  else if type = MSGID_HASH then "MessageHash"
  else if type = MSGID_RESTART then "MessageRestart"
  else if type = MSGID_NEXTTICK then "MessageNextTick"
  else if type = MSGID_REQUESTHASH then "MessageRequestHash"
  else if type = MSGID_SUCCESSFULCONNECT then "MessageSuccessfulConnect"
  else if type = MSGID_MAPUPLOAD then "MessageMapUpload"
  else if type = MSGID_NEWTICK then "MessageNewTick"
  else if type = MSGID_NEWCLIENT then "MessageNewClient"
  else if type = MSGID_CURRENTCONNECTIONS then "MessageCurrentConnections"
  else if type = MSGID_WRONGGAMEVERSION then "ErrmsgWrongGameVersion"
  else if type = MSGID_WRONGAUTH then "ErrmsgWrongAuth"
  else if type = MSGID_SERVEREXIT then "ErrmsgServerExit"
  else if type = MSGID_NOMASTER then "ErrmsgNoMaster"
  else if type = MSGID_OUTOFSYNC then "ErrmsgOutOfSync"
  else if type = MSGID_UNDEFINEDERROR then "ErrmsgUndefinedError"
  else if type = MSGID_TOOSLOW then "ErrmsgTooSlow"
  else if type = MSGID_INTERNALSERVERERROR then "ErrmsgInternalServerError"
  else if type = MSGID_SERVERRESTARTING then "ErrmsgServerRestarting"
  else if type = MSGID_ORDINARY then "MessageOrdinary"
  else if type = MSGID_JUSTMESSAGE then "MessageJustMessage"
  else if type = MSGID_MOUSECLICK then "MessageMouseClick"
  else if type = MSGID_OOCMESSAGE then "MessageOOC"
  else if type = MSGID_PING then "MessagePing"
  else "Unknown"

/-- The values of the enumerators of `enum MessageType`, in the order of `model.h`. -/
def message_types : List Int :=
  [MSGID_LOGIN, MSGID_EXIT, MSGID_HASH, MSGID_RESTART, MSGID_NEXTTICK, MSGID_SUCCESSFULCONNECT,
    MSGID_MAPUPLOAD, MSGID_NEWTICK, MSGID_NEWCLIENT, MSGID_CURRENTCONNECTIONS,
    MSGID_REQUESTHASH, MSGID_WRONGGAMEVERSION, MSGID_WRONGAUTH, MSGID_UNDEFINEDERROR,
    MSGID_SERVEREXIT, MSGID_NOMASTER, MSGID_OUTOFSYNC, MSGID_TOOSLOW,
    MSGID_INTERNALSERVERERROR, MSGID_SERVERRESTARTING, MSGID_ORDINARY, MSGID_JUSTMESSAGE,
    MSGID_GUI, MSGID_MOUSECLICK, MSGID_OOCMESSAGE, MSGID_PING, MSGID_INPUT]

/-- The message types that `server.c` defines (`MSG_TYPE_POSITION` to
`MSG_TYPE_DISCONNECT`). -/
def msg_types : List Nat :=
  [MSG_TYPE_POSITION, MSG_TYPE_CHAT, MSG_TYPE_ACTION, MSG_TYPE_PING, MSG_TYPE_PONG,
    MSG_TYPE_CONNECT, MSG_TYPE_DISCONNECT]

/-- The globals at the end of a call, when the call has a defined behaviour. -/
def Outcome.globals {α : Type} : Outcome α → Option Globals
  | Outcome.returned g _ _ _ => some g
  | Outcome.blocked g _ _ => some g
  | Outcome.undefined => none

/-- The `send` calls made by a call, when the call has a defined behaviour. -/
def Outcome.sends {α : Type} : Outcome α → Option (List SendEvent)
  | Outcome.returned _ s _ _ => some s
  | Outcome.blocked _ s _ => some s
  | Outcome.undefined => none

/-- A ping message. -/
def ping_msg : message_t := { type := MSG_TYPE_PING, length := 0, data := none }

/-! ## `server.c`: receiving, the event loop and the entry point -/

/-- The value of a little-endian sequence of bytes. -/
def le_bytes : List Nat → Nat
  | [] => 0
  | b :: bs => b + 256 * le_bytes bs

/-- The `message_t` that the cast `(message_t*)buffer` designates, on the 64-bit
little-endian target: `type` is the byte at offset 0, `length` the four bytes at
offset 4 and `data` the pointer held in the eight bytes at offset 8; `mem` gives the
bytes that are readable at an address (`none` when there are none). -/
def message_at (buffer : List Nat) (mem : Nat → Option (List Nat)) : message_t :=
  { type := buffer.getD 0 0
    length := le_bytes ((buffer.drop 4).take 4)
    data := mem (le_bytes ((buffer.drop 8).take 8)) }

/-- The function `server_process_client` for the client of slot `idx`. The array
`char buffer[1024]` is not initialised: `stack` is what it holds at the call. The
argument `recv` is the outcome of the `recv` call, `none` for an error and otherwise
the bytes received (none at all for a closed connection), which overwrite the
start of the array. `now` and `now2` are the values of the two `time(NULL)` calls. -/
def server_process_client (g : Globals) (idx : Nat) (stack : List Nat)
    (recv : Option (List Nat)) (mem : Nat → Option (List Nat)) (now now2 : Int) :
    Outcome Unit :=
  match g.g_clients.getD idx none with
  | none => Outcome.undefined
  | some c =>
    match recv with
    | none => Outcome.returned g [] [] ()
    | some received =>
      if received.length = 0 then Outcome.returned g [] [] ()
      else
        let c1 :=
          { c with
            bytes_received := (c.bytes_received + received.length) % SIZE_MOD
            last_activity := now }
        handle_client_message { g with g_clients := g.g_clients.set idx (some c1) } idx
          (message_at (received ++ stack.drop received.length) mem) now2

/-- The function `server_broadcast`: `length` bytes at `data` are sent to every
authenticated client; the event records the bytes as a message header with the
length asked for. -/
def server_broadcast (g : Globals) (data : message_t) (length : Nat) : Outcome Unit :=
  if g.g_clients_mutex then Outcome.blocked g [] []
  else
    Outcome.returned g
      (g.g_clients.filterMap (fun s =>
        match s with
        | none => none
        | some c =>
          if c.state = CLIENT_STATE_AUTHENTICATED then
            some { fd := c.fd, msg := data, nbytes := length }
          else none)) [] ()

/-- Sequencing of two calls: the `send` and `close` calls of the first come before those
of the second; a call that does not return ends the sequence. -/
def Outcome.andThen {α β : Type} (o : Outcome α) (f : Globals → α → Outcome β) : Outcome β :=
  match o with
  | Outcome.returned g s cl v =>
    match f g v with
    | Outcome.returned g2 s2 cl2 v2 => Outcome.returned g2 (s ++ s2) (cl ++ cl2) v2
    | Outcome.blocked g2 s2 cl2 => Outcome.blocked g2 (s ++ s2) (cl ++ cl2)
    | Outcome.undefined => Outcome.undefined
  | Outcome.blocked g s cl => Outcome.blocked g s cl
  | Outcome.undefined => Outcome.undefined

/-- The outcomes of the four system calls that set up a listening socket. -/
structure SocketCalls where
  /-- Value returned by `socket`. -/
  socket_ret : Int
  /-- Value returned by `setsockopt`. -/
  setsockopt_ret : Int
  /-- Value returned by `bind`. -/
  bind_ret : Int
  /-- Value returned by `listen`. -/
  listen_ret : Int
deriving DecidableEq

/-- The function `create_server_socket`: the value returned, what `perror` is called with
and the descriptors closed. The values returned by `setsockopt` and by `listen` are
not looked at. -/
def create_server_socket (_port : Int) (sys : SocketCalls) : Int × List String × List Int :=
  if sys.socket_ret < 0 then (-1, ["socket"], [])
  else if sys.bind_ret < 0 then (-1, ["bind"], [sys.socket_ret])
  else (sys.socket_ret, [], [])

/-- What the environment does during one iteration of the loop of `server_run`. -/
structure CycleInput where
  /-- Value returned by `select`. -/
  select_ret : Int
  /-- Whether `errno` is `EINTR` after `select`. -/
  eintr : Bool
  /-- Whether a descriptor is readable when `select` returns. -/
  readable : Int → Bool
  /-- Descriptor returned by `accept`. -/
  client_fd : Int
  /-- Address of the peer, as `inet_ntoa` prints it. -/
  addr_str : List Nat
  /-- Port of the peer. -/
  port : Int
  /-- Whether the `malloc` of a client record succeeds. -/
  malloc_ok : Bool
  /-- Value of `time(NULL)` during the iteration. -/
  now : Int
  /-- Content of the stack array of `server_process_client` at its calls. -/
  stack : List Nat
  /-- Outcome of `recv` for the client of a slot. -/
  recv : Nat → Option (List Nat)
  /-- Bytes readable at an address. -/
  mem : Nat → Option (List Nat)

/-- The first loop of an iteration of `server_run`, with `fuel` iterations left at index
`i`: the descriptors added to `read_fds` by `FD_SET`, in order, and the value of
`max_fd` at the end. -/
def fd_set_loop (clients : List (Option client_t)) : Nat → Nat → Int → List Int × Int
  | 0, _, max_fd => ([], max_fd)
  | fuel + 1, i, max_fd =>
    match clients.getD i none with
    | some c =>
      let r := fd_set_loop clients fuel (i + 1) (if c.fd > max_fd then c.fd else max_fd)
      (c.fd :: r.1, r.2)
    | none => fd_set_loop clients fuel (i + 1) max_fd

/-- The test `FD_ISSET(fd, &read_fds)` after `select` has returned: the descriptor was
put in the set and is readable. -/
def fd_isset (read_fds : List Int) (inp : CycleInput) (fd : Int) : Bool :=
  decide (0 < inp.select_ret) && decide (fd ∈ read_fds) && inp.readable fd

/-- The second loop of an iteration of `server_run`, run with the mutex held, with
`fuel` iterations left at index `i`: every client whose descriptor is set in
`read_fds` is processed. -/
def scan_loop (read_fds : List Int) (inp : CycleInput) : Nat → Nat → Globals → Outcome Unit
  | 0, _, g => Outcome.returned g [] [] ()
  | fuel + 1, i, g =>
    match g.g_clients.getD i none with
    | some c =>
      if fd_isset read_fds inp c.fd then
        (server_process_client g i inp.stack (inp.recv i) inp.mem inp.now inp.now).andThen
          (fun g1 _ => scan_loop read_fds inp fuel (i + 1) g1)
      else scan_loop read_fds inp fuel (i + 1) g
    | none => scan_loop read_fds inp fuel (i + 1) g

/-- How one iteration of the loop of `server_run` ends: the loop test is reached again
(`next`), the loop is left by `break` (`stop`), the thread waits for ever for a
mutex it holds (`blocked`), or the behaviour is not defined. `read_fds` is the set
of descriptors handed to `select`. -/
inductive CycleResult where
  | next (g : Globals) (max_fd : Int) (read_fds : List Int) (sends : List SendEvent)
      (closed : List Int)
  | stop (g : Globals) (max_fd : Int) (read_fds : List Int)
  | blocked (g : Globals) (read_fds : List Int) (sends : List SendEvent) (closed : List Int)
  | undefined

/-- One iteration of the loop of `server_run`. -/
def server_run_cycle (g : Globals) (max_fd : Int) (inp : CycleInput) : CycleResult :=
  if g.g_clients_mutex then CycleResult.blocked g [] [] []
  else
    let r := fd_set_loop g.g_clients DEFAULT_MAX_CLIENTS 0 max_fd
    let read_fds := g.g_server.listen_fd :: r.1
    if inp.select_ret < 0 then
      if inp.eintr then CycleResult.next g r.2 read_fds [] []
      else CycleResult.stop g r.2 read_fds
    else
      let accepted :=
        if fd_isset read_fds inp g.g_server.listen_fd then
          server_accept_client g inp.client_fd inp.addr_str inp.port inp.now inp.malloc_ok
        else Outcome.returned g [] [] none
      match accepted with
      | Outcome.returned g1 s1 c1 _ =>
        if g1.g_clients_mutex then CycleResult.blocked g1 read_fds s1 c1
        else
          match scan_loop read_fds inp DEFAULT_MAX_CLIENTS 0
              { g1 with g_clients_mutex := true } with
          | Outcome.returned g2 s2 c2 _ =>
            CycleResult.next { g2 with g_clients_mutex := false } r.2 read_fds (s1 ++ s2)
              (c1 ++ c2)
          | Outcome.blocked g2 s2 c2 => CycleResult.blocked g2 read_fds (s1 ++ s2) (c1 ++ c2)
          | Outcome.undefined => CycleResult.undefined
      | Outcome.blocked g1 s1 c1 => CycleResult.blocked g1 read_fds s1 c1
      | Outcome.undefined => CycleResult.undefined

/-- How a run of `server_run` over the given iterations ends: the function returns,
the loop is still running when the iterations given are over, the thread waits
for ever, or the behaviour is not defined. `polls` lists the descriptor sets
handed to `select`, `stderr` what was written to the standard error stream (a call
`perror(s)` is recorded as `s`). -/
inductive RunResult where
  | returned (g : Globals) (stderr : List String) (polls : List (List Int))
      (sends : List SendEvent) (closed : List Int)
  | running (g : Globals) (polls : List (List Int)) (sends : List SendEvent)
      (closed : List Int)
  | blocked (g : Globals) (polls : List (List Int)) (sends : List SendEvent)
      (closed : List Int)
  | undefined

/-- What happened during earlier iterations, put in front of a result. -/
def RunResult.after (fds : List Int) (s : List SendEvent) (cl : List Int) :
    RunResult → RunResult
  | RunResult.returned g e p s2 cl2 => RunResult.returned g e (fds :: p) (s ++ s2) (cl ++ cl2)
  | RunResult.running g p s2 cl2 => RunResult.running g (fds :: p) (s ++ s2) (cl ++ cl2)
  | RunResult.blocked g p s2 cl2 => RunResult.blocked g (fds :: p) (s ++ s2) (cl ++ cl2)
  | RunResult.undefined => RunResult.undefined

/-- The loop `while (g_server.running)` of `server_run`, over the iterations for which
the environment is given. -/
def server_run_loop : List CycleInput → Globals → Int → RunResult
  | [], g, _ =>
    if g.g_server.running then RunResult.running g [] [] []
    else RunResult.returned g [] [] [] []
  | inp :: rest, g, max_fd =>
    if g.g_server.running then
      match server_run_cycle g max_fd inp with
      | CycleResult.next g1 m1 fds s cl => (server_run_loop rest g1 m1).after fds s cl
      | CycleResult.stop g1 _ fds => RunResult.returned g1 ["select"] [fds] [] []
      | CycleResult.blocked g1 fds s cl => RunResult.blocked g1 [fds] s cl
      | CycleResult.undefined => RunResult.undefined
    else RunResult.returned g [] [] [] []

/-- The function `server_run`: `sys` gives the outcomes of the system calls made by
`create_server_socket`, `cycles` the environment of the iterations of the loop. -/
def server_run (g : Globals) (port : Int) (sys : SocketCalls) (cycles : List CycleInput) :
    RunResult :=
  let r := create_server_socket port sys
  let g1 := { g with g_server := { g.g_server with listen_fd := r.1 } }
  if r.1 < 0 then
    RunResult.returned g1 (r.2.1 ++ ["Failed to create server socket\n"]) [] [] r.2.2
  else
    match server_run_loop cycles { g1 with g_server := { g1.g_server with running := true } }
        r.1 with
    | RunResult.returned g2 e p s cl => RunResult.returned g2 (r.2.1 ++ e) p s (r.2.2 ++ cl)
    | RunResult.running g2 p s cl => RunResult.running g2 p s (r.2.2 ++ cl)
    | RunResult.blocked g2 p s cl => RunResult.blocked g2 p s (r.2.2 ++ cl)
    | RunResult.undefined => RunResult.undefined

/-- The bytes of an ASCII string. -/
def bytes_of (s : String) : List Nat := s.toList.map Char.toNat

/-- The globals of `server.c` when the program starts (static storage is zeroed and
the mutex is initialised unlocked). -/
def initial_globals : Globals :=
  { g_server :=
      { listen_fd := 0
        metrics_fd := 0
        server_url := List.replicate 256 0
        tick_interval := 0
        dumps_root := List.replicate 256 0
        db_root := List.replicate 256 0
        running := false
        start_time := 0 }
    g_clients := List.replicate DEFAULT_MAX_CLIENTS none
    g_num_clients := 0
    g_clients_mutex := false }

/-- The function `server_init`, `now` being the value of `time(NULL)`: the server state
is reset and every slot of the table set to `NULL`; `g_num_clients` and the mutex
are not written. -/
def server_init (g : Globals) (now : Int) : Globals :=
  { g with
    g_server :=
      { listen_fd := -1
        metrics_fd := -1
        server_url := (strcpy (List.replicate 256 0) (bytes_of "http://localhost:8011/")).getD []
        tick_interval := 100
        dumps_root := (strcpy (List.replicate 256 0) (bytes_of "./dumps")).getD []
        db_root := (strcpy (List.replicate 256 0) (bytes_of "./db")).getD []
        running := false
        start_time := now }
    g_clients := List.replicate DEFAULT_MAX_CLIENTS none }

/-- The loop of `server_stop`, with `fuel` iterations left at index `i`: every client is
closed and freed and its slot set to `NULL`; the result is the table and the
descriptors closed. -/
def stop_loop : Nat → Nat → List (Option client_t) → List (Option client_t) × List Int
  | 0, _, clients => (clients, [])
  | fuel + 1, i, clients =>
    match clients.getD i none with
    | some c =>
      let r := stop_loop fuel (i + 1) (clients.set i none)
      (r.1, c.fd :: r.2)
    | none => stop_loop fuel (i + 1) clients

/-- The function `server_stop`; `g_num_clients` is not written. -/
def server_stop (g : Globals) : Outcome Unit :=
  let g1 := { g with g_server := { g.g_server with running := false } }
  let closed :=
    (if g.g_server.listen_fd ≥ 0 then [g.g_server.listen_fd] else []) ++
      (if g.g_server.metrics_fd ≥ 0 then [g.g_server.metrics_fd] else [])
  if g.g_clients_mutex then Outcome.blocked g1 [] closed
  else
    let r := stop_loop DEFAULT_MAX_CLIENTS 0 g.g_clients
    Outcome.returned { g1 with g_clients := r.1 } [] (closed ++ r.2) ()

/-- The function `server_client_count`. -/
def server_client_count (g : Globals) : Int := g.g_num_clients

/-- How a run of a `main` function ends: the process exits (`loop` holds the descriptor
sets polled by the event loop, `none` when the event loop was not entered), the
event loop is still running when the iterations given are over, the thread waits
for ever, or the behaviour is not defined. -/
inductive MainResult where
  | exited (status : Int) (stderr : List String) (closed : List Int)
      (loop : Option (List (List Int)))
  | running (polls : List (List Int))
  | blocked (polls : List (List Int))
  | undefined
deriving DecidableEq

/-- The default port of `server.c` (`#define DEFAULT_PORT 1111`). -/
def GRIEFLY_DEFAULT_PORT : Int := 1111

/-- The argument loop of the `main` of `server.c`, after `argv[0]`: the port chosen.
`atoi` stands for the library function. The options `--listen` and `--tick-interval`
take a value that is not used later (`server_init` resets the tick interval). -/
def griefly_parse_port (atoi : String → Int) : List String → Int → Int
  | [], port => port
  | [_], port => port
  | a :: v :: rest, port =>
    if a = "--listen" then griefly_parse_port atoi rest port
    else if a = "--port" then griefly_parse_port atoi rest (atoi v)
    else if a = "--tick-interval" then griefly_parse_port atoi rest port
    else griefly_parse_port atoi (v :: rest) port

/-- The function `main` of `server.c`. The metrics thread that `main` creates is taken
to have run `create_server_socket` (outcome `metrics_sys`) before `server_run` starts.
`main` returns 0 whenever it returns. -/
def griefly_main (argv : List String) (atoi : String → Int) (now : Int) (sys : SocketCalls)
    (metrics_sys : SocketCalls) (cycles : List CycleInput) : MainResult :=
  let port := griefly_parse_port atoi argv.tail GRIEFLY_DEFAULT_PORT
  let g0 := server_init initial_globals now
  let m := create_server_socket 9095 metrics_sys
  let g1 := { g0 with g_server := { g0.g_server with metrics_fd := m.1 } }
  match server_run g1 port sys cycles with
  | RunResult.returned g2 e p _ cl =>
    match server_stop g2 with
    | Outcome.returned _ _ cl2 _ =>
      MainResult.exited 0 (m.2.1 ++ e) (m.2.2 ++ cl ++ cl2)
        (if g2.g_server.listen_fd < 0 then none else some p)
    | Outcome.blocked _ _ _ => MainResult.blocked p
    | Outcome.undefined => MainResult.undefined
  | RunResult.running _ p _ _ => MainResult.running p
  | RunResult.blocked _ p _ _ => MainResult.blocked p
  | RunResult.undefined => MainResult.undefined

/-! ## `main.c`: the event loop and the entry point -/

/-- The default port of `main.c` (`#define DEFAULT_PORT 8766`). -/
def DEFAULT_PORT : Int := 8766

/-- The default asset port (`#define DEFAULT_ASSET_PORT 8767`). -/
def DEFAULT_ASSET_PORT : Int := 8767

/-- The function `asset_server_start`: the server after the call, the value returned
and the descriptors closed. -/
def asset_server_start (server : Option AssetServer) (sys : SocketCalls) :
    Option AssetServer × Bool × List Int :=
  match server with
  | none => (none, false, [])
  | some s =>
    if sys.socket_ret < 0 then (some { s with Socket := sys.socket_ret }, false, [])
    else if sys.setsockopt_ret < 0 then (some { s with Socket := -1 }, false, [sys.socket_ret])
    else if sys.bind_ret < 0 then (some { s with Socket := -1 }, false, [sys.socket_ret])
    else if sys.listen_ret < 0 then (some { s with Socket := -1 }, false, [sys.socket_ret])
    else (some { s with Socket := sys.socket_ret, Running := true }, true, [])

/-- The function `asset_server_stop`: the server after the call and the descriptors
closed. -/
def asset_server_stop (server : Option AssetServer) : Option AssetServer × List Int :=
  match server with
  | none => (none, [])
  | some s =>
    if s.Socket ≥ 0 then (some { s with Socket := -1, Running := false }, [s.Socket])
    else (some s, [])

/-- What the environment gives to the start of `main.c`: the library function `atoi`,
the outcomes of the five allocations of `server_state_create`, the time, and the
outcomes of the system calls of `init_server_socket` and of `asset_server_start`. -/
structure MainEnv where
  /-- The library function `atoi`. -/
  atoi : String → Int
  /-- Whether the `malloc` of the `ServerState` succeeds. -/
  state_ok : Bool
  /-- Whether the `malloc` of the registry succeeds. -/
  registry_ok : Bool
  /-- Whether the `malloc` of the collector succeeds. -/
  collector_ok : Bool
  /-- Whether the `malloc` of the credential store succeeds. -/
  db_ok : Bool
  /-- Whether the `malloc` of the asset server succeeds. -/
  asset_ok : Bool
  /-- Value of `time(NULL)`. -/
  now : Int
  /-- System calls of `init_server_socket`. -/
  sys : SocketCalls
  /-- System calls of `asset_server_start`. -/
  asset_sys : SocketCalls

/-- The function `server_state_create`: `NULL` when the `malloc` of the state fails; the
four members are not tested, and `Socket` is left at the 0 of `memset`. -/
def server_state_create (port : Int) (env : MainEnv) : Option ServerState :=
  if env.state_ok then
    some
      { Port := port
        Socket := 0
        Clients := client_registry_create env.registry_ok
        Telemetry := stats_collector_create env.now env.collector_ok
        AssetServer := asset_server_create DEFAULT_ASSET_PORT env.asset_ok
        DB := json_db_create env.db_ok
        MasterIsHere := false }
  else none

/-- The function `server_state_free`: the descriptors closed. -/
def server_state_free (state : Option ServerState) : List Int :=
  match state with
  | none => []
  | some s => (if s.Socket ≥ 0 then [s.Socket] else []) ++ (asset_server_stop s.AssetServer).2

/-- The function `init_server_socket`: the descriptor stored through `socket_out` when the
function returns `true`, `none` when it returns `false`, and the descriptors
closed. -/
def init_server_socket (_port : Int) (sys : SocketCalls) : Option Int × List Int :=
  if sys.socket_ret < 0 then (none, [])
  else if sys.setsockopt_ret < 0 then (none, [sys.socket_ret])
  else if sys.bind_ret < 0 then (none, [sys.socket_ret])
  else if sys.listen_ret < 0 then (none, [sys.socket_ret])
  else (some sys.socket_ret, [])

/-- The function `process_messages`, which does nothing. -/
def process_messages (state : ServerState) : ServerState := state

/-- The function `handle_disconnections`, which does nothing. -/
def handle_disconnections (state : ServerState) : ServerState := state

/-- What the environment does during one iteration of `server_loop`. -/
structure LoopInput where
  /-- Value returned by `select`. -/
  ready : Int
  /-- Descriptor returned by `accept`. -/
  client_fd : Int
  /-- Address of the peer, as `inet_ntop` prints it. -/
  addr_str : List Nat
  /-- Port of the peer. -/
  port : Int
  /-- Value of `time(NULL)`. -/
  now : Int
  /-- Whether the `malloc` of the client record succeeds. -/
  malloc_ok : Bool
deriving DecidableEq

/-- One iteration of the loop of `server_loop`: the state after it, the descriptors put
in `read_fds` for `select` and the descriptors closed; `none` when the behaviour is
not defined. -/
def server_loop_cycle (state : ServerState) (inp : LoopInput) :
    Option (ServerState × List Int × List Int) :=
  let read_fds := [state.Socket]
  if inp.ready > 0 then
    match accept_connections state inp.client_fd inp.addr_str inp.port inp.now inp.malloc_ok with
    | none => none
    | some r => some (handle_disconnections (process_messages r.1), read_fds, r.2)
  else some (handle_disconnections (process_messages state), read_fds, [])

/-- The function `server_loop`, over the iterations made before `g_running` is found
to be 0: the final state, the descriptor sets polled and the descriptors
closed. -/
def server_loop : List LoopInput → ServerState →
    Option (ServerState × List (List Int) × List Int)
  | [], state => some (state, [], [])
  | inp :: rest, state =>
    match server_loop_cycle state inp with
    | none => none
    | some r =>
      match server_loop rest r.1 with
      | none => none
      | some r2 => some (r2.1, r.2.1 :: r2.2.1, r.2.2 ++ r2.2.2)

/-- The options that the argument loop of `main.c` sets. -/
structure Options where
  /-- Server port. -/
  port : Int
  /-- Asset port. -/
  asset_port : Int
  /-- Whether `-restart` was given. -/
  auto_restart : Bool
deriving DecidableEq

/-- The argument loop of the `main` of `main.c`, after `argv[0]`; `none` when `-help` is met
(`main` then prints the usage and returns 0). -/
def parse_args (atoi : String → Int) : List String → Options → Option Options
  | [], o => some o
  | [a], o =>
    if a = "-port" then some o
    else if a = "-asset-port" then some o
    else if a = "-restart" then some { o with auto_restart := true }
    else if a = "-help" then none
    else some o
  | a :: v :: rest, o =>
    if a = "-port" then parse_args atoi rest { o with port := atoi v }
    else if a = "-asset-port" then parse_args atoi rest { o with asset_port := atoi v }
    else if a = "-restart" then parse_args atoi (v :: rest) { o with auto_restart := true }
    else if a = "-help" then none
    else parse_args atoi (v :: rest) o

/-- The function `main` of `main.c`. The flag `g_restart_requested` is never set, so the
`execvp` at the end is not reached. -/
def main (argv : List String) (env : MainEnv) (cycles : List LoopInput) : MainResult :=
  match parse_args env.atoi argv.tail
      { port := DEFAULT_PORT, asset_port := DEFAULT_ASSET_PORT, auto_restart := false } with
  | none => MainResult.exited 0 [] [] none
  | some o =>
    match server_state_create o.port env with
    | none => MainResult.exited 1 ["Failed to create server state\n"] [] none
    | some state =>
      match init_server_socket o.port env.sys with
      | (none, closed) =>
        MainResult.exited 1 ["Failed to initialize server socket\n"]
          (closed ++ server_state_free (some state)) none
      | (some sock, closed) =>
        let state1 := { state with Socket := sock }
        let started :=
          if o.asset_port ≠ 0 then asset_server_start state1.AssetServer env.asset_sys
          else (state1.AssetServer, false, [])
        match server_loop cycles { state1 with AssetServer := started.1 } with
        | none => MainResult.undefined
        | some r =>
          MainResult.exited 0 []
            (closed ++ started.2.2 ++ r.2.2 ++ server_state_free (some r.1)) (some r.2.1)

/-- Globals of a running `server.c` with the given slots at the start of the table, the
listening socket 3 and the mutex free. -/
def running_globals (slots : List (Option client_t)) : Globals :=
  { globals_of slots with g_server := { idle_server with listen_fd := 3, running := true } }

/-- System calls that all succeed, `socket` returning the descriptor 3. -/
def sys_ok : SocketCalls := { socket_ret := 3, setsockopt_ret := 0, bind_ret := 0, listen_ret := 0 }

/-- An environment of `main.c` in which every allocation and system call succeeds. -/
def env_ok : MainEnv :=
  { atoi := fun _ => 0
    state_ok := true
    registry_ok := true
    collector_ok := true
    db_ok := true
    asset_ok := true
    now := 0
    sys := sys_ok
    asset_sys := { socket_ret := 4, setsockopt_ret := 0, bind_ret := 0, listen_ret := 0 } }

/-- An iteration of `server_loop` in which a connection from "1", port 80, is accepted
with the descriptor 7. -/
def accept_seven : LoopInput :=
  { ready := 1, client_fd := 7, addr_str := [49], port := 80, now := 0, malloc_ok := true }

/-- An iteration of `server_loop` in which `select` times out. -/
def idle_cycle : LoopInput :=
  { ready := 0, client_fd := -1, addr_str := [], port := 0, now := 0, malloc_ok := true }

/-- An iteration of `server_run` in which the descriptors of `fds` are readable, a pending
connection would be accepted with the descriptor 7, and `recv` gives `frame` for
every client. -/
def cycle_with (fds : List Int) (frame : Option (List Nat)) : CycleInput :=
  { select_ret := fds.length
    eintr := false
    readable := fun fd => decide (fd ∈ fds)
    client_fd := 7
    addr_str := [49]
    port := 80
    malloc_ok := true
    now := 9
    stack := List.replicate 1024 0
    recv := fun _ => frame
    mem := fun _ => none }

/-- The 16 bytes of a `message_t` with the given type, declared length and data
pointer. -/
def header (type length data : Nat) : List Nat :=
  [type, 0, 0, 0, length % 256, length / 256 % 256, length / 65536 % 256,
    length / 16777216 % 256, data % 256, data / 256 % 256, data / 65536 % 256,
    data / 16777216 % 256, 0, 0, 0, 0]

/-- The descriptor set handed to `select` by an iteration, when there is one. -/
def CycleResult.read_fds : CycleResult → Option (List Int)
  | CycleResult.next _ _ fds _ _ => some fds
  | CycleResult.stop _ _ fds => some fds
  | CycleResult.blocked _ fds _ _ => some fds
  | CycleResult.undefined => none

/-- The descriptor of the client of a slot, if any. -/
def slot_fd (s : Option client_t) : Option Int := s.map (fun c => c.fd)

/-- A stack array whose bytes 8 to 15 hold the address 4096. -/
def stack_with_pointer : List Nat :=
  List.replicate 8 0 ++ [0, 16, 0, 0, 0, 0, 0, 0] ++ List.replicate 1008 0

/-- A memory in which the 12 bytes 1 to 12 are readable at the address 4096, and nothing
elsewhere. -/
def mem_at_4096 (a : Nat) : Option (List Nat) :=
  if a = 4096 then some [1, 2, 3, 4, 5, 6, 7, 8, 9, 10, 11, 12] else none

/-! ## Sequences of calls on the telemetry collector -/

/-- A call on a collector. -/
inductive StatsOp where
  | record_incoming
  | record_outgoing
  | bytes_received (bytes : Int)
  | bytes_sent (bytes : Int)
  | add_client
  | remove_client
  | reset_clients
deriving DecidableEq

/-- One call on a collector pointer: the collector after it. -/
def stats_step (sc : Option StatsCollector) : StatsOp → Option StatsCollector
  | StatsOp.record_incoming => stats_collector_record_incoming sc
  | StatsOp.record_outgoing => stats_collector_record_outgoing sc
  | StatsOp.bytes_received bytes => stats_collector_bytes_received sc bytes
  | StatsOp.bytes_sent bytes => stats_collector_bytes_sent sc bytes
  | StatsOp.add_client => stats_collector_add_client sc
  | StatsOp.remove_client => stats_collector_remove_client sc
  | StatsOp.reset_clients => stats_collector_reset_clients sc

/-- A sequence of calls on a collector pointer, in order. -/
def stats_run (sc : Option StatsCollector) : List StatsOp → Option StatsCollector
  | [] => sc
  | op :: ops => stats_run (stats_step sc op) ops

/-- A collector started at time `now` whose client counters both hold `clients` and
whose counter of incoming messages holds `incoming`, the rest being 0. -/
def collector_with (now clients incoming : Int) : StatsCollector :=
  { current_clients := clients
    total_session_clients := clients
    total_messages_in := incoming
    total_messages_out := 0
    bytes_received := 0
    bytes_sent := 0
    start_time := now }

/-- What a sequence of calls maintains on a collector for as long as fewer than `n`
increments were made: the gauge lies between 0 and the total, and the totals are
non-negative and bounded by `n`. -/
def stats_within (n : Int) (s : StatsCollector) : Prop :=
  0 ≤ s.current_clients ∧ s.current_clients ≤ s.total_session_clients ∧
    s.total_session_clients ≤ n ∧ 0 ≤ s.total_messages_in ∧ 0 ≤ s.total_messages_out ∧
    s.total_messages_in + s.total_messages_out ≤ n

/-! ## `json_db.c`: the admin test -/

/-- The function `json_db_is_admin`: `false` when the lookup returns `NULL`, otherwise the
flag of the record found. -/
def json_db_is_admin (db : Option json_db_t) (username : List Nat) : Bool :=
  match json_db_get_user db username with
  | none => false
  | some info => info.IsAdmin

/-! ## `client_conn.c`: the other operations on a connection -/

/-- The function `conn_get_fd`: -1 for a `NULL` connection. -/
def conn_get_fd (conn : Option Conn) : Int :=
  match conn with
  | none => -1
  | some c => c.FD

/-- The function `conn_is_closed`. -/
def conn_is_closed (conn : Option Conn) : Bool :=
  match conn with
  | none => true
  | some c => decide (c.State = ConnState.CONN_CLOSED)

/-- The function `conn_set_master`: the connection after the call. -/
def conn_set_master (conn : Option Conn) (is_master : Bool) : Option Conn :=
  match conn with
  | none => none
  | some c => some { c with IsMaster := is_master }

/-- The function `conn_is_master`. -/
def conn_is_master (conn : Option Conn) : Bool :=
  match conn with
  | none => false
  | some c => c.IsMaster

/-- The function `conn_update_addr`: the connection after the call; `addr` holds the bytes
of a C string, of which `strncpy` copies at most 63. -/
def conn_update_addr (conn : Option Conn) (addr : List Nat) (port : Int) : Option Conn :=
  match conn with
  | none => none
  | some c => some { c with LastAddr := strncpy c.LastAddr addr 63, LastPort := port }

/-- A call on a connection: a buffer call, `conn_set_master` or `conn_update_addr`. -/
inductive ConnCall where
  | buffer (op : ConnOp)
  | set_master (is_master : Bool)
  | update_addr (addr : List Nat) (port : Int)
deriving DecidableEq

/-- One call on a connection pointer; `none` when the call has no defined result. -/
def conn_call (conn : Option Conn) : ConnCall → Option (Option Conn)
  | ConnCall.buffer op => conn_step conn op
  | ConnCall.set_master is_master => some (conn_set_master conn is_master)
  | ConnCall.update_addr addr port => some (conn_update_addr conn addr port)

/-- A sequence of calls on a connection pointer, in order. -/
def conn_calls (conn : Option Conn) : List ConnCall → Option (Option Conn)
  | [] => some conn
  | call :: calls =>
    match conn_call conn call with
    | none => none
    | some conn1 => conn_calls conn1 calls

/-! ## `server.c`: the client count; `main.c`: the start of `main` -/

/-- The number of non-empty slots of `g_clients`. -/
def live_slots (g : Globals) : Nat := g.g_clients.countP (fun s => s.isSome)

/-- The part of `main` (of `main.c`) that comes before the call of `server_loop`: either the
result with which `main` leaves early, or the state handed to `server_loop` and the
descriptors closed so far. -/
def main_start (argv : List String) (env : MainEnv) : MainResult ⊕ (ServerState × List Int) :=
  match parse_args env.atoi argv.tail
      { port := DEFAULT_PORT, asset_port := DEFAULT_ASSET_PORT, auto_restart := false } with
  | none => Sum.inl (MainResult.exited 0 [] [] none)
  | some o =>
    match server_state_create o.port env with
    | none => Sum.inl (MainResult.exited 1 ["Failed to create server state\n"] [] none)
    | some state =>
      match init_server_socket o.port env.sys with
      | (none, closed) =>
        Sum.inl (MainResult.exited 1 ["Failed to initialize server socket\n"]
          (closed ++ server_state_free (some state)) none)
      | (some sock, closed) =>
        let state1 := { state with Socket := sock }
        let started :=
          if o.asset_port ≠ 0 then asset_server_start state1.AssetServer env.asset_sys
          else (state1.AssetServer, false, [])
        Sum.inr ({ state1 with AssetServer := started.1 }, closed ++ started.2.2)

/-- An environment of `main.c` in which every allocation and system call succeeds and
`atoi` reads "9000" as 9000. -/
def env_9000 : MainEnv :=
  { env_ok with atoi := fun s => if s = "9000" then 9000 else 0 }

/-! ## Properties of the connection buffer -/

theorem memcpy_length {dst src buf : List Nat} {off n : Nat}
    (h : memcpy dst off src n = some buf) : buf.length = dst.length := by
  unfold memcpy at h
  split at h
  · rename_i hb
    simp only [Option.some.injEq] at h
    subst h
    simp only [List.length_append, List.length_take, List.length_drop]
    omega
  · simp at h

theorem memmove_length {buf out : List Nat} {d s n : Nat}
    (h : memmove buf d s n = some out) : out.length = buf.length := by
  unfold memmove at h
  split at h
  · rename_i hb
    simp only [Option.some.injEq] at h
    subst h
    simp only [List.length_append, List.length_take, List.length_drop]
    omega
  · simp at h

/-- A connection returned by `conn_create` is well formed. -/
theorem conn_create_wf {fd : Int} {ok : Bool} {c : Conn} (h : conn_create fd ok = some c) :
    conn_wf c := by
  unfold conn_create at h
  split at h
  · simp only [Option.some.injEq] at h
    subst h
    simp [conn_wf]
  · simp at h

theorem conn_add_buffer_wf {p q : Option Conn} {data : List Nat} {length r : Nat}
    (hp : ptr_wf p) (h : conn_add_buffer p data length = some (q, r)) : ptr_wf q := by
  unfold conn_add_buffer at h
  cases p with
  | none =>
    simp only [Option.some.injEq, Prod.mk.injEq] at h
    intro c hc
    rw [← h.1] at hc
    simp at hc
  | some c =>
    have hw := hp c rfl
    simp only at h
    split at h
    · simp only [Option.some.injEq, Prod.mk.injEq] at h
      rw [← h.1]
      exact hp
    · rename_i hchk
      split at h
      · simp at h
      · rename_i buf hm
        simp only [Option.some.injEq, Prod.mk.injEq] at h
        intro c2 hc2
        rw [← h.1] at hc2
        simp only [Option.some.injEq] at hc2
        subst hc2
        refine ⟨?_, ?_⟩
        · simp only
          rw [memcpy_length hm]
          exact hw.1
        · simp only
          omega

theorem conn_consume_buffer_wf {p q : Option Conn} {amount r : Nat}
    (hp : ptr_wf p) (h : conn_consume_buffer p amount = some (q, r)) : ptr_wf q := by
  unfold conn_consume_buffer at h
  cases p with
  | none =>
    simp only [Option.some.injEq, Prod.mk.injEq] at h
    intro c hc
    rw [← h.1] at hc
    simp at hc
  | some c =>
    have hw := hp c rfl
    simp only at h
    split at h
    · simp only [Option.some.injEq, Prod.mk.injEq] at h
      rw [← h.1]
      exact hp
    · split at h
      · simp at h
      · rename_i buf hm
        simp only [Option.some.injEq, Prod.mk.injEq] at h
        intro c2 hc2
        rw [← h.1] at hc2
        simp only [Option.some.injEq] at hc2
        subst hc2
        refine ⟨?_, ?_⟩
        · simp only
          rw [memmove_length hm]
          exact hw.1
        · have := hw.2
          simp only
          omega

theorem conn_clear_buffer_wf {p : Option Conn} (hp : ptr_wf p) :
    ptr_wf (conn_clear_buffer p) := by
  cases p with
  | none => intro c hc; simp [conn_clear_buffer] at hc
  | some c =>
    have hw := hp c rfl
    intro c2 hc2
    simp only [conn_clear_buffer, Option.some.injEq] at hc2
    subst hc2
    exact ⟨hw.1, Nat.zero_le _⟩

theorem conn_step_wf {p q : Option Conn} {op : ConnOp}
    (hp : ptr_wf p) (h : conn_step p op = some q) : ptr_wf q := by
  cases op with
  | add data length =>
    simp only [conn_step, Option.map_eq_some'] at h
    obtain ⟨⟨q1, r⟩, hq, rfl⟩ := h
    exact conn_add_buffer_wf hp hq
  | consume amount =>
    simp only [conn_step, Option.map_eq_some'] at h
    obtain ⟨⟨q1, r⟩, hq, rfl⟩ := h
    exact conn_consume_buffer_wf hp hq
  | clear =>
    simp only [conn_step, Option.some.injEq] at h
    subst h
    exact conn_clear_buffer_wf hp

theorem conn_run_wf (ops : List ConnOp) : ∀ {p q : Option Conn},
    ptr_wf p → conn_run p ops = some q → ptr_wf q := by
  induction ops with
  | nil =>
    intro p q hp h
    simp only [conn_run, Option.some.injEq] at h
    subst h
    exact hp
  | cons op ops ih =>
    intro p q hp h
    simp only [conn_run] at h
    split at h
    · simp at h
    · rename_i p1 hs
      exact ih (conn_step_wf hp hs) h

theorem conn_peek_eq (c : Conn) : conn_peek c = c.Buffer.take c.BufferUsed := rfl

/-- Appending within the capacity: the call is accepted and the new bytes follow the
buffered ones. -/
theorem conn_add_buffer_fits (c : Conn) (X : List Nat) (hw : conn_wf c)
    (h : c.BufferUsed + X.length ≤ BUFFER_SIZE) :
    conn_add_buffer (some c) X X.length =
      some (some { c with
          Buffer := c.Buffer.take c.BufferUsed ++ X ++ c.Buffer.drop (c.BufferUsed + X.length)
          BufferUsed := c.BufferUsed + X.length },
        X.length) := by
  have hlen := hw.1
  have hmod : (c.BufferUsed + X.length) % SIZE_MOD = c.BufferUsed + X.length := by
    apply Nat.mod_eq_of_lt
    simp only [BUFFER_SIZE] at h
    simp only [SIZE_MOD]
    omega
  have hcpy : memcpy c.Buffer c.BufferUsed X X.length =
      some (c.Buffer.take c.BufferUsed ++ X ++ c.Buffer.drop (c.BufferUsed + X.length)) := by
    unfold memcpy
    rw [if_pos ⟨by omega, le_refl _⟩, List.take_length]
  unfold conn_add_buffer
  simp only [hmod, hcpy]
  rw [if_neg (by omega)]

/-- Consuming at most the used length: the call is accepted and the remainder is
shifted to offset 0. -/
theorem conn_consume_buffer_fits (c : Conn) (k : Nat) (hw : conn_wf c)
    (hk : k ≤ c.BufferUsed) :
    conn_consume_buffer (some c) k =
      some (some { c with
          Buffer := (c.Buffer.drop k).take (c.BufferUsed - k) ++ c.Buffer.drop (c.BufferUsed - k)
          BufferUsed := c.BufferUsed - k },
        k) := by
  have hlen := hw.1
  have hu := hw.2
  have hmv : memmove c.Buffer 0 k (c.BufferUsed - k) =
      some ((c.Buffer.drop k).take (c.BufferUsed - k) ++ c.Buffer.drop (c.BufferUsed - k)) := by
    unfold memmove
    rw [if_pos ⟨by omega, by omega⟩]
    simp
  unfold conn_consume_buffer
  simp only [hmv]
  rw [if_neg (by omega)]

/-- The bound on the used length where the calls are defined: for every sequence of
`conn_add_buffer`, `conn_consume_buffer` and `conn_clear_buffer` calls on what `conn_create`
returned, none of which writes outside an array, the used length is at most
`BUFFER_SIZE` (8192) afterwards, read from the field or through
`conn_get_buffer_used`. The sequences with an append that writes outside `Buffer`
are not covered here. -/
theorem conn_buffer_used_le_capacity (fd : Int) (malloc_ok : Bool) (ops : List ConnOp)
    (p : Option Conn) (h : conn_run (conn_create fd malloc_ok) ops = some p) :
    conn_get_buffer_used p ≤ BUFFER_SIZE ∧ ∀ c, p = some c → c.BufferUsed ≤ BUFFER_SIZE := by
  have h0 : ptr_wf (conn_create fd malloc_ok) := fun c hc => conn_create_wf hc
  have hq : ptr_wf p := conn_run_wf ops h0 h
  constructor
  · cases p with
    | none => simp [conn_get_buffer_used]
    | some c => exact (hq c rfl).2
  · intro c hc
    exact (hq c hc).2

/-- Example of a defined sequence: three bytes appended, one consumed, the buffer
cleared, one byte appended. -/
theorem conn_buffer_used_le_capacity_witness :
    ∃ p, conn_run (conn_create 3 true)
        [ConnOp.add [1, 2, 3] 3, ConnOp.consume 1, ConnOp.clear, ConnOp.add [7] 1] = some p ∧
      conn_get_buffer_used p ≤ BUFFER_SIZE := by
  have h : ∃ p, conn_run (conn_create 3 true)
      [ConnOp.add [1, 2, 3] 3, ConnOp.consume 1, ConnOp.clear, ConnOp.add [7] 1] = some p := by
    simp [conn_run, conn_step, conn_add_buffer, conn_consume_buffer, conn_clear_buffer, memcpy,
      memmove, conn_create, BUFFER_SIZE, SIZE_MOD, -List.reduceReplicate]
  obtain ⟨p, hp⟩ := h
  exact ⟨p, hp, (conn_buffer_used_le_capacity 3 true _ p hp).1⟩

/-- An append whose length makes `used + length` exceed the capacity is rejected as
long as the sum does not wrap in `size_t`. -/
theorem conn_add_buffer_rejects (c : Conn) (data : List Nat) (length : Nat)
    (hlt : c.BufferUsed + length < SIZE_MOD) (h : c.BufferUsed + length > BUFFER_SIZE) :
    conn_add_buffer (some c) data length = some (some c, 0) := by
  unfold conn_add_buffer
  simp only [Nat.mod_eq_of_lt hlt]
  rw [if_pos h]

/-- When `used + length` wraps in `size_t` the bound test of `conn_add_buffer` passes and
the `memcpy` leaves the buffer: the call is not rejected and has no defined result. -/
theorem conn_add_buffer_wrap (c : Conn) (data : List Nat) (length : Nat) (hw : conn_wf c)
    (hlen : length < SIZE_MOD) (h : SIZE_MOD ≤ c.BufferUsed + length) :
    conn_add_buffer (some c) data length = none := by
  have h1 := hw.1
  have h2 := hw.2
  simp only [BUFFER_SIZE] at h1 h2
  simp only [SIZE_MOD] at hlen h
  have hchk : ¬ ((c.BufferUsed + length) % SIZE_MOD > BUFFER_SIZE) := by
    simp only [SIZE_MOD, BUFFER_SIZE]
    omega
  have hcpy : memcpy c.Buffer c.BufferUsed data length = none := by
    unfold memcpy
    rw [if_neg]
    intro hb
    omega
  unfold conn_add_buffer
  simp only [hcpy]
  rw [if_neg hchk]

/-- A buffer call on a well-formed connection has no defined result only when it is an
append that the bound test lets through although `used + length` wraps in
`size_t`, or an append whose `data` holds fewer than `length` bytes. -/
theorem conn_step_undefined (c : Conn) (op : ConnOp) (hw : conn_wf c)
    (h : conn_step (some c) op = none) :
    ∃ data length, op = ConnOp.add data length ∧
      ¬ ((c.BufferUsed + length) % SIZE_MOD > BUFFER_SIZE) ∧
      (SIZE_MOD ≤ c.BufferUsed + length ∨ data.length < length) := by
  have h1 := hw.1
  have h2 := hw.2
  cases op with
  | add data length =>
    simp only [conn_step, conn_add_buffer] at h
    by_cases ht : (c.BufferUsed + length) % SIZE_MOD > BUFFER_SIZE
    · rw [if_pos ht] at h
      simp at h
    · refine ⟨data, length, rfl, ht, ?_⟩
      by_cases hwrap : SIZE_MOD ≤ c.BufferUsed + length
      · exact Or.inl hwrap
      · right
        by_contra hd
        have hsum : (c.BufferUsed + length) % SIZE_MOD = c.BufferUsed + length :=
          Nat.mod_eq_of_lt (by omega)
        rw [hsum] at ht
        have hcpy : memcpy c.Buffer c.BufferUsed data length =
            some (c.Buffer.take c.BufferUsed ++ data.take length ++
              c.Buffer.drop (c.BufferUsed + length)) := by
          unfold memcpy
          rw [if_pos ⟨by omega, by omega⟩]
        rw [if_neg (by rw [hsum]; exact ht), hcpy] at h
        simp at h
  | consume amount =>
    exfalso
    by_cases ha : amount ≤ c.BufferUsed
    · simp only [conn_step, conn_consume_buffer_fits c amount hw ha] at h
      simp at h
    · simp only [conn_step, conn_consume_buffer,
        if_pos (show amount > c.BufferUsed by omega)] at h
      simp at h
  | clear =>
    simp [conn_step] at h

/-- Claim C1, which the code breaks. Wherever the behaviour of the calls is defined the
claim holds: the used length is at most `BUFFER_SIZE` after every such sequence,
and the only buffer calls without a defined result are the appends that the bound
test lets through although `used + length` wraps in `size_t` (or whose `data` holds
fewer than `length` bytes). But such an append is covered by "any arguments", and
there the code does not keep the bound: after 8190 bytes have been appended, an
append of length `2 ^ 64 - 8190` has `used + length = 2 ^ 64`, which wraps to 0; the
test passes, the call is not rejected, and the `memcpy` of `2 ^ 64 - 8190` bytes at
`Buffer + 8190` leaves the array of 8192 bytes, behind which `BufferUsed` is stored:
the value of `BufferUsed` after the call is not determined by the code. -/
theorem wrapping_append_breaks_used_bound :
    (∀ (fd : Int) (malloc_ok : Bool) (ops : List ConnOp) (p : Option Conn),
      conn_run (conn_create fd malloc_ok) ops = some p →
      conn_get_buffer_used p ≤ BUFFER_SIZE) ∧
      (∀ (c : Conn) (op : ConnOp), conn_wf c → conn_step (some c) op = none →
        ∃ data length, op = ConnOp.add data length ∧
          ¬ ((c.BufferUsed + length) % SIZE_MOD > BUFFER_SIZE) ∧
          (SIZE_MOD ≤ c.BufferUsed + length ∨ data.length < length)) ∧
      ∃ c, conn_run (conn_create 3 true) [ConnOp.add (List.replicate 8190 255) 8190] =
          some (some c) ∧
        c.BufferUsed = 8190 ∧ c.Buffer.length = 8192 ∧ SIZE_MAX - 8189 < SIZE_MOD ∧
        c.BufferUsed + (SIZE_MAX - 8189) > BUFFER_SIZE ∧
        (c.BufferUsed + (SIZE_MAX - 8189)) % SIZE_MOD = 0 ∧
        c.BufferUsed + (SIZE_MAX - 8189) > c.Buffer.length ∧
        (∀ data, conn_add_buffer (some c) data (SIZE_MAX - 8189) ≠ some (some c, 0)) ∧
        (∀ data, conn_add_buffer (some c) data (SIZE_MAX - 8189) = none) ∧
        ∀ data, conn_run (conn_create 3 true)
          [ConnOp.add (List.replicate 8190 255) 8190, ConnOp.add data (SIZE_MAX - 8189)] =
            none := by
  refine ⟨?_, fun c op hw h => conn_step_undefined c op hw h, ?_⟩
  · intro fd malloc_ok ops p h
    have hq : ptr_wf p := conn_run_wf ops (fun c hc => conn_create_wf hc) h
    cases p with
    | none => simp [conn_get_buffer_used]
    | some c => exact (hq c rfl).2
  · have hc0 : conn_create 3 true =
        some
          { FD := 3
            State := ConnState.CONN_NEW
            LastAddr := List.replicate 64 0
            LastPort := 0
            Buffer := List.replicate BUFFER_SIZE 0
            BufferUsed := 0
            IsMaster := false } := rfl
    have hw0 := conn_create_wf hc0
    have hl : (List.replicate 8190 255).length = 8190 := List.length_replicate _ _
    have hadd := conn_add_buffer_fits _ (List.replicate 8190 255) hw0
      (by rw [hl]; decide)
    rw [hl] at hadd
    have hrun : conn_run (conn_create 3 true) [ConnOp.add (List.replicate 8190 255) 8190] =
        some (some
          { FD := 3
            State := ConnState.CONN_NEW
            LastAddr := List.replicate 64 0
            LastPort := 0
            Buffer := (List.replicate BUFFER_SIZE 0).take 0 ++ List.replicate 8190 255 ++
              (List.replicate BUFFER_SIZE 0).drop (0 + 8190)
            BufferUsed := 0 + 8190
            IsMaster := false }) := by
      simp only [conn_run, conn_step, hc0, hadd, Option.map_some']
    have hw : conn_wf
        { FD := 3
          State := ConnState.CONN_NEW
          LastAddr := List.replicate 64 0
          LastPort := 0
          Buffer := (List.replicate BUFFER_SIZE 0).take 0 ++ List.replicate 8190 255 ++
            (List.replicate BUFFER_SIZE 0).drop (0 + 8190)
          BufferUsed := 0 + 8190
          IsMaster := false } :=
      conn_run_wf _ (fun c0 h0 => conn_create_wf h0) hrun _ rfl
    have hnone : ∀ data, conn_add_buffer (some
        { FD := 3
          State := ConnState.CONN_NEW
          LastAddr := List.replicate 64 0
          LastPort := 0
          Buffer := (List.replicate BUFFER_SIZE 0).take 0 ++ List.replicate 8190 255 ++
            (List.replicate BUFFER_SIZE 0).drop (0 + 8190)
          BufferUsed := 0 + 8190
          IsMaster := false }) data (SIZE_MAX - 8189) = none := by
      intro data
      exact conn_add_buffer_wrap _ data (SIZE_MAX - 8189) hw (by decide) (by decide)
    refine ⟨_, hrun, rfl, hw.1, by decide, by decide, by decide, ?_, ?_, hnone, ?_⟩
    · rw [hw.1]
      decide
    · intro data
      rw [hnone data]
      exact fun h => Option.noConfusion h
    · intro data
      have h2 : conn_run (conn_create 3 true)
          [ConnOp.add (List.replicate 8190 255) 8190, ConnOp.add data (SIZE_MAX - 8189)] =
          conn_run (some
            { FD := 3
              State := ConnState.CONN_NEW
              LastAddr := List.replicate 64 0
              LastPort := 0
              Buffer := (List.replicate BUFFER_SIZE 0).take 0 ++ List.replicate 8190 255 ++
                (List.replicate BUFFER_SIZE 0).drop (0 + 8190)
              BufferUsed := 0 + 8190
              IsMaster := false }) [ConnOp.add data (SIZE_MAX - 8189)] := by
        simp only [conn_run, conn_step, hc0, hadd, Option.map_some']
      rw [h2]
      simp only [conn_run, conn_step, hnone data, Option.map_none']

/-- Claim C2, which the code breaks. After one byte has been appended to a
fresh connection (`BufferUsed = 1`), `conn_add_buffer` with `length = SIZE_MAX` has
`used + length = 2 ^ 64 > 8192`, yet the sum wraps to 0 in `size_t`, the bound
test passes and the call is not rejected: it does not return 0 with the
connection unchanged, but runs a `memcpy` of `SIZE_MAX` bytes past the buffer. -/
theorem conn_add_buffer_size_max_not_rejected :
    ∃ c, conn_run (conn_create 3 true) [ConnOp.add [65] 1] = some (some c) ∧
      c.BufferUsed = 1 ∧ SIZE_MAX < SIZE_MOD ∧ c.BufferUsed + SIZE_MAX > BUFFER_SIZE ∧
      (c.BufferUsed + SIZE_MAX) % SIZE_MOD = 0 ∧
      conn_add_buffer (some c) [66] SIZE_MAX ≠ some (some c, 0) ∧
      conn_add_buffer (some c) [66] SIZE_MAX = none := by
  have h : ∃ c, conn_run (conn_create 3 true) [ConnOp.add [65] 1] = some (some c) ∧
      c.BufferUsed = 1 := by
    simp [conn_run, conn_step, conn_add_buffer, memcpy, conn_create, BUFFER_SIZE, SIZE_MOD,
      -List.reduceReplicate]
  obtain ⟨c, hc, hu⟩ := h
  have hw : conn_wf c :=
    conn_run_wf _ (fun c0 h0 => conn_create_wf h0) hc c rfl
  have hnone : conn_add_buffer (some c) [66] SIZE_MAX = none :=
    conn_add_buffer_wrap c [66] SIZE_MAX hw (by decide) (by rw [hu]; decide)
  refine ⟨c, hc, hu, by decide, ?_, ?_, ?_, hnone⟩
  · rw [hu]; decide
  · rw [hu]; decide
  · rw [hnone]; simp

/-- Claim C3. On an empty connection buffer (`BufferUsed = 0`), for every byte sequence
`X` of at most 8192 bytes and every `k ≤ |X|`: `conn_add_buffer(X)` returns `|X|`, the
following `conn_consume_buffer(k)` returns `k`, the buffered bytes are then `X[k:]`
and the used length is `|X| - k`. More generally, for any connection `b` holding
buffered bytes `B = conn_peek b` and any `j ≤ |B|`, `conn_consume_buffer(j)` returns `j`
and leaves exactly `B[j:]` at offset 0, with used length `|B| - j`. -/
theorem conn_consume_buffer_correct (c : Conn) (X : List Nat) (k : Nat) (hw : conn_wf c)
    (h0 : c.BufferUsed = 0) (hX : X.length ≤ BUFFER_SIZE) (hk : k ≤ X.length) :
    (∃ c1 c2, conn_add_buffer (some c) X X.length = some (some c1, X.length) ∧
      conn_consume_buffer (some c1) k = some (some c2, k) ∧
      conn_peek c2 = X.drop k ∧ c2.BufferUsed = X.length - k) ∧
    ∀ (b : Conn) (j : Nat), conn_wf b → j ≤ b.BufferUsed →
      ∃ b2, conn_consume_buffer (some b) j = some (some b2, j) ∧
        conn_peek b2 = (conn_peek b).drop j ∧ b2.BufferUsed = b.BufferUsed - j := by
  have gen : ∀ (b : Conn) (j : Nat), conn_wf b → j ≤ b.BufferUsed →
      ∃ b2, conn_consume_buffer (some b) j = some (some b2, j) ∧
        conn_peek b2 = (conn_peek b).drop j ∧ b2.BufferUsed = b.BufferUsed - j := by
    intro b j hb hj
    refine ⟨_, conn_consume_buffer_fits b j hb hj, ?_, rfl⟩
    have hl := hb.1
    have hu := hb.2
    simp only [conn_peek_eq]
    rw [List.take_append_of_le_length (by simp only [List.length_take, List.length_drop]; omega),
      List.take_take, Nat.min_self, List.drop_take]
  refine ⟨?_, gen⟩
  have hadd := conn_add_buffer_fits c X hw (by omega)
  have hw1 : conn_wf { c with
      Buffer := c.Buffer.take c.BufferUsed ++ X ++ c.Buffer.drop (c.BufferUsed + X.length)
      BufferUsed := c.BufferUsed + X.length } :=
    conn_add_buffer_wf (fun c0 h => by cases h; exact hw) hadd _ rfl
  obtain ⟨c2, hc2, hp2, hu2⟩ := gen _ k hw1 (by simp only; omega)
  refine ⟨_, c2, hadd, hc2, ?_, ?_⟩
  · rw [hp2]
    simp only [conn_peek_eq, h0, List.take_zero, List.nil_append, Nat.zero_add]
    rw [List.take_append_of_le_length (le_refl _), List.take_length]
  · rw [hu2]
    simp only [h0, Nat.zero_add]

/-- Witness of C3: `[10, 20, 30]` appended to a fresh connection, then one byte
consumed, which leaves `[20, 30]`; one more byte consumed from that buffer leaves
`[30]`. -/
theorem conn_consume_buffer_correct_witness :
    ∃ c c1 c2 c3, conn_create 3 true = some c ∧
      conn_add_buffer (some c) [10, 20, 30] 3 = some (some c1, 3) ∧
      conn_consume_buffer (some c1) 1 = some (some c2, 1) ∧
      conn_peek c2 = [20, 30] ∧ c2.BufferUsed = 2 ∧
      conn_consume_buffer (some c2) 1 = some (some c3, 1) ∧
      conn_peek c3 = [30] ∧ c3.BufferUsed = 1 := by
  have hc : ∃ c, conn_create 3 true = some c ∧ c.BufferUsed = 0 := ⟨_, rfl, rfl⟩
  obtain ⟨c, hc, hu⟩ := hc
  have hw : conn_wf c := conn_create_wf hc
  have hthm := conn_consume_buffer_correct c [10, 20, 30] 1 hw hu (by decide) (by decide)
  obtain ⟨⟨c1, c2, h1, h2, h3, h4⟩, hgen⟩ := hthm
  have hw1 : ptr_wf (some c1) := conn_add_buffer_wf (fun c0 h => by cases h; exact hw) h1
  have hw2 : conn_wf c2 := conn_consume_buffer_wf hw1 h2 c2 rfl
  obtain ⟨c3, h5, h6, h7⟩ := hgen c2 1 hw2 (by rw [h4]; decide)
  refine ⟨c, c1, c2, c3, hc, h1, h2, h3, h4, h5, ?_, ?_⟩
  · rw [h6, h3]
    rfl
  · rw [h7, h4]
    rfl

/-- Claim C4. For every connection (a `NULL` pointer included) and every `n` greater
than the used length, `conn_consume_buffer(n)` does not underflow: it returns 0 and
leaves the connection, buffer bytes and used length, unchanged. -/
theorem conn_consume_buffer_rejects (p : Option Conn) (n : Nat)
    (h : n > conn_get_buffer_used p) :
    conn_consume_buffer p n = some (p, 0) := by
  cases p with
  | none => rfl
  | some c =>
    have hc : c.BufferUsed < n := h
    unfold conn_consume_buffer
    simp only
    rw [if_pos hc]

/-- Witness of C4: consuming 5 bytes from a fresh, empty connection. -/
theorem conn_consume_buffer_rejects_witness :
    ∃ c, conn_create 3 true = some c ∧ conn_get_buffer_used (some c) = 0 ∧
      conn_consume_buffer (some c) 5 = some (some c, 0) :=
  ⟨_, rfl, rfl, conn_consume_buffer_rejects (conn_create 3 true) 5 (by decide)⟩

/-- Claim C5. For every connection holding the buffered bytes `B = conn_peek c` and every
data `X` with `|B| + |X| ≤ 8192`, `conn_add_buffer` returns `|X|`; afterwards the used
length is `|B| + |X|` and the buffered bytes are `B` followed by `X`. -/
theorem conn_add_buffer_appends (c : Conn) (X : List Nat) (hw : conn_wf c)
    (h : c.BufferUsed + X.length ≤ BUFFER_SIZE) :
    ∃ c1, conn_add_buffer (some c) X X.length = some (some c1, X.length) ∧
      c1.BufferUsed = c.BufferUsed + X.length ∧
      (conn_peek c).length = c.BufferUsed ∧
      conn_peek c1 = conn_peek c ++ X := by
  have hl := hw.1
  refine ⟨_, conn_add_buffer_fits c X hw h, rfl, ?_, ?_⟩
  · simp only [conn_peek_eq, List.length_take]
    omega
  · simp only [conn_peek_eq]
    have hlen : (c.Buffer.take c.BufferUsed ++ X).length = c.BufferUsed + X.length := by
      simp only [List.length_append, List.length_take]
      omega
    rw [List.take_append_of_le_length (by omega), ← hlen, List.take_length]

/-- Witness of C5: two bytes appended to a connection that already holds `[1, 2, 3]`. -/
theorem conn_add_buffer_appends_witness :
    ∃ c c1, conn_run (conn_create 3 true) [ConnOp.add [1, 2, 3] 3] = some (some c) ∧
      conn_add_buffer (some c) [4, 5] 2 = some (some c1, 2) ∧
      c1.BufferUsed = c.BufferUsed + 2 ∧ conn_peek c1 = conn_peek c ++ [4, 5] := by
  have h : ∃ c, conn_run (conn_create 3 true) [ConnOp.add [1, 2, 3] 3] = some (some c) ∧
      c.BufferUsed = 3 := by
    simp [conn_run, conn_step, conn_add_buffer, memcpy, conn_create, BUFFER_SIZE, SIZE_MOD,
      -List.reduceReplicate]
  obtain ⟨c, hc, hu⟩ := h
  have hw : conn_wf c := conn_run_wf _ (fun c0 h0 => conn_create_wf h0) hc c rfl
  obtain ⟨c1, h1, h2, _, h4⟩ :=
    conn_add_buffer_appends c [4, 5] hw (by rw [hu]; decide)
  exact ⟨c, c1, hc, h1, h2, h4⟩

/-! ## Properties of the client registry -/

theorem first_index_some {P : Nat → Bool} : ∀ (fuel i : Nat) {j : Nat},
    first_index P fuel i = some j →
    i ≤ j ∧ j < i + fuel ∧ P j = true ∧ ∀ m, i ≤ m → m < j → P m = false := by
  intro fuel
  induction fuel with
  | zero => intro i j h; simp [first_index] at h
  | succ n ih =>
    intro i j h
    simp only [first_index] at h
    split at h
    · rename_i hp
      simp only [Option.some.injEq] at h
      subst h
      exact ⟨le_refl _, by omega, hp, fun m h1 h2 => by omega⟩
    · rename_i hp
      obtain ⟨h1, h2, h3, h4⟩ := ih (i + 1) h
      refine ⟨by omega, by omega, h3, ?_⟩
      intro m hm1 hm2
      by_cases hmi : m = i
      · subst hmi; simpa using hp
      · exact h4 m (by omega) hm2

theorem first_index_none {P : Nat → Bool} : ∀ (fuel i : Nat),
    first_index P fuel i = none → ∀ m, i ≤ m → m < i + fuel → P m = false := by
  intro fuel
  induction fuel with
  | zero => intro i _ m h1 h2; omega
  | succ n ih =>
    intro i h m h1 h2
    simp only [first_index] at h
    split at h
    · simp at h
    · rename_i hp
      by_cases hmi : m = i
      · subst hmi; simpa using hp
      · exact ih (i + 1) h m (by omega) (by omega)

theorem register_loop_eq (reg : ClientRegistry) (client : Client) : ∀ (fuel i : Nat),
    register_loop reg client fuel i =
      match first_index (slot_empty reg) fuel i with
      | some j =>
        ({ reg with clients := reg.clients.set j (some client),
                    count := wrap_int (reg.count + 1) }, client.ID)
      | none => (reg, -1) := by
  intro fuel
  induction fuel with
  | zero => intro i; rfl
  | succ n ih =>
    intro i
    rcases Option.eq_none_or_eq_some (reg.clients.getD i none) with h | ⟨c, h⟩
    · simp only [register_loop, first_index, slot_empty, h, if_true]
    · have hs : slot_empty reg i = false := by simp only [slot_empty, h]
      simp only [register_loop, first_index, h, hs, Bool.false_eq_true, if_false]
      exact ih (i + 1)

theorem remove_loop_eq (reg : ClientRegistry) (client_id : Int) : ∀ (fuel i : Nat),
    remove_loop reg client_id fuel i =
      match first_index (slot_has_id reg client_id) fuel i with
      | some j =>
        ({ reg with clients := reg.clients.set j none,
                    count := wrap_int (reg.count - 1) }, true)
      | none => (reg, false) := by
  intro fuel
  induction fuel with
  | zero => intro i; rfl
  | succ n ih =>
    intro i
    rcases Option.eq_none_or_eq_some (reg.clients.getD i none) with h | ⟨c, h⟩
    · have hs : slot_has_id reg client_id i = false := by simp only [slot_has_id, h]
      simp only [remove_loop, first_index, h, hs, Bool.false_eq_true, if_false]
      exact ih (i + 1)
    · by_cases hc : c.ID = client_id
      · have hs : slot_has_id reg client_id i = true := by
          simp only [slot_has_id, h, hc, decide_True]
        simp only [remove_loop, first_index, h, hs, hc, if_true]
      · have hs : slot_has_id reg client_id i = false := by
          simp only [slot_has_id, h, hc, decide_False]
        simp only [remove_loop, first_index, h, hs, hc, Bool.false_eq_true, if_false]
        exact ih (i + 1)

theorem getD_lt_length {l : List (Option Client)} {i : Nat} {c : Client}
    (h : l.getD i none = some c) : i < l.length := by
  by_contra hn
  rw [List.getD_eq_default _ _ (by omega)] at h
  simp at h

theorem countP_set_some (c : Client) : ∀ (l : List (Option Client)) (i : Nat),
    i < l.length → l.getD i none = none →
    (l.set i (some c)).countP (fun s => s.isSome) = l.countP (fun s => s.isSome) + 1 := by
  intro l
  induction l with
  | nil => intro i hi; simp at hi
  | cons a t ih =>
    intro i hi h
    cases i with
    | zero =>
      simp only [List.getD_cons_zero] at h
      subst h
      simp [List.countP_cons]
    | succ k =>
      simp only [List.getD_cons_succ] at h
      simp only [List.length_cons] at hi
      simp only [List.set_cons_succ, List.countP_cons, ih k (by omega) h]
      omega

theorem countP_set_none (c : Client) : ∀ (l : List (Option Client)) (i : Nat),
    l.getD i none = some c →
    (l.set i none).countP (fun s => s.isSome) + 1 = l.countP (fun s => s.isSome) := by
  intro l
  induction l with
  | nil => intro i h; simp at h
  | cons a t ih =>
    intro i h
    cases i with
    | zero =>
      simp only [List.getD_cons_zero] at h
      subst h
      simp [List.countP_cons]
    | succ k =>
      simp only [List.getD_cons_succ] at h
      simp only [List.set_cons_succ, List.countP_cons, ← ih k h]
      omega

theorem exists_empty_of_countP_lt : ∀ (l : List (Option Client)),
    l.countP (fun s => s.isSome) < l.length → ∃ m, m < l.length ∧ l.getD m none = none := by
  intro l
  induction l with
  | nil => intro h; simp at h
  | cons a t ih =>
    intro h
    cases a with
    | none => exact ⟨0, by simp, by simp⟩
    | some c =>
      simp only [List.countP_cons, Option.isSome_some, if_true, List.length_cons] at h
      obtain ⟨m, hm, hg⟩ := ih (by omega)
      exact ⟨m + 1, by simp only [List.length_cons]; omega, by simpa using hg⟩

theorem getD_set_eq {l : List (Option Client)} {i : Nat} (a : Option Client)
    (h : i < l.length) : (l.set i a).getD i none = a := by
  simp [List.getD_eq_getElem?_getD, List.getElem?_set_self, h]

theorem getD_set_ne {l : List (Option Client)} {i j : Nat} (a : Option Client)
    (h : i ≠ j) : (l.set i a).getD j none = l.getD j none := by
  simp [List.getD_eq_getElem?_getD, List.getElem?_set_ne h]

theorem live_count_le (reg : ClientRegistry) : live_count reg ≤ reg.clients.length :=
  List.countP_le_length _

theorem wrap_int_id {v : Int} (h1 : INT_MIN ≤ v) (h2 : v ≤ INT_MAX) : wrap_int v = v := by
  simp only [INT_MIN, INT_MAX] at h1 h2
  simp only [wrap_int]
  omega

theorem slot_empty_iff (reg : ClientRegistry) (m : Nat) :
    slot_empty reg m = true ↔ reg.clients.getD m none = none := by
  unfold slot_empty
  rcases Option.eq_none_or_eq_some (reg.clients.getD m none) with h | ⟨c, h⟩
  · simp only [h]
  · simp only [h]
    simp

theorem slot_has_id_iff (reg : ClientRegistry) (client_id : Int) (m : Nat) :
    slot_has_id reg client_id m = true ↔
      ∃ c, reg.clients.getD m none = some c ∧ c.ID = client_id := by
  unfold slot_has_id
  rcases Option.eq_none_or_eq_some (reg.clients.getD m none) with h | ⟨c, h⟩
  · simp only [h]
    simp
  · simp only [h]
    simp

/-- Outcome of `client_registry_register` on a well-formed registry: either nothing
changes and -1 is returned (table full or allocation failure), or the first empty
slot takes the new client. -/
theorem register_cases (reg : ClientRegistry) (address : List Nat) (port : Int)
    (login : List Nat) (is_admin : Bool) (now : Int) (malloc_ok : Bool) (hw : reg_wf reg) :
    ((reg.count ≥ (MAX_CLIENTS : Int) ∨ malloc_ok = false) ∧
      client_registry_register reg address port login is_admin now malloc_ok = (reg, -1)) ∨
    (reg.count < (MAX_CLIENTS : Int) ∧ malloc_ok = true ∧
      ∃ i, i < MAX_CLIENTS ∧ reg.clients.getD i none = none ∧
        (∀ m, m < i → reg.clients.getD m none ≠ none) ∧
        client_registry_register reg address port login is_admin now malloc_ok =
          ({ next_id := wrap_int (reg.next_id + 1)
             count := reg.count + 1
             clients := reg.clients.set i
               (some (new_client reg.next_id address port login is_admin now)) },
            reg.next_id)) := by
  obtain ⟨hlen, hcnt⟩ := hw
  by_cases hfull : reg.count ≥ (MAX_CLIENTS : Int)
  · left
    exact ⟨Or.inl hfull, by simp only [client_registry_register, if_pos hfull]⟩
  · by_cases hm : malloc_ok = false
    · left
      exact ⟨Or.inr hm, by simp only [client_registry_register, if_neg hfull, if_pos hm]⟩
    · right
      have hlt : reg.count < (MAX_CLIENTS : Int) := by omega
      refine ⟨hlt, by simpa using hm, ?_⟩
      have hex : ∃ m, m < reg.clients.length ∧ reg.clients.getD m none = none := by
        apply exists_empty_of_countP_lt
        have : (live_count reg : Int) < (MAX_CLIENTS : Int) := by rw [← hcnt]; exact hlt
        rw [hlen]
        exact_mod_cast this
      obtain ⟨m, hm1, hm2⟩ := hex
      simp only [client_registry_register, if_neg hfull, if_neg hm, register_loop_eq]
      cases hf : first_index
          (slot_empty { reg with next_id := wrap_int (reg.next_id + 1) }) MAX_CLIENTS 0 with
      | none =>
        exfalso
        have := first_index_none _ _ hf m (Nat.zero_le _) (by omega)
        have h2 := (slot_empty_iff { reg with next_id := wrap_int (reg.next_id + 1) } m).2 hm2
        rw [h2] at this
        simp at this
      | some j =>
        obtain ⟨_, hj2, hj3, hj4⟩ := first_index_some _ _ hf
        have hje : reg.clients.getD j none = none := (slot_empty_iff _ j).1 hj3
        refine ⟨j, by omega, hje, ?_, ?_⟩
        · intro k hk hkn
          have := hj4 k (Nat.zero_le _) hk
          have h2 := (slot_empty_iff { reg with next_id := wrap_int (reg.next_id + 1) } k).2 hkn
          rw [h2] at this
          simp at this
        · have hc0 : (0 : Int) ≤ reg.count := by rw [hcnt]; exact Int.natCast_nonneg _
          have hwc : wrap_int (reg.count + 1) = reg.count + 1 := by
            apply wrap_int_id
            · simp only [INT_MIN]; omega
            · simp only [INT_MAX, MAX_CLIENTS] at *; omega
          simp only [hwc, new_client]

/-- Outcome of `client_registry_remove`: either the first slot holding the ID is
emptied and `true` returned, or no slot holds the ID and nothing changes. -/
theorem remove_cases (reg : ClientRegistry) (client_id : Int) :
    (∃ j c, j < MAX_CLIENTS ∧ reg.clients.getD j none = some c ∧ c.ID = client_id ∧
      (∀ m, m < j → slot_has_id reg client_id m = false) ∧
      client_registry_remove reg client_id =
        ({ next_id := reg.next_id
           count := wrap_int (reg.count - 1)
           clients := reg.clients.set j none }, true)) ∨
    ((∀ m, m < MAX_CLIENTS → slot_has_id reg client_id m = false) ∧
      client_registry_remove reg client_id = (reg, false)) := by
  simp only [client_registry_remove, remove_loop_eq]
  cases hf : first_index (slot_has_id reg client_id) MAX_CLIENTS 0 with
  | none =>
    right
    exact ⟨fun m hm => first_index_none _ _ hf m (Nat.zero_le _) (by omega), rfl⟩
  | some j =>
    left
    obtain ⟨_, hj2, hj3, hj4⟩ := first_index_some _ _ hf
    obtain ⟨c, hc1, hc2⟩ := (slot_has_id_iff reg client_id j).1 hj3
    exact ⟨j, c, by omega, hc1, hc2, fun m hm => hj4 m (Nat.zero_le _) hm, rfl⟩

theorem live_at_set_iff {reg : ClientRegistry} {i : Nat} (a : Option Client)
    (nid cnt : Int) (hi : i < reg.clients.length) (j : Nat) (d : Client) :
    live_at { next_id := nid, count := cnt, clients := reg.clients.set i a } j d ↔
      (j = i ∧ a = some d ∧ j < MAX_CLIENTS) ∨ (j ≠ i ∧ live_at reg j d) := by
  unfold live_at
  by_cases hji : j = i
  · rw [hji, getD_set_eq a hi]
    constructor
    · rintro ⟨h1, h2⟩
      exact Or.inl ⟨rfl, h2, h1⟩
    · rintro (⟨_, h2, h3⟩ | ⟨h1, _⟩)
      · exact ⟨h3, h2⟩
      · exact absurd rfl h1
  · simp only [getD_set_ne a (Ne.symm hji)]
    constructor
    · rintro ⟨h1, h2⟩
      exact Or.inr ⟨hji, h1, h2⟩
    · rintro (⟨h1, _, _⟩ | ⟨_, h2⟩)
      · exact absurd h1 hji
      · exact h2

/-- The function `client_registry_register` keeps the registry well formed. -/
theorem register_wf (reg : ClientRegistry) (address : List Nat) (port : Int)
    (login : List Nat) (is_admin : Bool) (now : Int) (malloc_ok : Bool) (hw : reg_wf reg) :
    reg_wf (client_registry_register reg address port login is_admin now malloc_ok).1 := by
  rcases register_cases reg address port login is_admin now malloc_ok hw with
    ⟨_, h⟩ | ⟨_, _, i, hi, he, _, h⟩
  · rw [h]; exact hw
  · rw [h]
    obtain ⟨hlen, hcnt⟩ := hw
    refine ⟨by simp only [List.length_set]; exact hlen, ?_⟩
    simp only [live_count]
    rw [countP_set_some _ _ _ (by omega) he, hcnt]
    simp only [live_count]
    push_cast
    rfl

/-- On a well-formed registry a successful `client_registry_remove` decrements `count`
without wrap-around. -/
theorem remove_count {reg : ClientRegistry} (hw : reg_wf reg) {j : Nat} {c : Client}
    (hc : reg.clients.getD j none = some c) :
    wrap_int (reg.count - 1) = reg.count - 1 ∧
      reg.count - 1 = ((reg.clients.set j none).countP (fun s => s.isSome) : Int) := by
  obtain ⟨hlen, hcnt⟩ := hw
  have h1 := countP_set_none c reg.clients j hc
  have h2 := live_count_le reg
  simp only [live_count] at hcnt h2
  have h3 : reg.count - 1 = ((reg.clients.set j none).countP (fun s => s.isSome) : Int) := by
    rw [hcnt, ← h1]
    push_cast
    omega
  refine ⟨?_, h3⟩
  apply wrap_int_id
  · rw [h3]
    simp only [INT_MIN]
    omega
  · rw [hcnt]
    simp only [INT_MAX]
    rw [hlen] at h2
    simp only [MAX_CLIENTS] at h2
    omega

/-- The function `client_registry_remove` keeps the registry well formed. -/
theorem remove_wf (reg : ClientRegistry) (client_id : Int) (hw : reg_wf reg) :
    reg_wf (client_registry_remove reg client_id).1 := by
  rcases remove_cases reg client_id with ⟨j, c, hj, hc, _, _, h⟩ | ⟨_, h⟩
  · rw [h]
    obtain ⟨hwr, hcount⟩ := remove_count hw hc
    exact ⟨by simp only [List.length_set]; exact hw.1, by rw [hwr, hcount]; rfl⟩
  · rw [h]; exact hw

theorem reg_step_wf (reg : ClientRegistry) (op : RegOp) (hw : reg_wf reg) :
    reg_wf (reg_step reg op).1 := by
  cases op with
  | register address port login is_admin now malloc_ok =>
    exact register_wf reg address port login is_admin now malloc_ok hw
  | remove client_id => exact remove_wf reg client_id hw

theorem reg_run_wf (ops : List RegOp) : ∀ (reg : ClientRegistry), reg_wf reg →
    reg_wf (reg_run reg ops).1 := by
  induction ops with
  | nil => intro reg hw; exact hw
  | cons op ops ih =>
    intro reg hw
    exact ih _ (reg_step_wf reg op hw)

theorem client_registry_create_wf {ok : Bool} {reg : ClientRegistry}
    (h : client_registry_create ok = some reg) :
    reg_wf reg ∧ reg.next_id = 0 ∧ ∀ i, reg.clients.getD i none = none := by
  unfold client_registry_create at h
  split at h
  · simp only [Option.some.injEq] at h
    subst h
    refine ⟨⟨by simp, ?_⟩, rfl, ?_⟩
    · simp only [live_count]
      rw [List.countP_eq_zero.2]
      · rfl
      · intro a ha
        rw [List.eq_of_mem_replicate ha]
        simp
    · intro i
      simp only [List.getD_eq_getElem?_getD, List.getElem?_replicate]
      split <;> rfl
  · simp at h

theorem reg_run_append (a b : List RegOp) : ∀ (reg : ClientRegistry),
    reg_run reg (a ++ b) =
      ((reg_run (reg_run reg a).1 b).1, (reg_run reg a).2 ++ (reg_run (reg_run reg a).1 b).2) := by
  induction a with
  | nil => intro reg; simp [reg_run]
  | cons op ops ih =>
    intro reg
    show reg_run reg (op :: (ops ++ b)) = _
    simp only [reg_run, ih, List.append_assoc]

/-- The step made by a register call that returns -1 without touching the registry. -/
theorem reg_step_register_fail {reg : ClientRegistry} {address : List Nat} {port : Int}
    {login : List Nat} {is_admin : Bool} {now : Int} {malloc_ok : Bool}
    (h : client_registry_register reg address port login is_admin now malloc_ok = (reg, -1)) :
    reg_step reg (RegOp.register address port login is_admin now malloc_ok) = (reg, []) := by
  simp only [reg_step, h, if_true]

/-- The step made by a register call that returns a non-negative ID. -/
theorem reg_step_register_ok {reg reg1 : ClientRegistry} {address : List Nat} {port : Int}
    {login : List Nat} {is_admin : Bool} {now : Int} {malloc_ok : Bool} {id : Int}
    (h : client_registry_register reg address port login is_admin now malloc_ok = (reg1, id))
    (hid : 0 ≤ id) :
    reg_step reg (RegOp.register address port login is_admin now malloc_ok) = (reg1, [id]) := by
  have hne : id ≠ -1 := by omega
  simp only [reg_step, h, hne, if_false]

/-- The step made by a remove call. -/
theorem reg_step_remove {reg reg1 : ClientRegistry} {client_id : Int} {b : Bool}
    (h : client_registry_remove reg client_id = (reg1, b)) :
    reg_step reg (RegOp.remove client_id) = (reg1, []) := by
  simp only [reg_step, h]

/-- One registry call, as long as `next_id` is below `INT_MAX` when the call is a
register: the ID invariants are kept, `next_id` does not decrease, and an ID handed
out is the old `next_id`, below the new one. -/
theorem reg_step_ids (reg : ClientRegistry) (op : RegOp) (hw : reg_wf reg)
    (hb : ids_below_next reg) (hd : ids_distinct reg)
    (hn : op.is_register = true → reg.next_id < INT_MAX) :
    ids_below_next (reg_step reg op).1 ∧ ids_distinct (reg_step reg op).1 ∧
      reg.next_id ≤ (reg_step reg op).1.next_id ∧
      (reg_step reg op).1.next_id ≤ reg.next_id + (if op.is_register then 1 else 0) ∧
      ((reg_step reg op).2 = [] ∨
        ((reg_step reg op).2 = [reg.next_id] ∧ reg.next_id < (reg_step reg op).1.next_id)) := by
  obtain ⟨hb0, hbl⟩ := hb
  cases op with
  | register address port login is_admin now malloc_ok =>
    have hlt := hn rfl
    rcases register_cases reg address port login is_admin now malloc_ok hw with
      ⟨_, h⟩ | ⟨_, _, i, hi, he, _, h⟩
    · rw [reg_step_register_fail h]
      refine ⟨⟨hb0, hbl⟩, hd, le_refl _, ?_, Or.inl rfl⟩
      dsimp only [RegOp.is_register]
      simp
    · have hwrap : wrap_int (reg.next_id + 1) = reg.next_id + 1 := by
        apply wrap_int_id
        · simp only [INT_MIN]; omega
        · simp only [INT_MAX] at hlt ⊢; omega
      have hilen : i < reg.clients.length := by rw [hw.1]; exact hi
      rw [hwrap] at h
      rw [reg_step_register_ok h hb0]
      refine ⟨⟨?_, ?_⟩, ?_, ?_, ?_, ?_⟩
      · dsimp only
        omega
      · intro j d hj
        dsimp only
        rcases (live_at_set_iff _ _ _ hilen j d).1 hj with ⟨_, h2, _⟩ | ⟨_, h2⟩
        · simp only [Option.some.injEq] at h2
          subst h2
          simp only [new_client]
          omega
        · have := hbl j d h2
          omega
      · intro j k c d hj hk hcd
        rcases (live_at_set_iff _ _ _ hilen j c).1 hj with ⟨hj1, hj2, _⟩ | ⟨hj1, hj2⟩
        · rcases (live_at_set_iff _ _ _ hilen k d).1 hk with ⟨hk1, _, _⟩ | ⟨_, hk2⟩
          · omega
          · exfalso
            simp only [Option.some.injEq] at hj2
            subst hj2
            have := hbl k d hk2
            simp only [new_client] at hcd
            omega
        · rcases (live_at_set_iff _ _ _ hilen k d).1 hk with ⟨_, hk2, _⟩ | ⟨_, hk2⟩
          · exfalso
            simp only [Option.some.injEq] at hk2
            subst hk2
            have := hbl j c hj2
            simp only [new_client] at hcd
            omega
          · exact hd j k c d hj2 hk2 hcd
      · dsimp only
        omega
      · dsimp only [RegOp.is_register]
        simp
      · right
        dsimp only
        exact ⟨rfl, by omega⟩
  | remove client_id =>
    rcases remove_cases reg client_id with ⟨j, c, hj, hc, _, _, h⟩ | ⟨_, h⟩
    · rw [reg_step_remove h]
      have hjlen : j < reg.clients.length := by rw [hw.1]; exact hj
      refine ⟨⟨hb0, ?_⟩, ?_, le_refl _, ?_, Or.inl rfl⟩
      · intro k d hk
        rcases (live_at_set_iff _ _ _ hjlen k d).1 hk with ⟨_, h2, _⟩ | ⟨_, h2⟩
        · simp at h2
        · exact hbl k d h2
      · intro k l c d hk hl hcd
        rcases (live_at_set_iff _ _ _ hjlen k c).1 hk with ⟨_, h2, _⟩ | ⟨_, hk2⟩
        · simp at h2
        · rcases (live_at_set_iff _ _ _ hjlen l d).1 hl with ⟨_, h2, _⟩ | ⟨_, hl2⟩
          · simp at h2
          · exact hd k l c d hk2 hl2 hcd
      · dsimp only [RegOp.is_register]
        simp
    · rw [reg_step_remove h]
      refine ⟨⟨hb0, hbl⟩, hd, le_refl _, ?_, Or.inl rfl⟩
      dsimp only [RegOp.is_register]
      simp

/-- A sequence of registry calls that cannot drive `next_id` past `INT_MAX`: the ID
invariants hold at the end, `next_id` has not decreased, and the IDs handed out
are strictly increasing, all in `[old next_id, new next_id)`. -/
theorem reg_run_ids (ops : List RegOp) : ∀ (reg : ClientRegistry), reg_wf reg →
    ids_below_next reg → ids_distinct reg →
    reg.next_id + (ops.countP RegOp.is_register : Int) ≤ INT_MAX →
    ids_below_next (reg_run reg ops).1 ∧ ids_distinct (reg_run reg ops).1 ∧
      reg.next_id ≤ (reg_run reg ops).1.next_id ∧
      (reg_run reg ops).1.next_id ≤ reg.next_id + (ops.countP RegOp.is_register : Int) ∧
      (∀ x ∈ (reg_run reg ops).2, reg.next_id ≤ x ∧ x < (reg_run reg ops).1.next_id) ∧
      (reg_run reg ops).2.Pairwise (fun a b => a < b) := by
  induction ops with
  | nil =>
    intro reg _ hb hd _
    simp only [reg_run, List.countP_nil, Nat.cast_zero, add_zero, List.not_mem_nil,
      List.Pairwise.nil]
    exact ⟨hb, hd, le_refl _, le_refl _, fun x hx => absurd hx id, trivial⟩
  | cons op ops ih =>
    intro reg hw hb hd hn
    have hcnt : ((op :: ops).countP RegOp.is_register : Int) =
        (ops.countP RegOp.is_register : Int) + (if op.is_register then 1 else 0) := by
      rw [List.countP_cons]
      split <;> simp
    rw [hcnt] at hn ⊢
    have hcn : (0 : Int) ≤ (ops.countP RegOp.is_register : Int) := Int.natCast_nonneg _
    have hstep := reg_step_ids reg op hw hb hd (by
      intro hop
      simp only [hop, if_true] at hn
      omega)
    obtain ⟨sb, sd, s1, s2, s3⟩ := hstep
    obtain ⟨rb, rd, r1, r2, r3, r4⟩ := ih (reg_step reg op).1 (reg_step_wf reg op hw) sb sd
      (by omega)
    simp only [reg_run]
    refine ⟨rb, rd, by omega, by omega, ?_, ?_⟩
    · intro x hx
      rcases List.mem_append.1 hx with hx1 | hx2
      · rcases s3 with s3 | ⟨s3, s4⟩
        · rw [s3] at hx1; simp at hx1
        · rw [s3] at hx1
          simp only [List.mem_singleton] at hx1
          subst hx1
          exact ⟨le_refl _, by omega⟩
      · have := r3 x hx2
        exact ⟨by omega, this.2⟩
    · rw [List.pairwise_append]
      refine ⟨?_, r4, ?_⟩
      · rcases s3 with s3 | ⟨s3, _⟩
        · rw [s3]; exact List.Pairwise.nil
        · rw [s3]; exact List.pairwise_singleton _ _
      · intro a ha b hbm
        rcases s3 with s3 | ⟨s3, s4⟩
        · rw [s3] at ha; simp at ha
        · rw [s3] at ha
          simp only [List.mem_singleton] at ha
          subst ha
          have := r3 b hbm
          omega

theorem empty_registry_getD (v : Int) (i : Nat) :
    (empty_registry v).clients.getD i none = none := by
  simp only [empty_registry, List.getD_eq_getElem?_getD, List.getElem?_replicate]
  split <;> rfl

theorem empty_registry_wf (v : Int) : reg_wf (empty_registry v) := by
  refine ⟨by simp [empty_registry], ?_⟩
  simp only [live_count, empty_registry]
  rw [List.countP_eq_zero.2]
  · rfl
  · intro a ha
    rw [List.eq_of_mem_replicate ha]
    simp

theorem client_registry_create_eq {ok : Bool} {reg : ClientRegistry}
    (h : client_registry_create ok = some reg) : reg = empty_registry 0 := by
  unfold client_registry_create at h
  split at h
  · simp only [Option.some.injEq] at h
    exact h.symm
  · simp at h

theorem empty_registry_ids (v : Int) (hv : 0 ≤ v) :
    ids_below_next (empty_registry v) ∧ ids_distinct (empty_registry v) := by
  refine ⟨⟨hv, ?_⟩, ?_⟩
  · intro i c h
    have := h.2
    rw [empty_registry_getD] at this
    simp at this
  · intro i j c d h
    have := h.2
    rw [empty_registry_getD] at this
    simp at this

theorem set_zero_replicate (x : Option Client) :
    ((List.replicate MAX_CLIENTS (none : Option Client)).set 0 x).set 0 none =
      List.replicate MAX_CLIENTS none := by
  rw [show MAX_CLIENTS = 255 + 1 from rfl, List.replicate_succ]
  rfl

/-- Registering on an empty table: slot 0 takes the client, the old `next_id` is
returned and `next_id` moves to `wrap_int (next_id + 1)`. -/
theorem register_empty (v : Int) (address : List Nat) (port : Int) (login : List Nat)
    (is_admin : Bool) (now : Int) :
    client_registry_register (empty_registry v) address port login is_admin now true =
      ({ next_id := wrap_int (v + 1)
         count := 1
         clients := (List.replicate MAX_CLIENTS none).set 0
           (some (new_client v address port login is_admin now)) }, v) := by
  have hw := empty_registry_wf v
  rcases register_cases (empty_registry v) address port login is_admin now true hw with
    ⟨h1, _⟩ | ⟨_, _, i, _, _, hi, h⟩
  · rcases h1 with h1 | h1
    · simp only [empty_registry, MAX_CLIENTS] at h1
      omega
    · simp at h1
  · have hi0 : i = 0 := by
      by_contra hne
      exact hi 0 (by omega) (empty_registry_getD v 0)
    subst hi0
    rw [h]
    rfl

/-- One round of churn on an empty table: the register returns `v`, the remove
frees it again, and `next_id` has moved to `wrap_int (v + 1)`. -/
theorem churn_round (v : Int) :
    reg_run (empty_registry v) [register_call, RegOp.remove v] =
      (empty_registry (wrap_int (v + 1)), if v = -1 then [] else [v]) := by
  have hreg := register_empty v [] 0 [] false 0
  have hrem : client_registry_remove
      { next_id := wrap_int (v + 1)
        count := 1
        clients := (List.replicate MAX_CLIENTS none).set 0
          (some (new_client v [] 0 [] false 0)) } v =
      (empty_registry (wrap_int (v + 1)), true) := by
    have h0 : slot_has_id
        { next_id := wrap_int (v + 1)
          count := 1
          clients := (List.replicate MAX_CLIENTS none).set 0
            (some (new_client v [] 0 [] false 0)) } v 0 = true := by
      rw [slot_has_id_iff]
      exact ⟨_, getD_set_eq _ (by rw [List.length_replicate]; decide), rfl⟩
    rcases remove_cases _ v with ⟨j, c, _, _, _, hj, h⟩ | ⟨hnone, _⟩
    · have hj0 : j = 0 := by
        by_contra hne
        have := hj 0 (by omega)
        rw [h0] at this
        simp at this
      subst hj0
      rw [h]
      simp only [set_zero_replicate, empty_registry]
      rfl
    · have := hnone 0 (by decide)
      rw [h0] at this
      simp at this
  simp only [reg_run, register_call, reg_step, hreg, hrem, List.append_nil]

theorem wrap_int_succ (n : Nat) : wrap_int (wrap_int (n : Int) + 1) = wrap_int ((n + 1 : Nat) : Int) := by
  simp only [wrap_int]
  push_cast
  omega

theorem churn_state : ∀ (n : Nat),
    (reg_run (empty_registry 0) (reg_churn n)).1 = empty_registry (wrap_int n) := by
  intro n
  induction n with
  | zero =>
    have h0 : wrap_int ((0 : Nat) : Int) = 0 := by decide
    rw [h0]
    simp only [reg_churn, reg_run]
  | succ n ih =>
    simp only [reg_churn, reg_run_append, ih, churn_round]
    rw [wrap_int_succ]

theorem churn_ids_succ (n : Nat) :
    (reg_run (empty_registry 0) (reg_churn (n + 1))).2 =
      (reg_run (empty_registry 0) (reg_churn n)).2 ++
        (if wrap_int n = -1 then [] else [wrap_int n]) := by
  simp only [reg_churn, reg_run_append, churn_state, churn_round]

theorem churn_ids_zero : ∀ (n : Nat), 0 ∈ (reg_run (empty_registry 0) (reg_churn (n + 1))).2 := by
  intro n
  induction n with
  | zero =>
    rw [churn_ids_succ]
    have h0 : wrap_int ((0 : Nat) : Int) = 0 := by decide
    rw [h0]
    simp
  | succ n ih =>
    rw [churn_ids_succ]
    exact List.mem_append_left _ ih

/-- Claim C6, as stated, fails. A registry returned by `client_registry_create` is
the empty registry with `next_id = 0`. After 2147483647 register/remove rounds
`next_id` is `INT_MAX`; one more register makes it `INT_MIN`: `next_id` has
decreased. After 4294967296 rounds the counter is back at 0 and the next register
hands out the ID 0 again, which the first register of the sequence had returned. -/
theorem registry_ids_reused_after_wrap :
    client_registry_create true = some (empty_registry 0) ∧
      (reg_run (empty_registry 0) (reg_churn 2147483647)).1.next_id = 2147483647 ∧
      (reg_run (empty_registry 0) (reg_churn 2147483647 ++ [register_call])).1.next_id =
        -2147483648 ∧
      ¬ (reg_run (empty_registry 0) (reg_churn 4294967296 ++ [register_call])).2.Nodup := by
  refine ⟨rfl, ?_, ?_, ?_⟩
  · rw [churn_state]
    decide
  · rw [reg_run_append, churn_state]
    have h1 : wrap_int ((2147483647 : Nat) : Int) = 2147483647 := by decide
    rw [h1]
    simp only [reg_run, register_call, reg_step, register_empty]
    decide
  · rw [reg_run_append, churn_state]
    have h1 : wrap_int ((4294967296 : Nat) : Int) = 0 := by decide
    rw [h1]
    have h2 : (reg_run (empty_registry 0) [register_call]).2 = [0] := by
      simp only [reg_run, register_call, reg_step, register_empty]
      decide
    have h3 : 0 ∈ (reg_run (empty_registry 0) (reg_churn (4294967295 + 1))).2 :=
      churn_ids_zero 4294967295
    simp only [h2]
    intro hnd
    exact (List.disjoint_of_nodup_append hnd) h3 (List.mem_singleton.2 rfl)

/-- Claim C6, amended. For every sequence of `client_registry_register` /
`client_registry_remove` calls on a registry returned by `client_registry_create` that
contains at most `INT_MAX` (2147483647) register calls: at the end of the sequence
(hence at every point of it) no two live entries share an ID, the IDs returned by
successful registers are strictly increasing, so none is returned twice, they are
non-negative and below `next_id`, and `next_id` at any earlier point of the sequence is at most `next_id` at the end. -/
theorem registry_ids_unique (malloc_ok : Bool) (reg0 : ClientRegistry)
    (ops1 ops2 : List RegOp) (h0 : client_registry_create malloc_ok = some reg0)
    (hn : (ops1 ++ ops2).countP RegOp.is_register ≤ 2147483647) :
    ids_distinct (reg_run reg0 (ops1 ++ ops2)).1 ∧
      (reg_run reg0 (ops1 ++ ops2)).2.Pairwise (fun a b => a < b) ∧
      (reg_run reg0 (ops1 ++ ops2)).2.Nodup ∧
      (∀ x ∈ (reg_run reg0 (ops1 ++ ops2)).2,
        0 ≤ x ∧ x < (reg_run reg0 (ops1 ++ ops2)).1.next_id) ∧
      (reg_run reg0 ops1).1.next_id ≤ (reg_run reg0 (ops1 ++ ops2)).1.next_id := by
  have he := client_registry_create_eq h0
  subst he
  have hw := empty_registry_wf 0
  obtain ⟨hb, hd⟩ := empty_registry_ids 0 (le_refl _)
  have hz : (empty_registry 0).next_id = 0 := rfl
  rw [List.countP_append] at hn
  have hall := reg_run_ids (ops1 ++ ops2) (empty_registry 0) hw hb hd (by
    rw [hz, List.countP_append]
    simp only [INT_MAX]
    omega)
  obtain ⟨_, ad, _, _, ar, ap⟩ := hall
  have h1 := reg_run_ids ops1 (empty_registry 0) hw hb hd (by
    rw [hz]
    simp only [INT_MAX]
    omega)
  obtain ⟨b1, d1, _, u1, _, _⟩ := h1
  have h2 := reg_run_ids ops2 (reg_run (empty_registry 0) ops1).1 (reg_run_wf ops1 _ hw) b1 d1
    (by
      rw [hz] at u1
      simp only [INT_MAX]
      omega)
  refine ⟨ad, ap, ?_, ar, ?_⟩
  · exact ap.imp (fun h => ne_of_lt h)
  · rw [reg_run_append]
    exact h2.2.2.1

/-- Witness of C6 (amended): two registers, then the first client is removed and a
third register follows. -/
theorem registry_ids_unique_witness :
    ∃ reg0, client_registry_create true = some reg0 ∧
      ids_distinct (reg_run reg0
        ([register_call, register_call] ++ [RegOp.remove 0, register_call])).1 ∧
      (reg_run reg0 ([register_call, register_call] ++ [RegOp.remove 0, register_call])).2.Nodup ∧
      (reg_run reg0 [register_call, register_call]).1.next_id ≤
        (reg_run reg0
          ([register_call, register_call] ++ [RegOp.remove 0, register_call])).1.next_id := by
  have h := registry_ids_unique true (empty_registry 0) [register_call, register_call]
    [RegOp.remove 0, register_call] rfl (by decide)
  exact ⟨empty_registry 0, rfl, h.1, h.2.2.1, h.2.2.2.2⟩

/-- Claim C7. For every registry whose `count` equals the table capacity 256,
`client_registry_register` returns -1 and leaves the registry (slot table, `count`,
`next_id`) unchanged; hence every sequence of register calls, with any arguments,
leaves it unchanged and hands out no ID: registers keep failing as long as no
remove occurs. -/
theorem register_full_fails (reg : ClientRegistry) (address : List Nat) (port : Int)
    (login : List Nat) (is_admin : Bool) (now : Int) (malloc_ok : Bool)
    (h : reg.count = (MAX_CLIENTS : Int)) :
    client_registry_register reg address port login is_admin now malloc_ok = (reg, -1) ∧
      ∀ ops : List RegOp, (∀ op ∈ ops, op.is_register = true) → reg_run reg ops = (reg, []) := by
  have hone : ∀ (a : List Nat) (p : Int) (l : List Nat) (ad : Bool) (t : Int) (m : Bool),
      client_registry_register reg a p l ad t m = (reg, -1) := by
    intro a p l ad t m
    simp only [client_registry_register]
    rw [if_pos (by rw [h])]
  refine ⟨hone _ _ _ _ _ _, ?_⟩
  intro ops
  induction ops with
  | nil => intro _; rfl
  | cons op ops ih =>
    intro hops
    have hop := hops op (List.mem_cons_self _ _)
    cases op with
    | remove id => simp [RegOp.is_register] at hop
    | register a p l ad t m =>
      simp only [reg_run, reg_step_register_fail (hone a p l ad t m), List.nil_append]
      exact ih (fun o ho => hops o (List.mem_cons_of_mem _ ho))

/-- Witness of C7: the full registry, whose slot `k` holds the client with ID `k`. -/
theorem register_full_fails_witness :
    client_registry_register full_registry [49, 50] 80 [] false 7 true = (full_registry, -1) ∧
      reg_run full_registry [register_call, register_call] = (full_registry, []) := by
  have h := register_full_fails full_registry [49, 50] 80 [] false 7 true rfl
  exact ⟨h.1, h.2 [register_call, register_call] (by decide)⟩

/-- Claim C8, as stated, fails. The empty registry with `next_id = 0` has
`count` equal to the number of non-empty slots and `count < 256`, yet a register
whose `malloc` fails returns -1 and changes nothing. The empty registry with
`next_id = INT_MAX` satisfies the same conditions, and a register on it returns
`INT_MAX` and leaves `next_id = INT_MIN`, not `next_id + 1`. -/
theorem register_free_slot_not_enough :
    ((empty_registry 0).count = (live_count (empty_registry 0) : Int) ∧
      (empty_registry 0).count < 256 ∧
      client_registry_register (empty_registry 0) [] 0 [] false 0 false =
        (empty_registry 0, -1)) ∧
    ((empty_registry 2147483647).count = (live_count (empty_registry 2147483647) : Int) ∧
      (empty_registry 2147483647).count < 256 ∧
      (client_registry_register (empty_registry 2147483647) [] 0 [] false 0 true).2 =
        2147483647 ∧
      (client_registry_register (empty_registry 2147483647) [] 0 [] false 0 true).1.next_id =
        -2147483648) := by
  refine ⟨⟨(empty_registry_wf 0).2, by decide, ?_⟩, (empty_registry_wf 2147483647).2,
    by decide, ?_, ?_⟩
  · simp only [client_registry_register]
    rw [if_neg (by decide), if_pos trivial]
  · rw [register_empty]
  · rw [register_empty]
    decide

/-- Claim C8, amended. For every registry whose `count` is the number of non-empty
slots and is below 256, and whose `next_id` is below `INT_MAX`, a
`client_registry_register` whose allocation succeeds returns the previous `next_id`
as the new ID, stores the new client (carrying that ID) in the lowest-index empty
slot `i`, leaves every other slot unchanged, and increments both `count` and
`next_id` by exactly 1. -/
theorem register_first_fit (reg : ClientRegistry) (address : List Nat) (port : Int)
    (login : List Nat) (is_admin : Bool) (now : Int)
    (hlen : reg.clients.length = MAX_CLIENTS) (hcnt : reg.count = (live_count reg : Int))
    (hlt : reg.count < 256) (hmin : INT_MIN ≤ reg.next_id) (hmax : reg.next_id < INT_MAX) :
    ∃ i, i < MAX_CLIENTS ∧ reg.clients.getD i none = none ∧
      (∀ m, m < i → reg.clients.getD m none ≠ none) ∧
      client_registry_register reg address port login is_admin now true =
        ({ next_id := reg.next_id + 1
           count := reg.count + 1
           clients := reg.clients.set i
             (some (new_client reg.next_id address port login is_admin now)) },
          reg.next_id) ∧
      (new_client reg.next_id address port login is_admin now).ID = reg.next_id ∧
      ∀ m, m ≠ i →
        (reg.clients.set i
          (some (new_client reg.next_id address port login is_admin now))).getD m none =
          reg.clients.getD m none := by
  rcases register_cases reg address port login is_admin now true ⟨hlen, hcnt⟩ with
    ⟨h1, _⟩ | ⟨_, _, i, hi, he, hfirst, h⟩
  · exfalso
    rcases h1 with h1 | h1
    · simp only [MAX_CLIENTS] at h1
      omega
    · simp at h1
  · have hwrap : wrap_int (reg.next_id + 1) = reg.next_id + 1 := by
      apply wrap_int_id
      · simp only [INT_MIN] at hmin ⊢; omega
      · simp only [INT_MAX] at hmax ⊢; omega
    rw [hwrap] at h
    exact ⟨i, hi, he, hfirst, h, rfl, fun m hm => getD_set_ne _ (Ne.symm hm)⟩

/-- Witness of C8 (amended): registering on the registry that holds one client,
the one with ID 0 in slot 0. -/
theorem register_first_fit_witness :
    ∃ reg i, reg = (reg_run (empty_registry 0) [register_call]).1 ∧ i < MAX_CLIENTS ∧
      reg.clients.getD i none = none ∧
      client_registry_register reg [49] 80 [] true 5 true =
        ({ next_id := reg.next_id + 1
           count := reg.count + 1
           clients := reg.clients.set i (some (new_client reg.next_id [49] 80 [] true 5)) },
          reg.next_id) := by
  have hw := reg_run_wf [register_call] _ (empty_registry_wf 0)
  have hn : (reg_run (empty_registry 0) [register_call]).1.next_id = 1 ∧
      (reg_run (empty_registry 0) [register_call]).1.count = 1 := by
    simp only [reg_run, register_call, reg_step, register_empty]
    decide
  obtain ⟨i, h1, h2, _, h4, _⟩ :=
    register_first_fit (reg_run (empty_registry 0) [register_call]).1 [49] 80 [] true 5
      hw.1 hw.2 (by rw [hn.2]; decide) (by rw [hn.1]; decide) (by rw [hn.1]; decide)
  exact ⟨_, i, rfl, h1, h2, h4⟩

/-- Claim C9. For every sequence of `client_registry_register` / `client_registry_remove`
calls on a registry returned by `client_registry_create`, at the end of the sequence
(hence after every call) `count` equals the number of non-empty slots of the slot
table, so `0 ≤ count ≤ 256`, and `client_registry_count` returns that number. -/
theorem registry_count_is_live_count (malloc_ok : Bool) (reg0 : ClientRegistry)
    (ops : List RegOp) (h0 : client_registry_create malloc_ok = some reg0) :
    (reg_run reg0 ops).1.count = (live_count (reg_run reg0 ops).1 : Int) ∧
      0 ≤ (reg_run reg0 ops).1.count ∧ (reg_run reg0 ops).1.count ≤ 256 ∧
      client_registry_count (reg_run reg0 ops).1 = (live_count (reg_run reg0 ops).1 : Int) := by
  have hw := reg_run_wf ops reg0 (client_registry_create_wf h0).1
  have hle := live_count_le (reg_run reg0 ops).1
  rw [hw.1] at hle
  simp only [MAX_CLIENTS] at hle
  refine ⟨hw.2, ?_, ?_, hw.2⟩
  · rw [hw.2]
    exact Int.natCast_nonneg _
  · rw [hw.2]
    exact_mod_cast hle

/-- Witness of C9: two registers, a remove of the first client, a remove of an ID
that is not live. -/
theorem registry_count_is_live_count_witness :
    ∃ reg0, client_registry_create true = some reg0 ∧
      client_registry_count
          (reg_run reg0 [register_call, register_call, RegOp.remove 0, RegOp.remove 7]).1 =
        (live_count
          (reg_run reg0 [register_call, register_call, RegOp.remove 0, RegOp.remove 7]).1 : Int) :=
  ⟨empty_registry 0, rfl,
    (registry_count_is_live_count true (empty_registry 0)
      [register_call, register_call, RegOp.remove 0, RegOp.remove 7] rfl).2.2.2⟩

/-- Claim C10. For every registry that satisfies the registry invariants (slot table of
256 slots, `count` = number of non-empty slots, no two live clients with the same
ID) and every `client_id`: `client_registry_remove` returns `true` iff some slot holds
a live client with that ID; when slot `i` holds it, the call returns `true`, slot `i`
becomes empty, `count` decreases by 1, and every other slot and `next_id` are
unchanged; when the call returns `false` the registry is unchanged. -/
theorem remove_correct (reg : ClientRegistry) (client_id : Int) (hw : reg_wf reg)
    (hd : ids_distinct reg) :
    ((client_registry_remove reg client_id).2 = true ↔
        ∃ i c, live_at reg i c ∧ c.ID = client_id) ∧
      (∀ i c, live_at reg i c → c.ID = client_id →
        client_registry_remove reg client_id =
            ({ next_id := reg.next_id
               count := reg.count - 1
               clients := reg.clients.set i none }, true) ∧
          (reg.clients.set i none).getD i none = none ∧
          ∀ m, m ≠ i → (reg.clients.set i none).getD m none = reg.clients.getD m none) ∧
      ((client_registry_remove reg client_id).2 = false →
        (client_registry_remove reg client_id).1 = reg) := by
  rcases remove_cases reg client_id with ⟨j, c, hj, hc, hcid, _, h⟩ | ⟨hnone, h⟩
  · have hlive : live_at reg j c := ⟨hj, hc⟩
    have hwrap := (remove_count hw hc).1
    rw [hwrap] at h
    refine ⟨?_, ?_, ?_⟩
    · rw [h]
      exact ⟨fun _ => ⟨j, c, hlive, hcid⟩, fun _ => rfl⟩
    · intro i d hi hdid
      have hij : i = j := hd i j d c hi hlive (by rw [hdid, hcid])
      subst hij
      have hilen : i < reg.clients.length := by rw [hw.1]; exact hj
      exact ⟨h, getD_set_eq none hilen, fun m hm => getD_set_ne none (Ne.symm hm)⟩
    · rw [h]
      intro hf
      simp at hf
  · have hno : ¬ ∃ i c, live_at reg i c ∧ c.ID = client_id := by
      rintro ⟨i, c, hi, hcid⟩
      have h1 := hnone i hi.1
      have h2 := (slot_has_id_iff reg client_id i).2 ⟨c, hi.2, hcid⟩
      rw [h2] at h1
      simp at h1
    refine ⟨?_, ?_, ?_⟩
    · rw [h]
      constructor
      · intro hf
        simp at hf
      · intro hex
        exact absurd hex hno
    · intro i c hi hcid
      exact absurd ⟨i, c, hi, hcid⟩ hno
    · intro _
      rw [h]

/-- Witness of C10: on the registry that holds one client, with ID 0 in slot 0,
removing ID 0 returns `true` and gives back the empty table; removing ID 5 returns
`false`. -/
theorem remove_correct_witness :
    ∃ reg, reg = (reg_run (empty_registry 0) [register_call]).1 ∧
      client_registry_remove reg 0 =
        ({ next_id := reg.next_id, count := reg.count - 1, clients := reg.clients.set 0 none },
          true) ∧
      ((client_registry_remove reg 5).2 = true ↔ ∃ i c, live_at reg i c ∧ c.ID = 5) := by
  have hw := reg_run_wf [register_call] _ (empty_registry_wf 0)
  have hids := reg_run_ids [register_call] (empty_registry 0) (empty_registry_wf 0)
    (empty_registry_ids 0 (le_refl _)).1 (empty_registry_ids 0 (le_refl _)).2 (by decide)
  have hlive : live_at (reg_run (empty_registry 0) [register_call]).1 0
      (new_client 0 [] 0 [] false 0) := by
    simp only [reg_run, register_call, reg_step, register_empty]
    exact ⟨by decide, getD_set_eq _ (by rw [List.length_replicate]; decide)⟩
  exact ⟨_, rfl,
    ((remove_correct (reg_run (empty_registry 0) [register_call]).1 0 hw hids.2.1).2.1
      0 _ hlive rfl).1,
    (remove_correct (reg_run (empty_registry 0) [register_call]).1 5 hw hids.2.1).1⟩

theorem get_loop_eq (reg : ClientRegistry) (client_id : Int) : ∀ (fuel i : Nat),
    get_loop reg client_id fuel i =
      match first_index (slot_has_id reg client_id) fuel i with
      | some j => reg.clients.getD j none
      | none => none := by
  intro fuel
  induction fuel with
  | zero => intro i; rfl
  | succ n ih =>
    intro i
    rcases Option.eq_none_or_eq_some (reg.clients.getD i none) with h | ⟨c, h⟩
    · have hs : slot_has_id reg client_id i = false := by simp only [slot_has_id, h]
      simp only [get_loop, first_index, h, hs, Bool.false_eq_true, if_false]
      exact ih (i + 1)
    · by_cases hc : c.ID = client_id
      · have hs : slot_has_id reg client_id i = true := by
          simp only [slot_has_id, h, hc, decide_True]
        simp only [get_loop, first_index, h, hs, hc, if_true]
      · have hs : slot_has_id reg client_id i = false := by
          simp only [slot_has_id, h, hc, decide_False]
        simp only [get_loop, first_index, h, hs, hc, Bool.false_eq_true, if_false]
        exact ih (i + 1)

/-- Outcome of `client_registry_get`: the client of the first slot that holds the
ID, or `NULL` when no slot holds it. -/
theorem get_cases (reg : ClientRegistry) (client_id : Int) :
    (∃ j c, j < MAX_CLIENTS ∧ reg.clients.getD j none = some c ∧ c.ID = client_id ∧
      (∀ m, m < j → slot_has_id reg client_id m = false) ∧
      client_registry_get reg client_id = some c) ∨
    ((∀ m, m < MAX_CLIENTS → slot_has_id reg client_id m = false) ∧
      client_registry_get reg client_id = none) := by
  simp only [client_registry_get, get_loop_eq]
  cases hf : first_index (slot_has_id reg client_id) MAX_CLIENTS 0 with
  | none =>
    right
    exact ⟨fun m hm => first_index_none _ _ hf m (Nat.zero_le _) (by omega), rfl⟩
  | some j =>
    left
    obtain ⟨_, hj2, hj3, hj4⟩ := first_index_some _ _ hf
    obtain ⟨c, hc1, hc2⟩ := (slot_has_id_iff reg client_id j).1 hj3
    exact ⟨j, c, by omega, hc1, hc2, fun m hm => hj4 m (Nat.zero_le _) hm, hc1⟩

theorem takeWhile_append_stop (p : Nat → Bool) : ∀ (a b : List Nat),
    (∀ x ∈ a, p x = true) → (∀ y, b.head? = some y → p y = false) →
    (a ++ b).takeWhile p = a := by
  intro a
  induction a with
  | nil =>
    intro b _ hb
    cases b with
    | nil => rfl
    | cons y t =>
      have := hb y rfl
      simp [List.takeWhile, this]
  | cons x t ih =>
    intro b ha hb
    have hx := ha x (List.mem_cons_self _ _)
    simp only [List.cons_append, List.takeWhile_cons, hx, if_true]
    rw [ih b (fun z hz => ha z (List.mem_cons_of_mem _ hz)) hb]

/-- A C string without NUL of fewer than 64 bytes is read back from the 64-byte
field that `strncpy(field, s, 63)` filled. -/
theorem cstr_strncpy (s : List Nat) (hlen : s.length < 64) (hnz : ∀ b ∈ s, b ≠ 0) :
    cstr (strncpy (List.replicate 64 0) s 63) = s := by
  have htw : s.takeWhile (fun b => b != 0) = s := by
    rw [List.takeWhile_eq_self_iff]
    intro b hb
    simpa using hnz b hb
  have htk : s.take 63 = s := List.take_of_length_le (by omega)
  simp only [cstr, strncpy, htw, htk, List.append_assoc]
  apply takeWhile_append_stop
  · intro b hb
    simpa using hnz b hb
  · intro y hy
    have hd : (List.replicate 64 0).drop 63 = [0] := by
      rw [List.drop_replicate]
      rfl
    rw [hd] at hy
    rcases Nat.eq_zero_or_pos (63 - s.length) with h0 | hpos
    · rw [h0] at hy
      simp at hy
      subst hy
      rfl
    · obtain ⟨k, hk⟩ := Nat.exists_eq_succ_of_ne_zero (Nat.pos_iff_ne_zero.1 hpos)
      rw [hk, List.replicate_succ] at hy
      simp at hy
      subst hy
      rfl

/-- After a successful register on a registry whose live IDs are below `next_id`,
the new client is the only one with the returned ID: `client_registry_get` finds it
and the IDs stay distinct. -/
theorem register_then_get (reg : ClientRegistry) (address : List Nat) (port : Int)
    (login : List Nat) (is_admin : Bool) (now : Int) (malloc_ok : Bool)
    (hw : reg_wf reg) (hb : ids_below_next reg) (hd : ids_distinct reg)
    (hid : (client_registry_register reg address port login is_admin now malloc_ok).2 ≠ -1) :
    (client_registry_register reg address port login is_admin now malloc_ok).2 = reg.next_id ∧
      client_registry_get
          (client_registry_register reg address port login is_admin now malloc_ok).1
          reg.next_id =
        some (new_client reg.next_id address port login is_admin now) ∧
      ids_distinct (client_registry_register reg address port login is_admin now malloc_ok).1 := by
  obtain ⟨hb0, hbl⟩ := hb
  rcases register_cases reg address port login is_admin now malloc_ok hw with
    ⟨_, h⟩ | ⟨_, _, i, hi, he, _, h⟩
  · rw [h] at hid
    exact absurd rfl hid
  · rw [h]
    have hilen : i < reg.clients.length := by rw [hw.1]; exact hi
    have hslot : slot_has_id
        { next_id := wrap_int (reg.next_id + 1)
          count := reg.count + 1
          clients := reg.clients.set i
            (some (new_client reg.next_id address port login is_admin now)) }
        reg.next_id i = true := by
      rw [slot_has_id_iff]
      exact ⟨_, getD_set_eq _ hilen, rfl⟩
    refine ⟨rfl, ?_, ?_⟩
    · rcases get_cases
          { next_id := wrap_int (reg.next_id + 1)
            count := reg.count + 1
            clients := reg.clients.set i
              (some (new_client reg.next_id address port login is_admin now)) }
          reg.next_id with ⟨j, c, hj, hc, hcid, _, hg⟩ | ⟨hnone, _⟩
      · rw [hg]
        rcases (live_at_set_iff _ (wrap_int (reg.next_id + 1)) (reg.count + 1) hilen j c).1
            ⟨hj, hc⟩ with ⟨_, h2, _⟩ | ⟨_, h2⟩
        · exact h2.symm
        · exfalso
          have := hbl j c h2
          omega
      · exfalso
        have := hnone i hi
        rw [hslot] at this
        simp at this
    · intro j k c d hj hk hcd
      rcases (live_at_set_iff _ _ _ hilen j c).1 hj with ⟨hj1, hj2, _⟩ | ⟨hj1, hj2⟩
      · rcases (live_at_set_iff _ _ _ hilen k d).1 hk with ⟨hk1, _, _⟩ | ⟨_, hk2⟩
        · omega
        · exfalso
          simp only [Option.some.injEq] at hj2
          subst hj2
          have := hbl k d hk2
          simp only [new_client] at hcd
          omega
      · rcases (live_at_set_iff _ _ _ hilen k d).1 hk with ⟨_, hk2, _⟩ | ⟨_, hk2⟩
        · exfalso
          simp only [Option.some.injEq] at hk2
          subst hk2
          have := hbl j c hj2
          simp only [new_client] at hcd
          omega
        · exact hd j k c d hj2 hk2 hcd

/-- On a registry with distinct live IDs, a remove that returns `true` leaves no
client with that ID. -/
theorem remove_then_get (reg : ClientRegistry) (client_id : Int) (hw : reg_wf reg)
    (hd : ids_distinct reg) (hr : (client_registry_remove reg client_id).2 = true) :
    client_registry_get (client_registry_remove reg client_id).1 client_id = none := by
  rcases remove_cases reg client_id with ⟨j, c, hj, hc, hcid, _, h⟩ | ⟨_, h⟩
  · rw [h]
    have hjlen : j < reg.clients.length := by rw [hw.1]; exact hj
    rcases get_cases
        { next_id := reg.next_id
          count := wrap_int (reg.count - 1)
          clients := reg.clients.set j none } client_id with
      ⟨k, d, hk, hdk, hdid, _, _⟩ | ⟨_, hg⟩
    · exfalso
      rcases (live_at_set_iff _ reg.next_id (wrap_int (reg.count - 1)) hjlen k d).1
          ⟨hk, hdk⟩ with ⟨_, h2, _⟩ | ⟨hne, h2⟩
      · simp at h2
      · exact hne (hd k j d c h2 ⟨hj, hc⟩ (by rw [hdid, hcid]))
    · exact hg
  · rw [h] at hr
    simp at hr

/-- A remove of an ID that some slot holds returns `true`. -/
theorem remove_of_live (reg : ClientRegistry) (client_id : Int) {i : Nat} {c : Client}
    (hl : live_at reg i c) (hc : c.ID = client_id) :
    (client_registry_remove reg client_id).2 = true := by
  rcases remove_cases reg client_id with ⟨_, _, _, _, _, _, h⟩ | ⟨hnone, _⟩
  · rw [h]
  · exfalso
    have h1 := hnone i hl.1
    rw [(slot_has_id_iff reg client_id i).2 ⟨c, hl.2, hc⟩] at h1
    simp at h1

theorem get_some_live (reg : ClientRegistry) (client_id : Int) (c : Client)
    (h : client_registry_get reg client_id = some c) :
    c.ID = client_id ∧ ∃ i, live_at reg i c := by
  rcases get_cases reg client_id with ⟨j, d, hj, hd, hdid, _, hg⟩ | ⟨_, hg⟩
  · rw [hg] at h
    simp only [Option.some.injEq] at h
    subst h
    exact ⟨hdid, j, hj, hd⟩
  · rw [hg] at h
    simp at h

theorem get_isSome_iff (reg : ClientRegistry) (client_id : Int) :
    (client_registry_get reg client_id).isSome = true ↔
      ∃ i c, live_at reg i c ∧ c.ID = client_id := by
  constructor
  · intro h
    obtain ⟨c, hc⟩ := Option.isSome_iff_exists.1 h
    obtain ⟨h1, i, h2⟩ := get_some_live reg client_id c hc
    exact ⟨i, c, h2, h1⟩
  · rintro ⟨i, c, hl, hc⟩
    rcases get_cases reg client_id with ⟨_, _, _, _, _, _, hg⟩ | ⟨hnone, _⟩
    · rw [hg]; rfl
    · exfalso
      have h1 := hnone i hl.1
      rw [(slot_has_id_iff reg client_id i).2 ⟨c, hl.2, hc⟩] at h1
      simp at h1

theorem resident_getD_zero (v : Int) :
    (resident_registry v).clients.getD 0 none = some (new_client 0 [] 0 [] false 0) :=
  getD_set_eq _ (by rw [List.length_replicate]; decide)

theorem resident_getD_pos (v : Int) (m : Nat) (hm : m ≠ 0) :
    (resident_registry v).clients.getD m none = none := by
  simp only [resident_registry]
  rw [getD_set_ne _ (Ne.symm hm)]
  exact empty_registry_getD 0 m

theorem resident_wf (v : Int) : reg_wf (resident_registry v) := by
  refine ⟨by simp [resident_registry], ?_⟩
  have hc := countP_set_some (new_client 0 [] 0 [] false 0)
    (List.replicate MAX_CLIENTS (none : Option Client)) 0
    (by rw [List.length_replicate]; decide) (empty_registry_getD 0 0)
  have hz : (List.replicate MAX_CLIENTS (none : Option Client)).countP (fun s => s.isSome) = 0 := by
    rw [List.countP_eq_zero]
    intro a ha
    rw [List.eq_of_mem_replicate ha]
    simp
  simp only [live_count, resident_registry, hc, hz]
  rfl

theorem resident_set_one (a b : Option Client) :
    (((List.replicate MAX_CLIENTS (none : Option Client)).set 0 a).set 1 b).set 1 none =
      (List.replicate MAX_CLIENTS none).set 0 a := by
  rw [show MAX_CLIENTS = 254 + 1 + 1 from rfl, List.replicate_succ, List.replicate_succ]
  rfl

/-- Registering on a registry whose only client sits in slot 0: slot 1 takes the
new client. -/
theorem register_resident (v : Int) (address : List Nat) (port : Int) (login : List Nat)
    (is_admin : Bool) (now : Int) :
    client_registry_register (resident_registry v) address port login is_admin now true =
      ({ next_id := wrap_int (v + 1)
         count := 2
         clients := (resident_registry v).clients.set 1
           (some (new_client v address port login is_admin now)) }, v) := by
  rcases register_cases (resident_registry v) address port login is_admin now true
      (resident_wf v) with ⟨h1, _⟩ | ⟨_, _, i, _, he, hi, h⟩
  · rcases h1 with h1 | h1
    · simp only [resident_registry, MAX_CLIENTS] at h1
      omega
    · simp at h1
  · have hi1 : i = 1 := by
      by_contra hne
      have h0 : i ≠ 0 := by
        intro h0
        rw [h0, resident_getD_zero] at he
        simp at he
      exact hi 1 (by omega) (resident_getD_pos v 1 (by decide))
    subst hi1
    rw [h]
    rfl

/-- One round of churn next to the resident client: the register returns `v ≠ 0`
in slot 1, the remove frees slot 1 again. -/
theorem resident_round (v : Int) (hv : v ≠ 0) :
    reg_run (resident_registry v) [register_call, RegOp.remove v] =
      (resident_registry (wrap_int (v + 1)), if v = -1 then [] else [v]) := by
  have hreg := register_resident v [] 0 [] false 0
  have hlen : (1 : Nat) < (resident_registry v).clients.length := by
    simp only [resident_registry, List.length_set, List.length_replicate]
    decide
  have hrem : client_registry_remove
      { next_id := wrap_int (v + 1)
        count := 2
        clients := (resident_registry v).clients.set 1
          (some (new_client v [] 0 [] false 0)) } v =
      (resident_registry (wrap_int (v + 1)), true) := by
    have h1 : slot_has_id
        { next_id := wrap_int (v + 1)
          count := 2
          clients := (resident_registry v).clients.set 1
            (some (new_client v [] 0 [] false 0)) } v 1 = true := by
      rw [slot_has_id_iff]
      exact ⟨_, getD_set_eq _ hlen, rfl⟩
    rcases remove_cases
        { next_id := wrap_int (v + 1)
          count := 2
          clients := (resident_registry v).clients.set 1
            (some (new_client v [] 0 [] false 0)) } v with
      ⟨j, c, _, hc, hcid, hj, h⟩ | ⟨hnone, _⟩
    · have hj1 : j = 1 := by
        by_contra hne
        have hj0 : j ≠ 0 := by
          intro h0
          rw [h0] at hc
          simp only at hc
          rw [getD_set_ne _ (by decide), resident_getD_zero] at hc
          simp only [Option.some.injEq] at hc
          rw [← hc] at hcid
          exact hv hcid.symm
        have := hj 1 (by omega)
        rw [h1] at this
        simp at this
      subst hj1
      rw [h]
      simp only [resident_registry, resident_set_one]
      rfl
    · have := hnone 1 (by decide)
      rw [h1] at this
      simp at this
  simp only [reg_run, register_call, reg_step, hreg, hrem, List.append_nil]

theorem wrap_int_ne_zero (k : Nat) (h1 : 0 < k) (h2 : k < 4294967296) :
    wrap_int (k : Int) ≠ 0 := by
  simp only [wrap_int]
  omega

theorem churn_above_state : ∀ (n : Nat), n < 4294967296 →
    (reg_run (resident_registry 1) (reg_churn_above n)).1 =
      resident_registry (wrap_int ((n + 1 : Nat) : Int)) := by
  intro n
  induction n with
  | zero =>
    intro _
    have h1 : wrap_int ((0 + 1 : Nat) : Int) = 1 := by decide
    rw [h1]
    simp only [reg_churn_above, reg_run]
  | succ n ih =>
    intro hn
    have hne := wrap_int_ne_zero (n + 1) (by omega) (by omega)
    simp only [reg_churn_above, reg_run_append, ih (by omega), resident_round _ hne]
    rw [wrap_int_succ]

/-- The resident registry is reached from the empty one by one register followed
by `n` rounds of churn. -/
theorem churn_above_from_empty (n : Nat) (hn : n < 4294967296) :
    (reg_run (empty_registry 0) ([register_call] ++ reg_churn_above n)).1 =
      resident_registry (wrap_int ((n + 1 : Nat) : Int)) := by
  have h1 : (reg_run (empty_registry 0) [register_call]).1 = resident_registry 1 := by
    simp only [reg_run, register_call, reg_step, register_empty]
    have hw : wrap_int (0 + 1) = 1 := by decide
    rw [hw]
    rfl
  rw [reg_run_append]
  simp only [h1]
  exact churn_above_state n hn

theorem wrapped_registry_eq :
    client_registry_register (resident_registry 0) [49] 80 [50] true 5 true =
      ({ next_id := wrap_int (0 + 1)
         count := 2
         clients := (resident_registry 0).clients.set 1
           (some (new_client 0 [49] 80 [50] true 5)) }, 0) :=
  register_resident 0 [49] 80 [50] true 5

theorem wrapped_registry_slots :
    wrapped_registry.clients.getD 0 none = some (new_client 0 [] 0 [] false 0) ∧
      wrapped_registry.clients.getD 1 none = some (new_client 0 [49] 80 [50] true 5) := by
  simp only [wrapped_registry, wrapped_registry_eq]
  constructor
  · rw [getD_set_ne _ (by decide)]
    exact resident_getD_zero 0
  · apply getD_set_eq
    simp only [resident_registry, List.length_set, List.length_replicate]
    decide

/-- Claim C11, as stated, fails. The registry `resident_registry 0` is reached from
`client_registry_create` by one register, whose client (ID 0) stays in slot 0,
followed by 4294967295 register/remove rounds, which bring `next_id` back to 0.
On it a register with address "1", port 80, login "2" and the admin flag succeeds
and returns the ID 0; `client_registry_get(0)` then returns the resident client of
slot 0, whose port is 0, whose address and login are empty and which is not an
admin; and after `client_registry_remove(0)` has returned `true`,
`client_registry_get(0)` still returns a client. -/
theorem registry_get_after_wrap :
    client_registry_create true = some (empty_registry 0) ∧
      (reg_run (empty_registry 0) ([register_call] ++ reg_churn_above 4294967295)).1 =
        resident_registry 0 ∧
      client_registry_register (resident_registry 0) [49] 80 [50] true 5 true =
        (wrapped_registry, 0) ∧
      client_registry_get wrapped_registry 0 = some (new_client 0 [] 0 [] false 0) ∧
      (new_client 0 [] 0 [] false 0).Port ≠ 80 ∧
      cstr (new_client 0 [] 0 [] false 0).Address ≠ [49] ∧
      cstr (new_client 0 [] 0 [] false 0).Login ≠ [50] ∧
      (new_client 0 [] 0 [] false 0).IsAdmin ≠ true ∧
      (client_registry_remove wrapped_registry 0).2 = true ∧
      client_registry_get (client_registry_remove wrapped_registry 0).1 0 =
        some (new_client 0 [49] 80 [50] true 5) := by
  have hs0 : slot_has_id wrapped_registry 0 0 = true := by
    rw [slot_has_id_iff]
    exact ⟨_, wrapped_registry_slots.1, rfl⟩
  have hs1 : live_at wrapped_registry 1 (new_client 0 [49] 80 [50] true 5) :=
    ⟨by decide, wrapped_registry_slots.2⟩
  have hlen : wrapped_registry.clients.length = MAX_CLIENTS :=
    (register_wf (resident_registry 0) [49] 80 [50] true 5 true (resident_wf 0)).1
  have hcs : ∀ (id : Int) (p : Int) (ad : Bool) (t : Int),
      cstr (strncpy (List.replicate 64 0) [] 63) = [] :=
    fun _ _ _ _ => cstr_strncpy [] (by decide) (by simp)
  refine ⟨rfl, ?_, ?_, ?_, by decide, ?_, ?_, by decide, ?_, ?_⟩
  · have h := churn_above_from_empty 4294967295 (by decide)
    have hw : wrap_int ((4294967295 + 1 : Nat) : Int) = 0 := by decide
    rw [hw] at h
    exact h
  · rw [wrapped_registry, wrapped_registry_eq]
  · rcases get_cases wrapped_registry 0 with ⟨j, c, _, hc, _, hj, hg⟩ | ⟨hnone, _⟩
    · have hj0 : j = 0 := by
        by_contra hne
        have := hj 0 (by omega)
        rw [hs0] at this
        simp at this
      subst hj0
      rw [hg, ← hc, wrapped_registry_slots.1]
    · have := hnone 0 (by decide)
      rw [hs0] at this
      simp at this
  · simp only [new_client, hcs 0 0 false 0]
    simp
  · simp only [new_client, hcs 0 0 false 0]
    simp
  · exact remove_of_live wrapped_registry 0 ⟨by decide, wrapped_registry_slots.1⟩ rfl
  · rcases remove_cases wrapped_registry 0 with ⟨j, c, _, hc, _, hj, h⟩ | ⟨hnone, _⟩
    · have hj0 : j = 0 := by
        by_contra hne
        have := hj 0 (by omega)
        rw [hs0] at this
        simp at this
      subst hj0
      rw [h]
      have hl0 : 0 < wrapped_registry.clients.length := by rw [hlen]; decide
      have hlive : live_at
          { next_id := wrapped_registry.next_id
            count := wrap_int (wrapped_registry.count - 1)
            clients := wrapped_registry.clients.set 0 none } 1
          (new_client 0 [49] 80 [50] true 5) :=
        (live_at_set_iff none _ _ hl0 1 _).2 (Or.inr ⟨by decide, hs1⟩)
      rcases get_cases
          { next_id := wrapped_registry.next_id
            count := wrap_int (wrapped_registry.count - 1)
            clients := wrapped_registry.clients.set 0 none } 0 with
        ⟨k, d, hk, hdk, _, hkm, hg⟩ | ⟨hnone, _⟩
      · have hk1 : k = 1 := by
          by_contra hne
          have hk0 : k ≠ 0 := by
            intro h0
            rw [h0, getD_set_eq none hl0] at hdk
            simp at hdk
          have := hkm 1 (by omega)
          rw [(slot_has_id_iff _ 0 1).2 ⟨_, hlive.2, rfl⟩] at this
          simp at this
        subst hk1
        rw [hg, ← hdk, hlive.2]
      · have := hnone 1 (by decide)
        rw [(slot_has_id_iff _ 0 1).2 ⟨_, hlive.2, rfl⟩] at this
        simp at this
    · have := hnone 0 (by decide)
      rw [hs0] at this
      simp at this

/-- Claim C11, amended. For every registry `r` and every `id`,
`client_registry_get(id)` returns a client iff a live client has that ID, and the
client returned has `ID == id`. On a registry that satisfies the registry
invariants (256 slots, `count` = number of non-empty slots, live IDs distinct and
in `[0, next_id)`): immediately after a successful register of an address and a
login of fewer than 64 bytes, `get` of the returned ID returns a client carrying
exactly that address, port, login and admin flag, in state `CLIENT_CONNECTING`;
a remove of that ID then returns `true`, after which `get` returns `NULL`. More
generally, on any registry with distinct live IDs, `get(id)` returns `NULL` after a
`remove(id)` that returned `true`. -/
theorem registry_get_correct (reg : ClientRegistry) (address : List Nat) (port : Int)
    (login : List Nat) (is_admin : Bool) (now : Int) (malloc_ok : Bool)
    (hw : reg_wf reg) (hb : ids_below_next reg) (hd : ids_distinct reg)
    (haddr : address.length < 64 ∧ ∀ b ∈ address, b ≠ 0)
    (hlogin : login.length < 64 ∧ ∀ b ∈ login, b ≠ 0)
    (hid : (client_registry_register reg address port login is_admin now malloc_ok).2 ≠ -1) :
    (∀ (r : ClientRegistry) (id : Int),
      ((client_registry_get r id).isSome = true ↔ ∃ i c, live_at r i c ∧ c.ID = id) ∧
        ∀ c, client_registry_get r id = some c → c.ID = id ∧ ∃ i, live_at r i c) ∧
      (∃ c,
        client_registry_get
            (client_registry_register reg address port login is_admin now malloc_ok).1
            (client_registry_register reg address port login is_admin now malloc_ok).2 =
          some c ∧
        c.ID = (client_registry_register reg address port login is_admin now malloc_ok).2 ∧
        cstr c.Address = address ∧ c.Port = port ∧ cstr c.Login = login ∧
        c.IsAdmin = is_admin ∧ c.State = ClientState.CLIENT_CONNECTING) ∧
      ((client_registry_remove
          (client_registry_register reg address port login is_admin now malloc_ok).1
          (client_registry_register reg address port login is_admin now malloc_ok).2).2 = true ∧
        client_registry_get
          (client_registry_remove
            (client_registry_register reg address port login is_admin now malloc_ok).1
            (client_registry_register reg address port login is_admin now malloc_ok).2).1
          (client_registry_register reg address port login is_admin now malloc_ok).2 = none) ∧
      ∀ (r : ClientRegistry) (id : Int), reg_wf r → ids_distinct r →
        (client_registry_remove r id).2 = true →
        client_registry_get (client_registry_remove r id).1 id = none := by
  obtain ⟨hret, hget, hdist⟩ :=
    register_then_get reg address port login is_admin now malloc_ok hw hb hd hid
  have hw1 := register_wf reg address port login is_admin now malloc_ok hw
  obtain ⟨_, i, hlive⟩ := get_some_live _ _ _ hget
  have hrem := remove_of_live
    (client_registry_register reg address port login is_admin now malloc_ok).1 reg.next_id
    hlive rfl
  refine ⟨fun r id => ⟨get_isSome_iff r id, get_some_live r id⟩, ?_, ?_,
    fun r id h1 h2 h3 => remove_then_get r id h1 h2 h3⟩
  · rw [hret]
    exact ⟨_, hget, rfl, cstr_strncpy address haddr.1 haddr.2, rfl,
      cstr_strncpy login hlogin.1 hlogin.2, rfl, rfl⟩
  · rw [hret]
    exact ⟨hrem, remove_then_get _ _ hw1 hdist hrem⟩

/-- Witness of C11 (amended): on a fresh registry, a register with address "1",
port 80, login "2" and the admin flag; the client is found again by its ID. -/
theorem registry_get_correct_witness :
    ∃ c, client_registry_get
        (client_registry_register (empty_registry 0) [49] 80 [50] true 5 true).1
        (client_registry_register (empty_registry 0) [49] 80 [50] true 5 true).2 = some c ∧
      cstr c.Address = [49] ∧ c.Port = 80 ∧ cstr c.Login = [50] ∧ c.IsAdmin = true ∧
      c.State = ClientState.CLIENT_CONNECTING := by
  have hid : (client_registry_register (empty_registry 0) [49] 80 [50] true 5 true).2 ≠ -1 := by
    rw [register_empty]
    decide
  obtain ⟨c, h1, _, h3, h4, h5, h6, h7⟩ :=
    (registry_get_correct (empty_registry 0) [49] 80 [50] true 5 true (empty_registry_wf 0)
      (empty_registry_ids 0 (le_refl _)).1 (empty_registry_ids 0 (le_refl _)).2
      ⟨by decide, by decide⟩ ⟨by decide, by decide⟩ hid).2.1
  exact ⟨c, h1, h3, h4, h5, h6, h7⟩

/-! ## Message ceilings and authentication -/

/-- Claim C16. With `MSGID_CHAT` any value other than the login ID (the case labels of a
`switch` are distinct), `get_max_message_length` returns 256 for the login kind (1),
4096 for the chat-class kinds (chat, just-message 1002, out-of-character chat 1005)
and 1048576 for every other kind; hence for every integer kind the result is
positive and at most 1 MiB, and login ceiling < chat ceiling < default ceiling. -/
theorem get_max_message_length_values (MSGID_CHAT kind : Int) (hc : MSGID_CHAT ≠ MSGID_LOGIN) :
    (MSGID_LOGIN = 1 ∧ MSGID_JUSTMESSAGE = 1002 ∧ MSGID_OOCMESSAGE = 1005) ∧
      get_max_message_length MSGID_CHAT MSGID_LOGIN = 256 ∧
      get_max_message_length MSGID_CHAT MSGID_CHAT = 4096 ∧
      get_max_message_length MSGID_CHAT MSGID_JUSTMESSAGE = 4096 ∧
      get_max_message_length MSGID_CHAT MSGID_OOCMESSAGE = 4096 ∧
      (kind ≠ MSGID_CHAT → kind ≠ MSGID_JUSTMESSAGE → kind ≠ MSGID_OOCMESSAGE →
        kind ≠ MSGID_LOGIN → get_max_message_length MSGID_CHAT kind = 1048576) ∧
      0 < get_max_message_length MSGID_CHAT kind ∧
      get_max_message_length MSGID_CHAT kind ≤ 1048576 ∧
      get_max_message_length MSGID_CHAT MSGID_LOGIN <
        get_max_message_length MSGID_CHAT MSGID_CHAT ∧
      get_max_message_length MSGID_CHAT MSGID_CHAT < MAX_MESSAGE_LENGTH := by
  have hlogin : get_max_message_length MSGID_CHAT MSGID_LOGIN = 256 := by
    unfold get_max_message_length
    rw [if_neg, if_pos rfl]
    rintro (h | h | h)
    · exact hc h.symm
    · exact absurd h (by decide)
    · exact absurd h (by decide)
  have hchat : get_max_message_length MSGID_CHAT MSGID_CHAT = 4096 := by
    unfold get_max_message_length
    rw [if_pos (Or.inl rfl)]
  refine ⟨⟨rfl, rfl, rfl⟩, hlogin, hchat, ?_, ?_, ?_, ?_, ?_, ?_, ?_⟩
  · unfold get_max_message_length
    rw [if_pos (Or.inr (Or.inl rfl))]
  · unfold get_max_message_length
    rw [if_pos (Or.inr (Or.inr rfl))]
  · intro h1 h2 h3 h4
    unfold get_max_message_length
    rw [if_neg, if_neg h4]
    · decide
    · rintro (h | h | h)
      · exact h1 h
      · exact h2 h
      · exact h3 h
  · unfold get_max_message_length
    split
    · decide
    · split <;> decide
  · unfold get_max_message_length
    split
    · decide
    · split <;> decide
  · rw [hlogin, hchat]
    decide
  · rw [hchat]
    decide

/-- Witness of C16: the ceilings with 1007 taken for `MSGID_CHAT`, at the ping kind. -/
theorem get_max_message_length_values_witness :
    get_max_message_length 1007 MSGID_LOGIN = 256 ∧
      get_max_message_length 1007 1007 = 4096 ∧
      get_max_message_length 1007 MSGID_PING = 1048576 := by
  have h := get_max_message_length_values 1007 MSGID_PING (by decide)
  exact ⟨h.2.1, h.2.2.1, h.2.2.2.2.2.1 (by decide) (by decide) (by decide) (by decide)⟩

theorem cstr_nil : cstr [] = [] := rfl

theorem cstr_cons (a : Nat) (t : List Nat) :
    cstr (a :: t) = if a = 0 then [] else a :: cstr t := by
  by_cases h : a = 0
  · subst h
    simp [cstr]
  · simp [cstr, h]

/-- The model of `strcmp` returns 0 exactly when the two C strings are equal. -/
theorem strcmp_eq_zero_iff : ∀ (a b : List Nat), strcmp a b = 0 ↔ cstr a = cstr b := by
  intro a
  induction a with
  | nil =>
    intro b
    cases b with
    | nil => simp [strcmp]
    | cons y t =>
      rw [cstr_nil, cstr_cons]
      by_cases hy : y = 0
      · simp [strcmp, hy]
      · simp only [strcmp, hy, if_false]
        constructor
        · intro h
          omega
        · intro h
          simp at h
  | cons x s ih =>
    intro b
    cases b with
    | nil =>
      rw [cstr_nil, cstr_cons]
      by_cases hx : x = 0
      · simp [strcmp, hx]
      · simp only [strcmp, hx, if_false]
        constructor
        · intro h
          omega
        · intro h
          simp at h
    | cons y t =>
      rw [cstr_cons, cstr_cons]
      by_cases hxy : x = y
      · subst hxy
        by_cases hx : x = 0
        · simp [strcmp, hx]
        · simp only [strcmp, hx, if_true, if_false]
          rw [ih t]
          simp
      · simp only [strcmp, hxy, if_false]
        constructor
        · intro h
          omega
        · intro h
          exfalso
          by_cases hx : x = 0
          · by_cases hy : y = 0
            · exact hxy (by rw [hx, hy])
            · simp [hx, hy] at h
          · by_cases hy : y = 0
            · simp [hx, hy] at h
            · simp [hx, hy] at h
              exact hxy h.1

/-- Claim C17. For every database, user name, password hash and prior content of the
result record, `authenticate` with `is_guest = true` returns 0 and sets the result
to `GuestInfo`, which has an empty login, an empty password hash and
`IsAdmin = false`; the credential store is not consulted: no lookup is made, and
the outcome is the same with any lookup function in place of `json_db_get_user`. -/
theorem authenticate_guest (get_user : Option json_db_t → List Nat → Option UserInfo)
    (db : Option json_db_t) (username passhash : List Nat) (result : UserInfo) :
    authenticate db username passhash true result =
        { ret := 0, result := GuestInfo, lookups := [] } ∧
      authenticate_with get_user db username passhash true result =
        { ret := 0, result := GuestInfo, lookups := [] } ∧
      cstr GuestInfo.Login = [] ∧ cstr GuestInfo.Passhash = [] ∧ GuestInfo.IsAdmin = false := by
  refine ⟨rfl, rfl, ?_, ?_, rfl⟩
  · simp only [GuestInfo]
    rw [show (64 : Nat) = 63 + 1 from rfl, List.replicate_succ, cstr_cons, if_pos rfl]
  · simp only [GuestInfo]
    rw [show (128 : Nat) = 127 + 1 from rfl, List.replicate_succ, cstr_cons, if_pos rfl]

/-- Claim C18. For every non-guest `authenticate` call, whatever the lookup returns:
the call returns 0 iff the lookup finds the login and the stored password hash
equals the supplied one (as C strings), and it then copies the stored record into
the result; a login that is not found and a password hash that differs both
return `ErrNotAuthenticated` (-1) and leave the result record as it was. -/
theorem authenticate_credentials (get_user : Option json_db_t → List Nat → Option UserInfo)
    (db : Option json_db_t) (username passhash : List Nat) (result : UserInfo) :
    ((authenticate_with get_user db username passhash false result).ret = 0 ↔
        ∃ info, get_user db username = some info ∧ cstr info.Passhash = cstr passhash) ∧
      (∀ info, get_user db username = some info → cstr info.Passhash = cstr passhash →
        (authenticate_with get_user db username passhash false result).ret = 0 ∧
          (authenticate_with get_user db username passhash false result).result = info) ∧
      (get_user db username = none →
        (authenticate_with get_user db username passhash false result).ret =
            ErrNotAuthenticated ∧
          (authenticate_with get_user db username passhash false result).result = result) ∧
      (∀ info, get_user db username = some info → cstr info.Passhash ≠ cstr passhash →
        (authenticate_with get_user db username passhash false result).ret =
            ErrNotAuthenticated ∧
          (authenticate_with get_user db username passhash false result).result = result) ∧
      ErrNotAuthenticated = -1 := by
  have hfound : ∀ info, get_user db username = some info → cstr info.Passhash = cstr passhash →
      authenticate_with get_user db username passhash false result =
        { ret := 0, result := info, lookups := [username] } := by
    intro info hi hp
    have h0 : strcmp info.Passhash passhash = 0 := (strcmp_eq_zero_iff _ _).2 hp
    simp [authenticate_with, hi, h0]
  have hdiff : ∀ info, get_user db username = some info → cstr info.Passhash ≠ cstr passhash →
      authenticate_with get_user db username passhash false result =
        { ret := ErrNotAuthenticated, result := result, lookups := [username] } := by
    intro info hi hp
    have h0 : strcmp info.Passhash passhash ≠ 0 := fun h => hp ((strcmp_eq_zero_iff _ _).1 h)
    simp [authenticate_with, hi, h0]
  have hnone : get_user db username = none →
      authenticate_with get_user db username passhash false result =
        { ret := ErrNotAuthenticated, result := result, lookups := [username] } := by
    intro hi
    simp [authenticate_with, hi]
  refine ⟨?_, fun info hi hp => by rw [hfound info hi hp]; exact ⟨rfl, rfl⟩,
    fun hi => by rw [hnone hi]; exact ⟨rfl, rfl⟩,
    fun info hi hp => by rw [hdiff info hi hp]; exact ⟨rfl, rfl⟩, rfl⟩
  constructor
  · intro h
    rcases hg : get_user db username with _ | info
    · rw [hnone hg] at h
      have hne : ErrNotAuthenticated ≠ 0 := by decide
      exact absurd h hne
    · by_cases hp : cstr info.Passhash = cstr passhash
      · exact ⟨info, rfl, hp⟩
      · rw [hdiff info hg hp] at h
        have hne : ErrNotAuthenticated ≠ 0 := by decide
        exact absurd h hne
  · rintro ⟨info, hi, hp⟩
    rw [hfound info hi hp]

/-- Witness of C18: a store that knows "alice" with password hash "h1"; the right hash
is accepted, a wrong hash and an unknown login are both refused with -1. -/
theorem authenticate_credentials_witness :
    (authenticate_with alice_store none [97, 108, 105, 99, 101] [104, 49] false GuestInfo).ret = 0 ∧
      (authenticate_with alice_store none [97, 108, 105, 99, 101] [104, 50] false GuestInfo).ret =
        -1 ∧
      (authenticate_with alice_store none [98, 111, 98] [104, 49] false GuestInfo).ret = -1 := by
  have hs : ∀ s : List Nat, s.length < 128 → (∀ b ∈ s, b ≠ 0) →
      cstr (strncpy (List.replicate 128 0) s 127) = s := by
    intro s hlen hnz
    have htw : s.takeWhile (fun b => b != 0) = s := by
      rw [List.takeWhile_eq_self_iff]
      intro b hb
      simpa using hnz b hb
    have htk : s.take 127 = s := List.take_of_length_le (by omega)
    simp only [cstr, strncpy, htw, htk, List.append_assoc]
    apply takeWhile_append_stop
    · intro b hb
      simpa using hnz b hb
    · intro y hy
      have hd : (List.replicate 128 0).drop 127 = [0] := by
        rw [List.drop_replicate]
        rfl
      rw [hd] at hy
      rcases Nat.eq_zero_or_pos (127 - s.length) with h0 | hpos
      · rw [h0] at hy
        simp at hy
        subst hy
        rfl
      · obtain ⟨k, hk⟩ := Nat.exists_eq_succ_of_ne_zero (Nat.pos_iff_ne_zero.1 hpos)
        rw [hk, List.replicate_succ] at hy
        simp at hy
        subst hy
        rfl
  have hstored := hs [104, 49] (by decide) (by decide)
  have ha : alice_store none [97, 108, 105, 99, 101] =
      some { Login := strncpy (List.replicate 64 0) [97, 108, 105, 99, 101] 63
             Passhash := strncpy (List.replicate 128 0) [104, 49] 127
             IsAdmin := false } := by
    simp [alice_store]
  have hb : alice_store none [98, 111, 98] = none := by
    simp [alice_store]
  have h1 := authenticate_credentials alice_store none [97, 108, 105, 99, 101] [104, 49] GuestInfo
  have h2 := authenticate_credentials alice_store none [97, 108, 105, 99, 101] [104, 50] GuestInfo
  have h3 := authenticate_credentials alice_store none [98, 111, 98] [104, 49] GuestInfo
  refine ⟨(h1.2.1 _ ha ?_).1, (h2.2.2.2.1 _ ha ?_).1, (h3.2.2.1 hb).1⟩
  · simp only [hstored]
    rfl
  · simp only [hstored]
    decide

/-! ## Accepting connections -/

/-- On a registry with a free slot and a successful allocation, `accept_connections`
registers the peer; the ID is the old `next_id`. -/
theorem accept_connections_cases (state : ServerState) (reg : ClientRegistry)
    (client_fd : Int) (addr_str : List Nat) (port : Int) (now : Int)
    (hfd : 0 ≤ client_fd) (hreg : state.Clients = some reg) (hw : reg_wf reg)
    (hlt : reg.count < 256) :
    ∃ i, i < MAX_CLIENTS ∧ reg.clients.getD i none = none ∧
      accept_connections state client_fd addr_str port now true =
        if reg.next_id ≥ 0 then
          some ({ state with
              Clients := some
                { next_id := wrap_int (reg.next_id + 1)
                  count := reg.count + 1
                  clients := reg.clients.set i
                    (some (new_client reg.next_id addr_str port [] false now)) }
              Telemetry := stats_collector_add_client state.Telemetry }, [])
        else
          some ({ state with
              Clients := some
                { next_id := wrap_int (reg.next_id + 1)
                  count := reg.count + 1
                  clients := reg.clients.set i
                    (some (new_client reg.next_id addr_str port [] false now)) } },
            [client_fd]) := by
  rcases register_cases reg addr_str port [] false now true hw with
    ⟨h1, _⟩ | ⟨_, _, i, hi, he, _, h⟩
  · exfalso
    rcases h1 with h1 | h1
    · simp only [MAX_CLIENTS] at h1
      omega
    · simp at h1
  · refine ⟨i, hi, he, ?_⟩
    simp only [accept_connections, hreg, h]
    rw [if_pos (by omega)]

/-- Claim C19, as stated, fails. In each of the four states below the registry is
empty, so it has a free slot (`count = 0 < 256`), and `accept_connections` accepts
the connection with descriptor 7. (a) When the `malloc` of the client record fails,
nothing is registered: the state is unchanged and the socket is closed. (b) When
the collector pointer is `NULL` the client is registered but there is no counter
to increment: the total reads 0 before and after. (c) When `next_id` is negative
the register succeeds and `count` becomes 1, but the returned ID is negative, so
the telemetry is left unchanged and the socket is closed. (d) When the total
counter is `INT_MAX` it becomes `INT_MIN`. -/
theorem accept_connections_not_always_counted :
    ((empty_registry 0).count < 256 ∧
      accept_connections (server_state_of (empty_registry 0) (some (collector_of 0)))
          7 [49] 80 0 false =
        some (server_state_of (empty_registry 0) (some (collector_of 0)), [7])) ∧
    (∃ s1, accept_connections (server_state_of (empty_registry 0) none) 7 [49] 80 0 true =
          some (s1, []) ∧
        stats_collector_get_total_clients (server_state_of (empty_registry 0) none).Telemetry = 0 ∧
        stats_collector_get_total_clients s1.Telemetry = 0) ∧
    (∃ reg1, accept_connections (server_state_of (empty_registry (-5)) (some (collector_of 0)))
          7 [49] 80 0 true =
          some (server_state_of reg1 (some (collector_of 0)), [7]) ∧
        reg1.count = 1) ∧
    (∃ s1 sc1, accept_connections
          (server_state_of (empty_registry 2147483647) (some (collector_of 2147483647)))
          7 [49] 80 0 true = some (s1, []) ∧
        s1.Telemetry = some sc1 ∧ sc1.total_session_clients = -2147483648) := by
  refine ⟨⟨by decide, ?_⟩, ?_, ?_, ?_⟩
  · have hr : client_registry_register (empty_registry 0) [49] 80 [] false 0 false =
        (empty_registry 0, -1) := by
      simp only [client_registry_register]
      rw [if_neg (by decide), if_pos trivial]
    simp only [accept_connections, server_state_of, hr]
    rw [if_pos (by decide), if_neg (by decide)]
  · simp only [accept_connections, server_state_of, register_empty]
    rw [if_pos (by decide), if_pos (by decide)]
    exact ⟨_, rfl, rfl, rfl⟩
  · simp only [accept_connections, server_state_of, register_empty]
    rw [if_pos (by decide), if_neg (by decide)]
    exact ⟨_, rfl, rfl⟩
  · simp only [accept_connections, server_state_of, register_empty]
    rw [if_pos (by decide), if_pos (by decide)]
    refine ⟨_, _, rfl, rfl, ?_⟩
    decide

/-- Claim C19, amended. When `accept_connections` accepts a connection
(`client_fd ≥ 0`) while the registry, with `count` equal to its number of non-empty
slots and `next_id ≥ 0`, has a free slot (`count < 256`), the allocation of the
client record succeeds and the telemetry collector exists with both client
counters below `INT_MAX`: the registry `count` increases by exactly 1, the
total-clients counter and the current-clients gauge increase by exactly 1, no
socket is closed, and the new entry, stored in an empty slot, carries the peer
address and port, an empty login and a non-admin flag. -/
theorem accept_connections_registers (state : ServerState) (reg : ClientRegistry)
    (sc : StatsCollector) (client_fd : Int) (addr_str : List Nat) (port : Int) (now : Int)
    (hfd : 0 ≤ client_fd) (hreg : state.Clients = some reg) (hw : reg_wf reg)
    (hlt : reg.count < 256) (hid : 0 ≤ reg.next_id) (hsc : state.Telemetry = some sc)
    (hcur : INT_MIN ≤ sc.current_clients ∧ sc.current_clients < INT_MAX)
    (htot : INT_MIN ≤ sc.total_session_clients ∧ sc.total_session_clients < INT_MAX)
    (haddr : addr_str.length < 64 ∧ ∀ b ∈ addr_str, b ≠ 0) :
    ∃ reg1 sc1 i c,
      accept_connections state client_fd addr_str port now true =
          some ({ state with Clients := some reg1, Telemetry := some sc1 }, []) ∧
        reg1.count = reg.count + 1 ∧
        client_registry_count reg1 = client_registry_count reg + 1 ∧
        sc1.total_session_clients = sc.total_session_clients + 1 ∧
        sc1.current_clients = sc.current_clients + 1 ∧
        stats_collector_get_total_clients (some sc1) =
          stats_collector_get_total_clients state.Telemetry + 1 ∧
        stats_collector_get_clients (some sc1) =
          stats_collector_get_clients state.Telemetry + 1 ∧
        i < MAX_CLIENTS ∧ reg.clients.getD i none = none ∧
        reg1.clients = reg.clients.set i (some c) ∧
        cstr c.Address = addr_str ∧ c.Port = port ∧ cstr c.Login = [] ∧ c.IsAdmin = false := by
  obtain ⟨i, hi, he, h⟩ :=
    accept_connections_cases state reg client_fd addr_str port now hfd hreg hw hlt
  rw [if_pos hid] at h
  have h1 : wrap_int (sc.current_clients + 1) = sc.current_clients + 1 := by
    apply wrap_int_id
    · have := hcur.1
      simp only [INT_MIN] at this ⊢
      omega
    · have := hcur.2
      simp only [INT_MAX] at this ⊢
      omega
  have h2 : wrap_int (sc.total_session_clients + 1) = sc.total_session_clients + 1 := by
    apply wrap_int_id
    · have := htot.1
      simp only [INT_MIN] at this ⊢
      omega
    · have := htot.2
      simp only [INT_MAX] at this ⊢
      omega
  refine ⟨{ next_id := wrap_int (reg.next_id + 1)
            count := reg.count + 1
            clients := reg.clients.set i
              (some (new_client reg.next_id addr_str port [] false now)) },
    { sc with
      current_clients := sc.current_clients + 1
      total_session_clients := sc.total_session_clients + 1 }, i,
    new_client reg.next_id addr_str port [] false now, ?_, rfl, rfl, rfl, rfl, ?_, ?_, hi, he,
    rfl, cstr_strncpy addr_str haddr.1 haddr.2, rfl, cstr_strncpy [] (by decide) (by simp), rfl⟩
  · rw [h, hsc]
    simp only [stats_collector_add_client, h1, h2]
  · rw [hsc]
    rfl
  · rw [hsc]
    rfl

/-- Witness of C19 (amended): the first connection accepted by a fresh server, from
"10.0.0.7" port 5000 on descriptor 7. -/
theorem accept_connections_registers_witness :
    ∃ reg1 sc1,
      accept_connections (server_state_of (empty_registry 0) (some (collector_of 0)))
          7 [49, 48, 46, 48, 46, 48, 46, 55] 5000 0 true =
        some ({ server_state_of (empty_registry 0) (some (collector_of 0)) with
          Clients := some reg1, Telemetry := some sc1 }, []) ∧
      reg1.count = 1 ∧ sc1.total_session_clients = 1 ∧ sc1.current_clients = 1 := by
  obtain ⟨reg1, sc1, _, _, h1, h2, _, h4, h5, _⟩ :=
    accept_connections_registers (server_state_of (empty_registry 0) (some (collector_of 0)))
      (empty_registry 0) (collector_of 0) 7 [49, 48, 46, 48, 46, 48, 46, 55] 5000 0
      (by decide) rfl (empty_registry_wf 0) (by decide) (by decide) rfl
      ⟨by decide, by decide⟩ ⟨by decide, by decide⟩ ⟨by decide, by decide⟩
  exact ⟨reg1, sc1, h1, h2, h4, h5⟩

/-- At capacity `accept_connections` of `main.c` registers nothing: the registry and the
telemetry are unchanged and the accepted socket is closed. -/
theorem accept_connections_full (state : ServerState) (reg : ClientRegistry)
    (client_fd : Int) (addr_str : List Nat) (port : Int) (now : Int) (malloc_ok : Bool)
    (hfd : 0 ≤ client_fd) (hreg : state.Clients = some reg)
    (hfull : reg.count = (MAX_CLIENTS : Int)) :
    accept_connections state client_fd addr_str port now malloc_ok =
      some (state, [client_fd]) := by
  have hr : client_registry_register reg addr_str port [] false now malloc_ok = (reg, -1) := by
    simp only [client_registry_register]
    rw [if_pos (by rw [hfull])]
  simp only [accept_connections, hreg, hr]
  rw [if_pos hfd, if_neg (by decide)]
  cases state
  simp only at hreg
  simp only [hreg]

/-! ## The dispatcher of `server.c` -/

theorem accept_loop_full (g : Globals) (client_fd : Int) (addr_str : List Nat) (port : Int)
    (now : Int) (malloc_ok : Bool) : ∀ (fuel i : Nat),
    (∀ m, i ≤ m → m < i + fuel → g.g_clients.getD m none ≠ none) →
    accept_loop g client_fd addr_str port now malloc_ok fuel i = some (g, none) := by
  intro fuel
  induction fuel with
  | zero => intro i _; rfl
  | succ n ih =>
    intro i h
    rcases Option.eq_none_or_eq_some (g.g_clients.getD i none) with h0 | ⟨c, h0⟩
    · exact absurd h0 (h i (le_refl _) (by omega))
    · simp only [accept_loop, h0]
      exact ih (i + 1) (fun m h1 h2 => h m (by omega) (by omega))

/-- With every slot of the table occupied, `server_accept_client` changes nothing, closes
nothing and returns `NULL`. -/
theorem server_accept_client_full (g : Globals) (client_fd : Int) (addr_str : List Nat)
    (port : Int) (now : Int) (malloc_ok : Bool) (hfd : 0 ≤ client_fd)
    (hm : g.g_clients_mutex = false)
    (hfull : ∀ m, m < DEFAULT_MAX_CLIENTS → g.g_clients.getD m none ≠ none) :
    server_accept_client g client_fd addr_str port now malloc_ok =
      Outcome.returned g [] [] none := by
  have hl := accept_loop_full g client_fd addr_str port now malloc_ok DEFAULT_MAX_CLIENTS 0
    (fun m _ h2 => hfull m (by omega))
  simp only [server_accept_client, hm, hl]
  rw [if_neg (by omega)]
  simp

theorem chat_loop_eq (clients : List (Option client_t)) (msg : message_t) : ∀ (fuel i : Nat),
    chat_loop clients msg fuel i = ((clients.drop i).take fuel).filterMap (chat_event msg) := by
  intro fuel
  induction fuel with
  | zero => intro i; simp [chat_loop]
  | succ n ih =>
    intro i
    by_cases hi : i < clients.length
    · have hd : clients.drop i = clients[i] :: clients.drop (i + 1) :=
        List.drop_eq_getElem_cons hi
      have hg : clients.getD i none = clients[i] := by
        simp [List.getD_eq_getElem?_getD, List.getElem?_eq_getElem hi]
      rw [hd, List.take_succ_cons, List.filterMap_cons]
      rcases hs : clients[i] with _ | c
      · simp only [chat_loop, hg, hs, chat_event]
        exact ih (i + 1)
      · by_cases hc : c.state = CLIENT_STATE_AUTHENTICATED
        · simp only [chat_loop, hg, hs, chat_event, hc, if_true]
          rw [ih (i + 1)]
        · simp only [chat_loop, hg, hs, chat_event, hc, if_false]
          exact ih (i + 1)
    · have hd : clients.drop i = [] := List.drop_eq_nil_of_le (by omega)
      have hg : clients.getD i none = none := List.getD_eq_default _ _ (by omega)
      rw [hd]
      simp only [chat_loop, hg, List.take_nil, List.filterMap_nil]
      rw [ih (i + 1), List.drop_eq_nil_of_le (by omega)]
      simp

theorem filterMap_set_same (f : Option client_t → Option SendEvent) (a : Option client_t) :
    ∀ (l : List (Option client_t)) (i : Nat), f (l.getD i none) = f a → i < l.length →
    (l.set i a).filterMap f = l.filterMap f := by
  intro l
  induction l with
  | nil => intro i _ hi; simp at hi
  | cons x t ih =>
    intro i h hi
    cases i with
    | zero =>
      simp only [List.getD_cons_zero] at h
      simp only [List.set_cons_zero, List.filterMap_cons, h]
    | succ k =>
      simp only [List.getD_cons_succ] at h
      simp only [List.length_cons] at hi
      simp only [List.set_cons_succ, List.filterMap_cons, ih k h (by omega)]

theorem slot_set_eq {l : List (Option client_t)} {i : Nat} (a : Option client_t)
    (h : i < l.length) : (l.set i a).getD i none = a := by
  simp [List.getD_eq_getElem?_getD, List.getElem?_set_self, h]

theorem slot_set_ne {l : List (Option client_t)} {i j : Nat} (a : Option client_t)
    (h : i ≠ j) : (l.set i a).getD j none = l.getD j none := by
  simp [List.getD_eq_getElem?_getD, List.getElem?_set_ne h]

theorem client_getD_lt {l : List (Option client_t)} {i : Nat} {c : client_t}
    (h : l.getD i none = some c) : i < l.length := by
  by_contra hn
  rw [List.getD_eq_default _ _ (by omega)] at h
  simp at h

/-- The chat case of `handle_client_message` with the mutex free: the activity time of
the origin is set and the message is sent, in slot order, to the authenticated
clients of the table. -/
theorem handle_chat (g : Globals) (idx : Nat) (msg : message_t) (now : Int) (c : client_t)
    (hlen : g.g_clients.length = DEFAULT_MAX_CLIENTS)
    (hc : g.g_clients.getD idx none = some c) (ht : msg.type = MSG_TYPE_CHAT)
    (hm : g.g_clients_mutex = false) :
    handle_client_message g idx msg now =
      Outcome.returned
        { g with g_clients := g.g_clients.set idx (some { c with last_activity := now }) }
        (g.g_clients.filterMap (chat_event msg)) [] () := by
  have hne : (MSG_TYPE_CHAT = MSG_TYPE_PING) = False := by decide
  have hidx := client_getD_lt hc
  have hsame : chat_event msg (g.g_clients.getD idx none) =
      chat_event msg (some { c with last_activity := now }) := by
    rw [hc]
    rfl
  simp only [handle_client_message, hc, hne, ht, hm, if_true, if_false, chat_loop_eq,
    List.drop_zero]
  rw [List.take_of_length_le (by simp only [List.length_set]; omega),
    filterMap_set_same _ _ _ _ hsame hidx]
  simp

/-- The chat case of `handle_client_message` with the mutex held at the call: the thread
waits for ever in `pthread_mutex_lock`, having sent nothing. -/
theorem handle_chat_blocked (g : Globals) (idx : Nat) (msg : message_t) (now : Int)
    (c : client_t) (hc : g.g_clients.getD idx none = some c) (ht : msg.type = MSG_TYPE_CHAT)
    (hm : g.g_clients_mutex = true) :
    handle_client_message g idx msg now =
      Outcome.blocked
        { g with g_clients := g.g_clients.set idx (some { c with last_activity := now }) }
        [] [] := by
  have hne : (MSG_TYPE_CHAT = MSG_TYPE_PING) = False := by decide
  simp only [handle_client_message, hc, hne, ht, hm, if_true, if_false]

/-- The `send` calls of a chat broadcast are those to the authenticated clients of the
table. -/
theorem mem_chat_events (clients : List (Option client_t)) (msg : message_t)
    (ev : SendEvent) :
    ev ∈ clients.filterMap (chat_event msg) ↔
      ∃ j d, j < clients.length ∧ clients.getD j none = some d ∧
        d.state = CLIENT_STATE_AUTHENTICATED ∧
        ev = { fd := d.fd, msg := msg, nbytes := SIZEOF_MESSAGE_T + msg.length } := by
  rw [List.mem_filterMap]
  constructor
  · rintro ⟨s, hs, he⟩
    obtain ⟨j, hj, hjs⟩ := List.getElem_of_mem hs
    cases s with
    | none => simp [chat_event] at he
    | some d =>
      by_cases hd : d.state = CLIENT_STATE_AUTHENTICATED
      · simp only [chat_event, hd, if_true, Option.some.injEq] at he
        refine ⟨j, d, hj, ?_, hd, he.symm⟩
        simp [List.getD_eq_getElem?_getD, List.getElem?_eq_getElem hj, hjs]
      · simp [chat_event, hd] at he
  · rintro ⟨j, d, hj, hg, hd, he⟩
    refine ⟨some d, ?_, ?_⟩
    · have : clients[j] = some d := by
        simpa [List.getD_eq_getElem?_getD, List.getElem?_eq_getElem hj] using hg
      rw [← this]
      exact List.getElem_mem _
    · simp only [chat_event, hd, if_true, he]

/-- The position case of `handle_client_message` with at least 12 bytes of data: the
activity time and the three position fields of the origin are set, nothing is
sent. -/
theorem handle_position (g : Globals) (idx : Nat) (msg : message_t) (now : Int)
    (c : client_t) (d : List Nat) (hc : g.g_clients.getD idx none = some c)
    (ht : msg.type = MSG_TYPE_POSITION) (hd : msg.data = some d) (hl : 12 ≤ d.length) :
    handle_client_message g idx msg now =
      Outcome.returned
        { g with
          g_clients := g.g_clients.set idx
            (some { c with
              last_activity := now
              pos_x := d.take 4
              pos_y := (d.drop 4).take 4
              pos_z := (d.drop 8).take 4 }) } [] [] () := by
  have h1 : (MSG_TYPE_POSITION = MSG_TYPE_PING) = False := by decide
  have h2 : (MSG_TYPE_POSITION = MSG_TYPE_CHAT) = False := by decide
  simp only [handle_client_message, hc, ht, h1, h2, hd, hl, if_true, if_false]

theorem globals_of_length (slots : List (Option client_t))
    (h : slots.length ≤ DEFAULT_MAX_CLIENTS) :
    (globals_of slots).g_clients.length = DEFAULT_MAX_CLIENTS := by
  simp only [globals_of, List.length_append, List.length_replicate]
  omega

theorem globals_of_chat (slots : List (Option client_t)) (msg : message_t) :
    (globals_of slots).g_clients.filterMap (chat_event msg) =
      slots.filterMap (chat_event msg) := by
  have hz : ∀ n : Nat,
      (List.replicate n (none : Option client_t)).filterMap (chat_event msg) = [] := by
    intro n
    induction n with
    | zero => rfl
    | succ k ih => rw [List.replicate_succ, List.filterMap_cons]; exact ih
  simp only [globals_of, List.filterMap_append, hz, List.append_nil]

theorem full_globals_getD (m : Nat) (hm : m < DEFAULT_MAX_CLIENTS) :
    full_globals.g_clients.getD m none =
      some (client_of ((m : Int) + 4) CLIENT_STATE_CONNECTING) := by
  simp only [full_globals, List.getD_eq_getElem?_getD, List.getElem?_map]
  rw [List.getElem?_range hm]
  rfl

/-- Claim C12, as stated, fails. With two authenticated clients (sockets 5 and 6) and a
connecting one (socket 7) in the table, a chat message from the client of socket 5
is sent to sockets 5 and 6: it loops back to the sender. And when the client-table
mutex is held at the call, the call waits for ever in `pthread_mutex_lock` and
the message reaches nobody, the other authenticated client included. -/
theorem chat_loops_back_to_sender :
    three_clients.g_clients.getD 0 none = some (client_of 5 CLIENT_STATE_AUTHENTICATED) ∧
      (∃ g1, handle_client_message three_clients 0 chat_hi 9 =
        Outcome.returned g1
          [{ fd := 5, msg := chat_hi, nbytes := 18 }, { fd := 6, msg := chat_hi, nbytes := 18 }]
          [] ()) ∧
      ∃ g1, handle_client_message { three_clients with g_clients_mutex := true } 0 chat_hi 9 =
        Outcome.blocked g1 [] [] := by
  have h0 : three_clients.g_clients.getD 0 none =
      some (client_of 5 CLIENT_STATE_AUTHENTICATED) := rfl
  have hs : three_clients.g_clients.filterMap (chat_event chat_hi) =
      [{ fd := 5, msg := chat_hi, nbytes := 18 }, { fd := 6, msg := chat_hi, nbytes := 18 }] := by
    simp only [three_clients, globals_of_chat]
    rfl
  have ha := handle_chat three_clients 0 chat_hi 9 _ (globals_of_length _ (by decide)) h0 rfl rfl
  rw [hs] at ha
  have hb := handle_chat_blocked { three_clients with g_clients_mutex := true } 0 chat_hi 9
    (client_of 5 CLIENT_STATE_AUTHENTICATED) rfl rfl rfl
  exact ⟨h0, ⟨_, ha⟩, ⟨_, hb⟩⟩

/-- Claim C12, amended. For every client table and every chat message handled by
`handle_client_message` from an origin client `c`, with the client-table mutex free at
the call: the message is sent, once for each slot and in slot order, to exactly
the clients of the table in state `CLIENT_STATE_AUTHENTICATED`, the sender `c`
included when it is authenticated; it is never sent to a client in another state. -/
theorem chat_sent_to_authenticated (g : Globals) (idx : Nat) (msg : message_t) (now : Int)
    (c : client_t) (hlen : g.g_clients.length = DEFAULT_MAX_CLIENTS)
    (hc : g.g_clients.getD idx none = some c) (ht : msg.type = MSG_TYPE_CHAT)
    (hm : g.g_clients_mutex = false) :
    handle_client_message g idx msg now =
        Outcome.returned
          { g with g_clients := g.g_clients.set idx (some { c with last_activity := now }) }
          (g.g_clients.filterMap (chat_event msg)) [] () ∧
      (∀ ev, ev ∈ g.g_clients.filterMap (chat_event msg) ↔
        ∃ j d, j < DEFAULT_MAX_CLIENTS ∧ g.g_clients.getD j none = some d ∧
          d.state = CLIENT_STATE_AUTHENTICATED ∧
          ev = { fd := d.fd, msg := msg, nbytes := SIZEOF_MESSAGE_T + msg.length }) ∧
      (c.state = CLIENT_STATE_AUTHENTICATED →
        { fd := c.fd, msg := msg, nbytes := SIZEOF_MESSAGE_T + msg.length } ∈
          g.g_clients.filterMap (chat_event msg)) ∧
      (c.state ≠ CLIENT_STATE_AUTHENTICATED → chat_event msg (some c) = none) := by
  have hmem : ∀ ev, ev ∈ g.g_clients.filterMap (chat_event msg) ↔
      ∃ j d, j < DEFAULT_MAX_CLIENTS ∧ g.g_clients.getD j none = some d ∧
        d.state = CLIENT_STATE_AUTHENTICATED ∧
        ev = { fd := d.fd, msg := msg, nbytes := SIZEOF_MESSAGE_T + msg.length } := by
    intro ev
    rw [mem_chat_events, hlen]
  refine ⟨handle_chat g idx msg now c hlen hc ht hm, hmem, ?_, ?_⟩
  · intro hs
    exact (hmem _).2 ⟨idx, c, by rw [← hlen]; exact client_getD_lt hc, hc, hs, rfl⟩
  · intro hs
    simp only [chat_event, hs, if_false]

/-- Witness of C12 (amended): the chat message "hi" from the connecting client of
socket 7 reaches the two authenticated clients. -/
theorem chat_sent_to_authenticated_witness :
    ∃ g1, handle_client_message three_clients 2 chat_hi 9 =
      Outcome.returned g1
        [{ fd := 5, msg := chat_hi, nbytes := 18 }, { fd := 6, msg := chat_hi, nbytes := 18 }]
        [] () := by
  have h := (chat_sent_to_authenticated three_clients 2 chat_hi 9
    (client_of 7 CLIENT_STATE_CONNECTING) (globals_of_length _ (by decide)) rfl rfl rfl).1
  have hs : three_clients.g_clients.filterMap (chat_event chat_hi) =
      [{ fd := 5, msg := chat_hi, nbytes := 18 }, { fd := 6, msg := chat_hi, nbytes := 18 }] := by
    simp only [three_clients, globals_of_chat]
    rfl
  rw [hs] at h
  exact ⟨_, h⟩

/-- Claim C13, as stated, fails. The origin, on socket 5, is still connecting and the
table holds an authenticated client on socket 6. The chat message of the origin
is sent to socket 6, and its position message sets its position fields, which
were zero, to the bytes of the payload. -/
theorem unauthenticated_origin_is_served :
    two_clients.g_clients.getD 0 none = some (client_of 5 CLIENT_STATE_CONNECTING) ∧
      (client_of 5 CLIENT_STATE_CONNECTING).state ≠ CLIENT_STATE_AUTHENTICATED ∧
      (∃ g1, handle_client_message two_clients 0 chat_hi 9 =
        Outcome.returned g1 [{ fd := 6, msg := chat_hi, nbytes := 18 }] [] ()) ∧
      (client_of 5 CLIENT_STATE_CONNECTING).pos_x = [0, 0, 0, 0] ∧
      ∃ g2 c2, handle_client_message two_clients 0 position_msg 9 =
          Outcome.returned g2 [] [] () ∧
        g2.g_clients.getD 0 none = some c2 ∧
        c2.pos_x = [1, 2, 3, 4] ∧ c2.pos_y = [5, 6, 7, 8] ∧ c2.pos_z = [9, 10, 11, 12] := by
  have h0 : two_clients.g_clients.getD 0 none =
      some (client_of 5 CLIENT_STATE_CONNECTING) := rfl
  have hs : two_clients.g_clients.filterMap (chat_event chat_hi) =
      [{ fd := 6, msg := chat_hi, nbytes := 18 }] := by
    simp only [two_clients, globals_of_chat]
    rfl
  have ha := handle_chat two_clients 0 chat_hi 9 _ (globals_of_length _ (by decide)) h0 rfl rfl
  rw [hs] at ha
  have hp := handle_position two_clients 0 position_msg 9 _
    [1, 2, 3, 4, 5, 6, 7, 8, 9, 10, 11, 12] h0 rfl rfl (by decide)
  exact ⟨h0, by decide, ⟨_, ha⟩, rfl, _,
    { client_of 5 CLIENT_STATE_CONNECTING with
      last_activity := 9
      pos_x := [1, 2, 3, 4]
      pos_y := [5, 6, 7, 8]
      pos_z := [9, 10, 11, 12] },
    hp, slot_set_eq _ (client_getD_lt h0), rfl, rfl, rfl⟩

/-- Claim C13, amended. `handle_client_message` does not test the state of the origin.
For an origin that is not authenticated: a chat message (mutex free at the call)
is sent to every authenticated client of the table and to nobody else, the
origin's slot getting nothing, and it changes no position field of any client; a
position message with at least 12 bytes of data sends nothing, sets the three
position fields of the origin to those bytes and leaves every other slot of the
table unchanged. -/
theorem unauthenticated_origin_effects (g : Globals) (idx : Nat) (msg : message_t)
    (now : Int) (c : client_t) (hlen : g.g_clients.length = DEFAULT_MAX_CLIENTS)
    (hc : g.g_clients.getD idx none = some c)
    (hna : c.state ≠ CLIENT_STATE_AUTHENTICATED) :
    (msg.type = MSG_TYPE_CHAT → g.g_clients_mutex = false →
      handle_client_message g idx msg now =
          Outcome.returned
            { g with g_clients := g.g_clients.set idx (some { c with last_activity := now }) }
            (g.g_clients.filterMap (chat_event msg)) [] () ∧
        chat_event msg (some c) = none ∧
        (∀ ev, ev ∈ g.g_clients.filterMap (chat_event msg) →
          ∃ j d, j ≠ idx ∧ g.g_clients.getD j none = some d ∧
            d.state = CLIENT_STATE_AUTHENTICATED ∧ ev.fd = d.fd) ∧
        ∀ j d, (g.g_clients.set idx (some { c with last_activity := now })).getD j none =
            some d →
          ∃ d0, g.g_clients.getD j none = some d0 ∧ d.pos_x = d0.pos_x ∧
            d.pos_y = d0.pos_y ∧ d.pos_z = d0.pos_z) ∧
      (msg.type = MSG_TYPE_POSITION → ∀ d, msg.data = some d → 12 ≤ d.length →
        handle_client_message g idx msg now =
            Outcome.returned
              { g with
                g_clients := g.g_clients.set idx
                  (some { c with
                    last_activity := now
                    pos_x := d.take 4
                    pos_y := (d.drop 4).take 4
                    pos_z := (d.drop 8).take 4 }) } [] [] () ∧
          ∀ j, j ≠ idx →
            (g.g_clients.set idx
              (some { c with
                last_activity := now
                pos_x := d.take 4
                pos_y := (d.drop 4).take 4
                pos_z := (d.drop 8).take 4 })).getD j none = g.g_clients.getD j none) := by
  have hidx := client_getD_lt hc
  constructor
  · intro ht hm
    refine ⟨handle_chat g idx msg now c hlen hc ht hm, ?_, ?_, ?_⟩
    · simp only [chat_event, hna, if_false]
    · intro ev hev
      obtain ⟨j, d, _, hj, hd, he⟩ := (mem_chat_events _ _ _).1 hev
      refine ⟨j, d, ?_, hj, hd, by rw [he]⟩
      intro hji
      rw [hji, hc] at hj
      simp only [Option.some.injEq] at hj
      rw [← hj] at hd
      exact hna hd
    · intro j d hj
      by_cases hji : j = idx
      · rw [hji, slot_set_eq _ hidx] at hj
        simp only [Option.some.injEq] at hj
        rw [hji]
        exact ⟨c, hc, by rw [← hj], by rw [← hj], by rw [← hj]⟩
      · rw [slot_set_ne _ (Ne.symm hji)] at hj
        exact ⟨d, hj, rfl, rfl, rfl⟩
  · intro ht d hd hl
    exact ⟨handle_position g idx msg now c d hc ht hd hl,
      fun j hj => slot_set_ne _ (Ne.symm hj)⟩

/-- Witness of C13 (amended): the connecting client of socket 5 sends a position
message; the authenticated client in slot 1 is left as it was. -/
theorem unauthenticated_origin_effects_witness :
    ∃ g2, handle_client_message two_clients 0 position_msg 9 = Outcome.returned g2 [] [] () ∧
      g2.g_clients.getD 1 none = two_clients.g_clients.getD 1 none := by
  have h := (unauthenticated_origin_effects two_clients 0 position_msg 9
    (client_of 5 CLIENT_STATE_CONNECTING) (globals_of_length _ (by decide)) rfl
    (by decide)).2 rfl [1, 2, 3, 4, 5, 6, 7, 8, 9, 10, 11, 12] rfl (by decide)
  exact ⟨_, h.1, h.2 1 (by decide)⟩

/-- The chat case of `handle_client_message` does not compare the length of a message
with any ceiling: for every chat message from an authenticated client whose
length field exceeds the chat maximum 4096 (mutex free at the call), the broadcast
is performed, and every authenticated client of the table, the others as well as
the sender, is sent `sizeof(message_t) + length` bytes. -/
theorem oversized_chat_is_broadcast (g : Globals) (idx : Nat) (msg : message_t) (now : Int)
    (c : client_t) (hlen : g.g_clients.length = DEFAULT_MAX_CLIENTS)
    (hc : g.g_clients.getD idx none = some c) (hauth : c.state = CLIENT_STATE_AUTHENTICATED)
    (ht : msg.type = MSG_TYPE_CHAT) (hm : g.g_clients_mutex = false)
    (hbig : (msg.length : Int) > 4096) :
    handle_client_message g idx msg now =
        Outcome.returned
          { g with g_clients := g.g_clients.set idx (some { c with last_activity := now }) }
          (g.g_clients.filterMap (chat_event msg)) [] () ∧
      (∀ j d, j < DEFAULT_MAX_CLIENTS → g.g_clients.getD j none = some d →
        d.state = CLIENT_STATE_AUTHENTICATED →
        { fd := d.fd, msg := msg, nbytes := SIZEOF_MESSAGE_T + msg.length } ∈
          g.g_clients.filterMap (chat_event msg)) ∧
      (SIZEOF_MESSAGE_T + msg.length : Int) > 4096 ∧
      { fd := c.fd, msg := msg, nbytes := SIZEOF_MESSAGE_T + msg.length } ∈
        g.g_clients.filterMap (chat_event msg) := by
  have hall : ∀ j d, j < DEFAULT_MAX_CLIENTS → g.g_clients.getD j none = some d →
      d.state = CLIENT_STATE_AUTHENTICATED →
      { fd := d.fd, msg := msg, nbytes := SIZEOF_MESSAGE_T + msg.length } ∈
        g.g_clients.filterMap (chat_event msg) := by
    intro j d hj hd hs
    exact (mem_chat_events _ _ _).2 ⟨j, d, by rw [hlen]; exact hj, hd, hs, rfl⟩
  refine ⟨handle_chat g idx msg now c hlen hc ht hm, hall, ?_,
    hall idx c (by rw [← hlen]; exact client_getD_lt hc) hc hauth⟩
  simp only [SIZEOF_MESSAGE_T]
  omega

/-- Example: the 5000-byte chat message of the client of socket 5 is sent to the
authenticated client of socket 6. -/
theorem oversized_chat_is_broadcast_witness :
    ({ fd := 6, msg := chat_5000, nbytes := SIZEOF_MESSAGE_T + chat_5000.length } : SendEvent) ∈
      three_clients.g_clients.filterMap (chat_event chat_5000) :=
  (oversized_chat_is_broadcast three_clients 0 chat_5000 9
    (client_of 5 CLIENT_STATE_AUTHENTICATED) (globals_of_length _ (by decide)) rfl rfl rfl rfl
    (by decide)).2.1 1 (client_of 6 CLIENT_STATE_AUTHENTICATED) (by decide) rfl rfl

set_option maxRecDepth 16384 in
/-- Claim C14, which the code breaks. The chat ceiling of `get_max_message_length` is 4096,
but `server.c` compares the length of a frame with nothing. (a) Two authenticated
clients, on sockets 5 and 6; `handle_client_message` is given a chat message of the
client of socket 5 whose length field is 5000: the broadcast is performed, `send`
being called for socket 6 (and for the sender) with `sizeof(message_t) + 5000`
bytes. (b) The same through `server_process_client`, when `recv` has filled the whole
array of 1024 bytes with a chat frame that declares 5000 bytes: the 5016 bytes
are forwarded to sockets 5 and 6, no error notification is sent and nothing is
closed. (c) So it is for every chat message above the ceiling that an
authenticated client sends while the mutex is free: every authenticated client
of the table is sent `sizeof(message_t) + length` bytes and nothing is closed. -/
theorem oversized_chat_is_forwarded :
    (∀ v : Int, get_max_message_length v v = 4096) ∧
      (∀ (g : Globals) (idx : Nat) (msg : message_t) (now : Int) (c : client_t),
        g.g_clients.length = DEFAULT_MAX_CLIENTS → g.g_clients.getD idx none = some c →
        c.state = CLIENT_STATE_AUTHENTICATED → msg.type = MSG_TYPE_CHAT →
        g.g_clients_mutex = false → (msg.length : Int) > 4096 →
        handle_client_message g idx msg now =
            Outcome.returned
              { g with g_clients := g.g_clients.set idx (some { c with last_activity := now }) }
              (g.g_clients.filterMap (chat_event msg)) [] () ∧
          ∀ j d, j < DEFAULT_MAX_CLIENTS → g.g_clients.getD j none = some d →
            d.state = CLIENT_STATE_AUTHENTICATED →
            { fd := d.fd, msg := msg, nbytes := SIZEOF_MESSAGE_T + msg.length } ∈
              g.g_clients.filterMap (chat_event msg)) ∧
      (three_clients.g_clients.getD 0 none = some (client_of 5 CLIENT_STATE_AUTHENTICATED) ∧
        (chat_5000.length : Int) > 4096 ∧
        ∃ g1, handle_client_message three_clients 0 chat_5000 9 =
          Outcome.returned g1
            [{ fd := 5, msg := chat_5000, nbytes := 5016 },
              { fd := 6, msg := chat_5000, nbytes := 5016 }] [] ()) ∧
      (header MSG_TYPE_CHAT 5000 0 ++ List.replicate 1008 97).length = 1024 ∧
      ∃ g1 m, server_process_client three_clients 0 (List.replicate 1024 0)
          (some (header MSG_TYPE_CHAT 5000 0 ++ List.replicate 1008 97)) (fun _ => none) 9 9 =
        Outcome.returned g1
          [{ fd := 5, msg := m, nbytes := 5016 }, { fd := 6, msg := m, nbytes := 5016 }] [] () ∧
        m.type = MSG_TYPE_CHAT ∧ (m.length : Int) > 4096 := by
  have h0 : three_clients.g_clients.getD 0 none =
      some (client_of 5 CLIENT_STATE_AUTHENTICATED) := rfl
  have hs : three_clients.g_clients.filterMap (chat_event chat_5000) =
      [{ fd := 5, msg := chat_5000, nbytes := 5016 },
        { fd := 6, msg := chat_5000, nbytes := 5016 }] := by
    simp only [three_clients, globals_of_chat]
    rfl
  have ha := handle_chat three_clients 0 chat_5000 9 _ (globals_of_length _ (by decide)) h0
    rfl rfl
  rw [hs] at ha
  refine ⟨?_, ?_, ⟨h0, by decide, _, ha⟩,
    by rw [List.length_append, List.length_replicate]; rfl, _, _, rfl, rfl, by decide⟩
  swap
  · intro g idx msg now c hlen hc hauth ht hm hbig
    have h := oversized_chat_is_broadcast g idx msg now c hlen hc hauth ht hm hbig
    exact ⟨h.1, h.2.1⟩
  intro v
  simp [get_max_message_length]

/-- Claim C20, which the code breaks. With all 64 slots of the `server.c` table
occupied, `server_accept_client` on a connection accepted with descriptor 70 returns
`NULL` and changes nothing, as the claim says, but it closes no descriptor: the
accepted socket is neither stored nor closed. The sibling `accept_connections` of
`main.c`, with its registry at capacity, does close the accepted socket and leaves
the registry and the telemetry unchanged. -/
theorem server_accept_client_leaks_socket :
    (∀ m, m < DEFAULT_MAX_CLIENTS → full_globals.g_clients.getD m none ≠ none) ∧
      server_accept_client full_globals 70 [49, 48, 46, 48, 46, 48, 46, 55] 5000 0 true =
        Outcome.returned full_globals [] [] none ∧
      (70 : Int) ∉ ([] : List Int) ∧
      full_registry.count = (MAX_CLIENTS : Int) ∧
      accept_connections (server_state_of full_registry (some (collector_of 256)))
          70 [49, 48, 46, 48, 46, 48, 46, 55] 5000 0 true =
        some (server_state_of full_registry (some (collector_of 256)), [70]) := by
  have hfull : ∀ m, m < DEFAULT_MAX_CLIENTS → full_globals.g_clients.getD m none ≠ none := by
    intro m hm
    rw [full_globals_getD m hm]
    simp
  exact ⟨hfull, server_accept_client_full full_globals 70 _ 5000 0 true (by decide) rfl hfull,
    by simp, rfl,
    accept_connections_full _ full_registry 70 _ 5000 0 true (by decide) rfl rfl⟩

/-! ## Ping, position and unknown kinds in `server.c` -/

theorem handle_ping (g : Globals) (idx : Nat) (msg : message_t) (now : Int) (c : client_t)
    (hc : g.g_clients.getD idx none = some c) (ht : msg.type = MSG_TYPE_PING) :
    handle_client_message g idx msg now =
      Outcome.returned
        { g with g_clients := g.g_clients.set idx (some { c with last_activity := now }) }
        [{ fd := c.fd
           msg := { type := MSG_TYPE_PONG, length := 0, data := none }
           nbytes := SIZEOF_MESSAGE_T }] [] () := by
  simp only [handle_client_message, hc, ht, if_true]

theorem handle_other (g : Globals) (idx : Nat) (msg : message_t) (now : Int) (c : client_t)
    (hc : g.g_clients.getD idx none = some c) (h1 : msg.type ≠ MSG_TYPE_PING)
    (h2 : msg.type ≠ MSG_TYPE_CHAT) (h3 : msg.type ≠ MSG_TYPE_POSITION) :
    handle_client_message g idx msg now =
      Outcome.returned
        { g with g_clients := g.g_clients.set idx (some { c with last_activity := now }) }
        [] [] () := by
  simp only [handle_client_message, hc, h1, h2, h3, if_false]

theorem handle_position_undefined (g : Globals) (idx : Nat) (msg : message_t) (now : Int)
    (ht : msg.type = MSG_TYPE_POSITION)
    (hd : msg.data = none ∨ ∃ d, msg.data = some d ∧ d.length < 12) :
    handle_client_message g idx msg now = Outcome.undefined := by
  have hn1 : (MSG_TYPE_POSITION = MSG_TYPE_PING) = False := by decide
  have hn2 : (MSG_TYPE_POSITION = MSG_TYPE_CHAT) = False := by decide
  cases hg : g.g_clients.getD idx none with
  | none => simp only [handle_client_message, hg]
  | some c =>
    rcases hd with hd | ⟨d, hd, hl⟩
    · simp only [handle_client_message, hg, ht, hn1, hn2, hd, if_false, if_true]
    · have hl2 : ¬ 12 ≤ d.length := by omega
      simp only [handle_client_message, hg, ht, hn1, hn2, hd, hl2, if_false, if_true]

/-- What `handle_client_message` leaves in the client table, whenever its behaviour is
defined: only the slot of the origin is written, and but for the time of activity
it is changed by a position message alone. -/
theorem handle_globals (g : Globals) (idx : Nat) (msg : message_t) (now : Int) (c : client_t)
    (g2 : Globals) (hc : g.g_clients.getD idx none = some c)
    (h : (handle_client_message g idx msg now).globals = some g2) :
    ∃ c2, g2 = { g with g_clients := g.g_clients.set idx (some c2) } ∧
      (msg.type ≠ MSG_TYPE_POSITION → c2 = { c with last_activity := now }) ∧
      (msg.type = MSG_TYPE_POSITION → ∃ d, msg.data = some d ∧ 12 ≤ d.length ∧
        c2 = { c with
          last_activity := now
          pos_x := d.take 4
          pos_y := (d.drop 4).take 4
          pos_z := (d.drop 8).take 4 }) := by
  by_cases h1 : msg.type = MSG_TYPE_PING
  · rw [handle_ping g idx msg now c hc h1] at h
    simp only [Outcome.globals, Option.some.injEq] at h
    refine ⟨_, h.symm, fun _ => rfl, fun hp => ?_⟩
    rw [hp] at h1
    exact absurd h1 (by decide)
  by_cases h2 : msg.type = MSG_TYPE_CHAT
  · have hg : (handle_client_message g idx msg now).globals =
        some { g with
          g_clients := g.g_clients.set idx (some { c with last_activity := now }) } := by
      rcases Bool.eq_false_or_eq_true g.g_clients_mutex with hm | hm
      · rw [handle_chat_blocked g idx msg now c hc h2 hm]
        rfl
      · have hne : (MSG_TYPE_CHAT = MSG_TYPE_PING) = False := by decide
        simp only [handle_client_message, hc, h2, hm, hne, if_false, if_true]
        rfl
    rw [hg] at h
    simp only [Option.some.injEq] at h
    refine ⟨_, h.symm, fun _ => rfl, fun hp => ?_⟩
    rw [hp] at h2
    exact absurd h2 (by decide)
  by_cases h3 : msg.type = MSG_TYPE_POSITION
  · cases hd : msg.data with
    | none =>
      rw [handle_position_undefined g idx msg now h3 (Or.inl hd)] at h
      simp [Outcome.globals] at h
    | some d =>
      by_cases hl : 12 ≤ d.length
      · rw [handle_position g idx msg now c d hc h3 hd hl] at h
        simp only [Outcome.globals, Option.some.injEq] at h
        exact ⟨_, h.symm, fun hn => absurd h3 hn, fun _ => ⟨d, rfl, hl, rfl⟩⟩
      · rw [handle_position_undefined g idx msg now h3 (Or.inr ⟨d, hd, by omega⟩)] at h
        simp [Outcome.globals] at h
  · rw [handle_other g idx msg now c hc h1 h2 h3] at h
    simp only [Outcome.globals, Option.some.injEq] at h
    exact ⟨_, h.symm, fun _ => rfl, fun hp => absurd hp h3⟩

/-- Claim C21. For every client `c` of the table and every ping message received from
`c`, `handle_client_message` returns after exactly one `send`: the message sent is of
the pong kind, with length 0 and no data, `sizeof(message_t)` bytes, and it goes to
the socket of `c`; nothing else is sent and nothing is closed. -/
theorem ping_answered_with_pong (g : Globals) (idx : Nat) (msg : message_t) (now : Int)
    (c : client_t) (hc : g.g_clients.getD idx none = some c)
    (ht : msg.type = MSG_TYPE_PING) :
    ∃ g1 ev, handle_client_message g idx msg now = Outcome.returned g1 [ev] [] () ∧
      ev.fd = c.fd ∧ ev.msg.type = MSG_TYPE_PONG ∧ ev.msg.length = 0 ∧ ev.msg.data = none ∧
      ev.nbytes = SIZEOF_MESSAGE_T ∧
      (handle_client_message g idx msg now).sends = some [ev] :=
  ⟨_, _, handle_ping g idx msg now c hc ht, rfl, rfl, rfl, rfl, rfl, by
    rw [handle_ping g idx msg now c hc ht]
    rfl⟩

/-- Witness of C21: a ping from the authenticated client of socket 5, with two other
clients connected, is answered on socket 5 only. -/
theorem ping_answered_with_pong_witness :
    ∃ g1 ev, handle_client_message three_clients 0 ping_msg 9 = Outcome.returned g1 [ev] [] () ∧
      ev.fd = 5 ∧ ev.msg.type = MSG_TYPE_PONG := by
  obtain ⟨g1, ev, h, hfd, hty, _⟩ := ping_answered_with_pong three_clients 0 ping_msg 9
    (client_of 5 CLIENT_STATE_AUTHENTICATED) rfl rfl
  exact ⟨g1, ev, h, hfd, hty⟩

/-- A registry call leaves every client that it finds in the table as it is: a client
that is live after the call was live before, in the same slot and with the same
content, or it is the record that a register has just filled in. -/
theorem reg_step_live (reg : ClientRegistry) (op : RegOp) (i : Nat) (k : Client)
    (hw : reg_wf reg) (h : live_at (reg_step reg op).1 i k) :
    live_at reg i k ∨
      (reg.clients.getD i none = none ∧
        ∃ address port login is_admin now,
          op = RegOp.register address port login is_admin now true ∧
          k = new_client reg.next_id address port login is_admin now) := by
  cases op with
  | register address port login is_admin now malloc_ok =>
    simp only [reg_step] at h
    rcases register_cases reg address port login is_admin now malloc_ok hw with
      ⟨_, hr⟩ | ⟨_, hm, j, hj, hnone, _, hr⟩
    · rw [hr] at h
      exact Or.inl h
    · rw [hr] at h
      rcases (live_at_set_iff _ _ _ (by rw [hw.1]; exact hj) i k).1 h with
        ⟨hij, hk, _⟩ | ⟨_, hl⟩
      · right
        simp only [Option.some.injEq] at hk
        rw [hij]
        exact ⟨hnone, address, port, login, is_admin, now, by rw [hm], hk.symm⟩
      · exact Or.inl hl
  | remove client_id =>
    simp only [reg_step] at h
    rcases remove_cases reg client_id with ⟨j, c, hj, _, _, _, hr⟩ | ⟨_, hr⟩
    · rw [hr] at h
      rcases (live_at_set_iff _ _ _ (by rw [hw.1]; exact hj) i k).1 h with
        ⟨_, hk, _⟩ | ⟨_, hl⟩
      · exact absurd hk (by simp)
      · exact Or.inl hl
    · rw [hr] at h
      exact Or.inl h

/-- Claim C22. For every message handled by `handle_client_message` with origin `c`
(slot `idx`), whenever the call has a defined behaviour: every slot other than that
of `c` is left as it was, and the position of `c` is unchanged unless the message
kind is position; a message of another kind always has a defined behaviour. A
position message with 12 readable bytes of data returns, makes no `send`, and sets
the three position fields of `c` to the three 4-byte scalars of the data; a position
message never makes a `send`. In the registry, `client_update_position` sets the three
position fields and nothing else, `client_mark_active` leaves them unchanged, and a
register or a remove leaves every client it finds in the table unchanged, a new
client starting at position 0. -/
theorem position_changed_only_by_position_message (g : Globals) (idx : Nat) (msg : message_t)
    (now : Int) (c : client_t) (hc : g.g_clients.getD idx none = some c) :
    (∀ g2, (handle_client_message g idx msg now).globals = some g2 →
      (∀ j, j ≠ idx → g2.g_clients.getD j none = g.g_clients.getD j none) ∧
        ∃ c2, g2.g_clients.getD idx none = some c2 ∧
          (msg.type ≠ MSG_TYPE_POSITION →
            c2.pos_x = c.pos_x ∧ c2.pos_y = c.pos_y ∧ c2.pos_z = c.pos_z)) ∧
      (msg.type ≠ MSG_TYPE_POSITION →
        (handle_client_message g idx msg now).globals ≠ none) ∧
      (msg.type = MSG_TYPE_POSITION →
        (∀ s, (handle_client_message g idx msg now).sends = some s → s = []) ∧
          ∀ d, msg.data = some d → 12 ≤ d.length →
            ∃ g2 c2, handle_client_message g idx msg now = Outcome.returned g2 [] [] () ∧
              g2.g_clients.getD idx none = some c2 ∧ c2.pos_x = d.take 4 ∧
              c2.pos_y = (d.drop 4).take 4 ∧ c2.pos_z = (d.drop 8).take 4) ∧
      (∀ (k : Client) (x y z : Nat) (t : Int),
        client_update_position (some k) x y z =
            some { k with PositionX := x, PositionY := y, PositionZ := z } ∧
          ∃ k2, client_mark_active (some k) t = some k2 ∧ k2.PositionX = k.PositionX ∧
            k2.PositionY = k.PositionY ∧ k2.PositionZ = k.PositionZ) ∧
      ∀ (reg : ClientRegistry) (op : RegOp) (i : Nat) (k : Client), reg_wf reg →
        live_at (reg_step reg op).1 i k →
        live_at reg i k ∨
          (reg.clients.getD i none = none ∧ k.PositionX = 0 ∧ k.PositionY = 0 ∧
            k.PositionZ = 0) := by
  have hidx := client_getD_lt hc
  refine ⟨?_, ?_, ?_, ?_, ?_⟩
  · intro g2 h
    obtain ⟨c2, hg2, hnp, _⟩ := handle_globals g idx msg now c g2 hc h
    rw [hg2]
    refine ⟨fun j hj => slot_set_ne _ (Ne.symm hj), c2, slot_set_eq _ hidx, fun hn => ?_⟩
    rw [hnp hn]
    exact ⟨rfl, rfl, rfl⟩
  · intro hn
    by_cases h1 : msg.type = MSG_TYPE_PING
    · rw [handle_ping g idx msg now c hc h1]
      simp [Outcome.globals]
    by_cases h2 : msg.type = MSG_TYPE_CHAT
    · rcases Bool.eq_false_or_eq_true g.g_clients_mutex with hm | hm
      · rw [handle_chat_blocked g idx msg now c hc h2 hm]
        simp [Outcome.globals]
      · have hne : (MSG_TYPE_CHAT = MSG_TYPE_PING) = False := by decide
        simp only [handle_client_message, hc, h2, hm, hne, if_false, if_true]
        simp [Outcome.globals]
    · rw [handle_other g idx msg now c hc h1 h2 hn]
      simp [Outcome.globals]
  · intro ht
    refine ⟨fun s hs => ?_, fun d hd hl => ?_⟩
    · cases hd : msg.data with
      | none =>
        rw [handle_position_undefined g idx msg now ht (Or.inl hd)] at hs
        simp [Outcome.sends] at hs
      | some d =>
        by_cases hl : 12 ≤ d.length
        · rw [handle_position g idx msg now c d hc ht hd hl] at hs
          simp only [Outcome.sends, Option.some.injEq] at hs
          exact hs.symm
        · rw [handle_position_undefined g idx msg now ht (Or.inr ⟨d, hd, by omega⟩)] at hs
          simp [Outcome.sends] at hs
    · exact ⟨_, _, handle_position g idx msg now c d hc ht hd hl, slot_set_eq _ hidx,
        rfl, rfl, rfl⟩
  · intro k x y z t
    exact ⟨rfl, _, rfl, rfl, rfl, rfl⟩
  · intro reg op i k hw h
    rcases reg_step_live reg op i k hw h with hl | ⟨hn, _, _, _, _, _, _, hk⟩
    · exact Or.inl hl
    · right
      rw [hk]
      exact ⟨hn, rfl, rfl, rfl⟩

/-- Witness of C22: a chat message from the client of socket 5 leaves the client of
socket 6, in slot 1, as it was. -/
theorem position_changed_only_by_position_message_witness :
    ∃ g2, (handle_client_message three_clients 0 chat_hi 9).globals = some g2 ∧
      g2.g_clients.getD 1 none = some (client_of 6 CLIENT_STATE_AUTHENTICATED) := by
  have hr := handle_chat three_clients 0 chat_hi 9 (client_of 5 CLIENT_STATE_AUTHENTICATED)
    (globals_of_length _ (by decide)) rfl rfl rfl
  have hg : (handle_client_message three_clients 0 chat_hi 9).globals =
      some { three_clients with
        g_clients := three_clients.g_clients.set 0
          (some { client_of 5 CLIENT_STATE_AUTHENTICATED with last_activity := 9 }) } := by
    rw [hr]
    rfl
  have h1 := ((position_changed_only_by_position_message three_clients 0 chat_hi 9
    (client_of 5 CLIENT_STATE_AUTHENTICATED) rfl).1 _ hg).1 1 (by decide)
  exact ⟨_, hg, by rw [h1]; rfl⟩

/-- Claim C24. For every kind value that is not one of the identifiers of
`enum MessageType` (nor the value of `MSGID_CHAT`), `get_concrete_message` returns `NULL`,
whether or not memory is available, and `message_type_name` returns "Unknown". And
`handle_client_message`, given a message whose type is none of the seven `MSG_TYPE_`
values, returns without a `send` or a `close`, and the only change to the client
table is the time of last activity of the origin. -/
theorem unknown_kind_is_rejected (MSGID_CHAT kind : Int) (malloc_ok : Bool) (g : Globals)
    (idx : Nat) (msg : message_t) (now : Int) (c : client_t)
    (hk : kind ∉ message_types) (hkc : kind ≠ MSGID_CHAT)
    (hc : g.g_clients.getD idx none = some c) (ht : msg.type ∉ msg_types) :
    get_concrete_message MSGID_CHAT kind malloc_ok = none ∧
      message_type_name MSGID_CHAT kind = "Unknown" ∧
      handle_client_message g idx msg now =
        Outcome.returned
          { g with g_clients := g.g_clients.set idx (some { c with last_activity := now }) }
          [] [] () ∧
      ∀ j, j ≠ idx →
        (g.g_clients.set idx (some { c with last_activity := now })).getD j none =
          g.g_clients.getD j none := by
  simp only [message_types, List.mem_cons, List.mem_singleton, List.not_mem_nil, or_false,
    not_or] at hk
  simp only [msg_types, List.mem_cons, List.mem_singleton, List.not_mem_nil, or_false,
    not_or] at ht
  obtain ⟨k1, k2, k3, k4, k5, k6, k7, k8, k9, k10, k11, k12, k13, k14, k15, k16, k17, k18,
    k19, k20, k21, k22, k23, k24, k25, k26, k27⟩ := hk
  obtain ⟨t1, t2, _, t4, _, _, _⟩ := ht
  refine ⟨?_, ?_, handle_other g idx msg now c hc t4 t2 t1,
    fun j hj => slot_set_ne _ (Ne.symm hj)⟩
  · simp only [get_concrete_message, k27, hkc, k1, k3, k4, k5, k11, k6, k7, k8, k9, k10, k21,
      k22, k23, k24, k25, k26, if_false]
  · simp only [message_type_name, k27, hkc, k1, k3, k4, k5, k11, k6, k7, k8, k9, k10, k12,
      k13, k14, k15, k16, k17, k18, k19, k20, k21, k22, k24, k25, k26, if_false]

/-- Witness of C24: the kind 9999, with 1007 taken for `MSGID_CHAT`, and a message of
type 99 from the client of socket 5. -/
theorem unknown_kind_is_rejected_witness :
    get_concrete_message 1007 9999 true = none ∧ message_type_name 1007 9999 = "Unknown" ∧
      ∃ g1, handle_client_message three_clients 0 { type := 99, length := 0, data := none } 9 =
        Outcome.returned g1 [] [] () := by
  have h := unknown_kind_is_rejected 1007 9999 true three_clients 0
    { type := 99, length := 0, data := none } 9 (client_of 5 CLIENT_STATE_AUTHENTICATED)
    (by decide) (by decide) rfl (by decide)
  exact ⟨h.1, h.2.1, _, h.2.2.1⟩

/-! ## The payload shapes of `get_concrete_message` -/

theorem get_concrete_message_default (v kind : Int) (malloc_ok : Bool) (hv : kind ≠ v)
    (hk : kind < 1 ∨ kind = 2 ∨ (5 < kind ∧ kind < 201) ∨ (206 < kind ∧ kind < 1001) ∨
      (1006 < kind ∧ kind < 1102) ∨ 1102 < kind) :
    get_concrete_message v kind malloc_ok = none := by
  have key : kind ≠ MSGID_INPUT ∧ kind ≠ MSGID_LOGIN ∧ kind ≠ MSGID_HASH ∧
      kind ≠ MSGID_RESTART ∧ kind ≠ MSGID_NEXTTICK ∧ kind ≠ MSGID_REQUESTHASH ∧
      kind ≠ MSGID_SUCCESSFULCONNECT ∧ kind ≠ MSGID_MAPUPLOAD ∧ kind ≠ MSGID_NEWTICK ∧
      kind ≠ MSGID_NEWCLIENT ∧ kind ≠ MSGID_CURRENTCONNECTIONS ∧ kind ≠ MSGID_ORDINARY ∧
      kind ≠ MSGID_JUSTMESSAGE ∧ kind ≠ MSGID_GUI ∧ kind ≠ MSGID_MOUSECLICK ∧
      kind ≠ MSGID_OOCMESSAGE ∧ kind ≠ MSGID_PING := by
    simp only [MSGID_INPUT, MSGID_LOGIN, MSGID_HASH, MSGID_RESTART, MSGID_NEXTTICK,
      MSGID_REQUESTHASH, MSGID_SUCCESSFULCONNECT, MSGID_MAPUPLOAD, MSGID_NEWTICK,
      MSGID_NEWCLIENT, MSGID_CURRENTCONNECTIONS, MSGID_ORDINARY, MSGID_JUSTMESSAGE,
      MSGID_GUI, MSGID_MOUSECLICK, MSGID_OOCMESSAGE, MSGID_PING]
    omega
  obtain ⟨h1, h2, h3, h4, h5, h6, h7, h8, h9, h10, h11, h12, h13, h14, h15, h16, h17⟩ := key
  simp only [get_concrete_message, hv, h1, h2, h3, h4, h5, h6, h7, h8, h9, h10, h11, h12, h13,
    h14, h15, h16, h17, if_false]

theorem get_concrete_message_no_memory (v kind : Int) :
    get_concrete_message v kind false = none := by
  simp only [get_concrete_message, malloc_payload, Bool.false_eq_true, if_false, ite_self]

/-- Claim C25, as stated, fails. For the error notifications 401 to 409, whatever value
`MSGID_CHAT` has outside that range, `get_concrete_message` returns `NULL` with memory
available: they are not among its cases. And for every kind it returns `NULL` when
its `malloc` fails. -/
theorem error_kinds_get_no_payload :
    (MSGID_WRONGGAMEVERSION = 401 ∧ MSGID_WRONGAUTH = 402 ∧ MSGID_UNDEFINEDERROR = 403 ∧
      MSGID_SERVEREXIT = 404 ∧ MSGID_NOMASTER = 405 ∧ MSGID_OUTOFSYNC = 406 ∧
      MSGID_TOOSLOW = 407 ∧ MSGID_INTERNALSERVERERROR = 408 ∧ MSGID_SERVERRESTARTING = 409) ∧
      (∀ v kind : Int, (401 ≤ v ∧ v ≤ 409) ∨ kind < 401 ∨ 409 < kind ∨
        get_concrete_message v kind true = none) ∧
      ∀ v kind : Int, get_concrete_message v kind false = none := by
  refine ⟨⟨rfl, rfl, rfl, rfl, rfl, rfl, rfl, rfl, rfl⟩, ?_, ?_⟩
  · intro v kind
    by_cases hv : 401 ≤ v ∧ v ≤ 409
    · exact Or.inl hv
    by_cases h1 : kind < 401
    · exact Or.inr (Or.inl h1)
    by_cases h2 : 409 < kind
    · exact Or.inr (Or.inr (Or.inl h2))
    right; right; right
    exact get_concrete_message_default v kind true (by omega) (by omega)
  · exact get_concrete_message_no_memory

/-- Claim C25, amended. With `MSGID_CHAT` distinct from the enumerators of
`enum MessageType` (the case labels of a `switch` are distinct): every identifier listed
in the wire protocol has its numeric value in the enumeration; when its `malloc`
succeeds, `get_concrete_message` returns a payload of the shape of the kind for
login, hash, restart, next-tick, 201 to 206, 1001 to 1006 and ping, gui-input (1003)
getting the same shape as input (1006); for the error notifications 401 to 409 it
returns `NULL`; and when its `malloc` fails it returns `NULL` for every kind. -/
theorem get_concrete_message_shapes (MSGID_CHAT : Int) (hc : MSGID_CHAT ∉ message_types) :
    (MSGID_LOGIN = 1 ∧ MSGID_HASH = 3 ∧ MSGID_RESTART = 4 ∧ MSGID_NEXTTICK = 5 ∧
      MSGID_SUCCESSFULCONNECT = 201 ∧ MSGID_MAPUPLOAD = 202 ∧ MSGID_NEWTICK = 203 ∧
      MSGID_NEWCLIENT = 204 ∧ MSGID_CURRENTCONNECTIONS = 205 ∧ MSGID_REQUESTHASH = 206 ∧
      MSGID_WRONGGAMEVERSION = 401 ∧ MSGID_WRONGAUTH = 402 ∧ MSGID_UNDEFINEDERROR = 403 ∧
      MSGID_SERVEREXIT = 404 ∧ MSGID_NOMASTER = 405 ∧ MSGID_OUTOFSYNC = 406 ∧
      MSGID_TOOSLOW = 407 ∧ MSGID_INTERNALSERVERERROR = 408 ∧ MSGID_SERVERRESTARTING = 409 ∧
      MSGID_ORDINARY = 1001 ∧ MSGID_JUSTMESSAGE = 1002 ∧ MSGID_GUI = 1003 ∧
      MSGID_MOUSECLICK = 1004 ∧ MSGID_OOCMESSAGE = 1005 ∧ MSGID_INPUT = 1006 ∧
      MSGID_PING = 1102) ∧
      (get_concrete_message MSGID_CHAT MSGID_LOGIN true = some Payload.MessageLogin ∧
        get_concrete_message MSGID_CHAT MSGID_HASH true = some Payload.MessageHash ∧
        get_concrete_message MSGID_CHAT MSGID_RESTART true = some Payload.MessageRestart ∧
        get_concrete_message MSGID_CHAT MSGID_NEXTTICK true = some Payload.MessageNextTick ∧
        get_concrete_message MSGID_CHAT MSGID_SUCCESSFULCONNECT true =
          some Payload.MessageSuccessfulConnect ∧
        get_concrete_message MSGID_CHAT MSGID_MAPUPLOAD true = some Payload.MessageMapUpload ∧
        get_concrete_message MSGID_CHAT MSGID_NEWTICK true = some Payload.MessageNewTick ∧
        get_concrete_message MSGID_CHAT MSGID_NEWCLIENT true = some Payload.MessageNewClient ∧
        get_concrete_message MSGID_CHAT MSGID_CURRENTCONNECTIONS true =
          some Payload.MessageCurrentConnections ∧
        get_concrete_message MSGID_CHAT MSGID_REQUESTHASH true =
          some Payload.MessageRequestHash ∧
        get_concrete_message MSGID_CHAT MSGID_ORDINARY true = some Payload.MessageOrdinary ∧
        get_concrete_message MSGID_CHAT MSGID_JUSTMESSAGE true =
          some Payload.MessageJustMessage ∧
        get_concrete_message MSGID_CHAT MSGID_GUI true = some Payload.MessageInput ∧
        get_concrete_message MSGID_CHAT MSGID_MOUSECLICK true =
          some Payload.MessageMouseClick ∧
        get_concrete_message MSGID_CHAT MSGID_OOCMESSAGE true = some Payload.MessageOOC ∧
        get_concrete_message MSGID_CHAT MSGID_INPUT true = some Payload.MessageInput ∧
        get_concrete_message MSGID_CHAT MSGID_PING true = some Payload.MessagePing) ∧
      get_concrete_message MSGID_CHAT MSGID_GUI true =
        get_concrete_message MSGID_CHAT MSGID_INPUT true ∧
      (∀ kind : Int, 401 ≤ kind → kind ≤ 409 →
        get_concrete_message MSGID_CHAT kind true = none) ∧
      ∀ kind : Int, get_concrete_message MSGID_CHAT kind false = none := by
  simp only [message_types, List.mem_cons, List.mem_singleton, List.not_mem_nil, or_false,
    not_or, MSGID_INPUT, MSGID_LOGIN, MSGID_HASH, MSGID_RESTART, MSGID_EXIT,
    MSGID_NEXTTICK, MSGID_REQUESTHASH, MSGID_SUCCESSFULCONNECT, MSGID_MAPUPLOAD,
    MSGID_NEWTICK, MSGID_NEWCLIENT, MSGID_CURRENTCONNECTIONS, MSGID_ORDINARY,
    MSGID_JUSTMESSAGE, MSGID_GUI, MSGID_MOUSECLICK, MSGID_OOCMESSAGE, MSGID_PING,
    MSGID_WRONGGAMEVERSION, MSGID_WRONGAUTH, MSGID_UNDEFINEDERROR, MSGID_SERVEREXIT,
    MSGID_NOMASTER, MSGID_OUTOFSYNC, MSGID_TOOSLOW, MSGID_INTERNALSERVERERROR,
    MSGID_SERVERRESTARTING] at hc
  obtain ⟨k1, k2, k3, k4, k5, k6, k7, k8, k9, k10, k11, k12, k13, k14, k15, k16, k17, k18,
    k19, k20, k21, k22, k23, k24, k25, k26, k27⟩ := hc
  have shape : ∀ kind : Int, kind ≠ MSGID_CHAT →
      get_concrete_message MSGID_CHAT kind true =
        get_concrete_message (kind + 1) kind true := by
    intro kind hk
    have h2 : ¬ kind = kind + 1 := by omega
    simp only [get_concrete_message, hk, h2, if_false]
  refine ⟨⟨rfl, rfl, rfl, rfl, rfl, rfl, rfl, rfl, rfl, rfl, rfl, rfl, rfl, rfl, rfl, rfl, rfl,
    rfl, rfl, rfl, rfl, rfl, rfl, rfl, rfl, rfl⟩, ?_, ?_, ?_, ?_⟩
  · refine ⟨?_, ?_, ?_, ?_, ?_, ?_, ?_, ?_, ?_, ?_, ?_, ?_, ?_, ?_, ?_, ?_, ?_⟩ <;>
      (rw [shape _ (by simp only [MSGID_INPUT, MSGID_LOGIN, MSGID_HASH, MSGID_RESTART,
        MSGID_NEXTTICK, MSGID_REQUESTHASH, MSGID_SUCCESSFULCONNECT, MSGID_MAPUPLOAD,
        MSGID_NEWTICK, MSGID_NEWCLIENT, MSGID_CURRENTCONNECTIONS, MSGID_ORDINARY,
        MSGID_JUSTMESSAGE, MSGID_GUI, MSGID_MOUSECLICK, MSGID_OOCMESSAGE, MSGID_PING]; omega)]
       decide)
  · rw [shape MSGID_GUI (by simp only [MSGID_GUI]; omega),
      shape MSGID_INPUT (by simp only [MSGID_INPUT]; omega)]
    decide
  · intro kind h1 h2
    exact get_concrete_message_default MSGID_CHAT kind true (by omega) (by omega)
  · exact get_concrete_message_no_memory MSGID_CHAT

/-- Witness of C25 (amended): with 1007 taken for `MSGID_CHAT`, a login gets a login
payload and the wrong-auth notification gets none. -/
theorem get_concrete_message_shapes_witness :
    get_concrete_message 1007 MSGID_LOGIN true = some Payload.MessageLogin ∧
      get_concrete_message 1007 MSGID_WRONGAUTH true = none := by
  have h := get_concrete_message_shapes 1007 (by decide)
  exact ⟨h.2.1.1, h.2.2.2.1 MSGID_WRONGAUTH (by decide) (by decide)⟩

/-! ## The authentication state of a client -/

/-- Claim C29, as stated, fails. A client that has just been registered on a fresh
registry is in state `CLIENT_CONNECTING`; `client_mark_active` on the pointer that
`client_registry_get` returns for it puts it in `CLIENT_ACTIVE`, though it was never
in `CLIENT_LOGGED_IN`. -/
theorem connecting_client_marked_active :
    client_registry_get
        (client_registry_register (empty_registry 0) [49] 80 [] false 5 true).1 0 =
        some (new_client 0 [49] 80 [] false 5) ∧
      (new_client 0 [49] 80 [] false 5).State = ClientState.CLIENT_CONNECTING ∧
      ∃ c2, client_mark_active (some (new_client 0 [49] 80 [] false 5)) 9 = some c2 ∧
        c2.State = ClientState.CLIENT_ACTIVE := by
  have hid : (client_registry_register (empty_registry 0) [49] 80 [] false 5 true).2 ≠ -1 := by
    rw [register_empty]
    decide
  have h := (register_then_get (empty_registry 0) [49] 80 [] false 5 true (empty_registry_wf 0)
    (empty_registry_ids 0 (le_refl _)).1 (empty_registry_ids 0 (le_refl _)).2 hid).2.1
  exact ⟨h, rfl, _, rfl, rfl⟩

/-- Claim C29, amended. The state of a client is written in two places only. A register
stores the new client in state `CLIENT_CONNECTING`. And `client_mark_active` puts every
client in `CLIENT_ACTIVE`, whatever its state before (`CLIENT_CONNECTING` and
`CLIENT_DISCONNECTED` included), setting the time it was last seen and nothing else.
A register or a remove leaves every client it finds in the table as it is, and
`client_update_position` leaves the state unchanged; no operation puts a client in
`CLIENT_LOGGED_IN`. -/
theorem client_state_transitions (reg : ClientRegistry) (op : RegOp) (i : Nat) (k : Client)
    (hw : reg_wf reg) (h : live_at (reg_step reg op).1 i k) :
    (live_at reg i k ∨
        (reg.clients.getD i none = none ∧ k.State = ClientState.CLIENT_CONNECTING)) ∧
      (∀ (c : Client) (now : Int),
        client_mark_active (some c) now =
          some { c with LastSeen := now, State := ClientState.CLIENT_ACTIVE }) ∧
      (∀ now, client_mark_active none now = none) ∧
      (∀ (c : Client) (x y z : Nat),
        ∃ c2, client_update_position (some c) x y z = some c2 ∧ c2.State = c.State) ∧
      ∀ (c : Client) (x y z : Nat) (now : Int),
        (c.State ≠ ClientState.CLIENT_LOGGED_IN →
          ∀ c2, client_mark_active (some c) now = some c2 ∨
              client_update_position (some c) x y z = some c2 →
            c2.State ≠ ClientState.CLIENT_LOGGED_IN) := by
  refine ⟨?_, fun _ _ => rfl, fun _ => rfl, fun _ _ _ _ => ⟨_, rfl, rfl⟩, ?_⟩
  · rcases reg_step_live reg op i k hw h with hl | ⟨hn, _, _, _, _, _, _, hk⟩
    · exact Or.inl hl
    · right
      rw [hk]
      exact ⟨hn, rfl⟩
  · intro c x y z now hc c2 h2
    rcases h2 with h2 | h2
    · simp only [client_mark_active, Option.some.injEq] at h2
      rw [← h2]
      simp
    · simp only [client_update_position, Option.some.injEq] at h2
      rw [← h2]
      exact hc

/-- Witness of C29 (amended): the client that a register stores in slot 0 of a fresh
registry is in state `CLIENT_CONNECTING`. -/
theorem client_state_transitions_witness :
    live_at (empty_registry 0) 0 (new_client 0 [49] 80 [] false 5) ∨
      ((empty_registry 0).clients.getD 0 none = none ∧
        (new_client 0 [49] 80 [] false 5).State = ClientState.CLIENT_CONNECTING) := by
  have hl : live_at (reg_step (empty_registry 0) (RegOp.register [49] 80 [] false 5 true)).1 0
      (new_client 0 [49] 80 [] false 5) := by
    simp only [reg_step, register_empty]
    exact ⟨by decide, getD_set_eq _ (by rw [List.length_replicate]; decide)⟩
  exact (client_state_transitions (empty_registry 0) (RegOp.register [49] 80 [] false 5 true) 0
    (new_client 0 [49] 80 [] false 5) (empty_registry_wf 0) hl).1

/-! ## First in, first out -/

/-- Claim C30. On a connection whose buffer is empty, for every `X` and `Y` with
`|X| + |Y| ≤ 8192`: the two appends are accepted and `consume(|X|)` then leaves
exactly `Y` buffered. And for every connection and `a`, `b` with `a + b` at most the
used length: `consume(a)` followed by `consume(b)` succeeds and leaves the same
buffered bytes, the same used length and the same other fields as `consume(a + b)`,
namely the buffered bytes without their first `a + b`. -/
theorem buffer_is_fifo (c : Conn) (X Y : List Nat) (hw : conn_wf c) (h0 : c.BufferUsed = 0)
    (hXY : X.length + Y.length ≤ BUFFER_SIZE) :
    (∃ c1 c2 c3, conn_add_buffer (some c) X X.length = some (some c1, X.length) ∧
      conn_add_buffer (some c1) Y Y.length = some (some c2, Y.length) ∧
      conn_peek c2 = X ++ Y ∧
      conn_consume_buffer (some c2) X.length = some (some c3, X.length) ∧
      conn_peek c3 = Y ∧ c3.BufferUsed = Y.length) ∧
    ∀ (b : Conn) (m n : Nat), conn_wf b → m + n ≤ b.BufferUsed →
      ∃ b1 b2 b3, conn_consume_buffer (some b) m = some (some b1, m) ∧
        conn_consume_buffer (some b1) n = some (some b2, n) ∧
        conn_consume_buffer (some b) (m + n) = some (some b3, m + n) ∧
        conn_peek b2 = conn_peek b3 ∧ conn_peek b3 = (conn_peek b).drop (m + n) ∧
        b2.BufferUsed = b3.BufferUsed ∧ b3.BufferUsed = b.BufferUsed - (m + n) ∧
        b2.FD = b3.FD ∧ b2.State = b3.State ∧ b2.LastAddr = b3.LastAddr ∧
        b2.LastPort = b3.LastPort ∧ b2.IsMaster = b3.IsMaster := by
  have hcons : ∀ (b : Conn) (j : Nat), conn_wf b → j ≤ b.BufferUsed →
      ∃ b2, conn_consume_buffer (some b) j = some (some b2, j) ∧
        conn_peek b2 = (conn_peek b).drop j ∧ b2.BufferUsed = b.BufferUsed - j ∧
        conn_wf b2 ∧ b2.FD = b.FD ∧ b2.State = b.State ∧ b2.LastAddr = b.LastAddr ∧
        b2.LastPort = b.LastPort ∧ b2.IsMaster = b.IsMaster := by
    intro b j hb hj
    have hlen := hb.1
    have hu := hb.2
    refine ⟨_, conn_consume_buffer_fits b j hb hj, ?_, rfl, ?_, rfl, rfl, rfl, rfl, rfl⟩
    · simp only [conn_peek_eq]
      rw [List.take_append_of_le_length (by simp only [List.length_take, List.length_drop]; omega),
        List.take_take, Nat.min_self, List.drop_take]
    · refine ⟨?_, ?_⟩
      · simp only [List.length_append, List.length_take, List.length_drop]
        omega
      · show b.BufferUsed - j ≤ BUFFER_SIZE
        omega
  have hadd : ∀ (b : Conn) (Z : List Nat), conn_wf b → b.BufferUsed + Z.length ≤ BUFFER_SIZE →
      ∃ b1, conn_add_buffer (some b) Z Z.length = some (some b1, Z.length) ∧
        conn_peek b1 = conn_peek b ++ Z ∧ b1.BufferUsed = b.BufferUsed + Z.length ∧
        conn_wf b1 := by
    intro b Z hb hZ
    have hlen := hb.1
    refine ⟨_, conn_add_buffer_fits b Z hb hZ, ?_, rfl, ?_⟩
    · simp only [conn_peek_eq]
      have h1 : (b.Buffer.take b.BufferUsed ++ Z).length = b.BufferUsed + Z.length := by
        simp only [List.length_append, List.length_take]
        omega
      rw [List.take_append_of_le_length (by rw [h1]), List.take_of_length_le (by rw [h1])]
    · refine ⟨?_, ?_⟩
      · simp only [List.length_append, List.length_take, List.length_drop]
        omega
      · exact hZ
  constructor
  · obtain ⟨c1, hc1, hp1, hu1, hw1⟩ := hadd c X hw (by omega)
    obtain ⟨c2, hc2, hp2, hu2, hw2⟩ := hadd c1 Y hw1 (by omega)
    obtain ⟨c3, hc3, hp3, hu3, _⟩ := hcons c2 X.length hw2 (by omega)
    have hpc : conn_peek c = [] := by
      rw [conn_peek_eq, h0]
      rfl
    have hp2b : conn_peek c2 = X ++ Y := by rw [hp2, hp1, hpc, List.nil_append]
    refine ⟨c1, c2, c3, hc1, hc2, hp2b, hc3, ?_, ?_⟩
    · rw [hp3, hp2b, List.drop_left]
    · rw [hu3, hu2, hu1, h0]
      omega
  · intro b m n hb hmn
    obtain ⟨b1, hb1, hp1, hu1, hw1, f1⟩ := hcons b m hb (by omega)
    obtain ⟨b2, hb2, hp2, hu2, _, f2⟩ := hcons b1 n hw1 (by omega)
    obtain ⟨b3, hb3, hp3, hu3, _, f3⟩ := hcons b (m + n) hb hmn
    refine ⟨b1, b2, b3, hb1, hb2, hb3, ?_, hp3, ?_, hu3, ?_, ?_, ?_, ?_, ?_⟩
    · rw [hp2, hp1, hp3, List.drop_drop, Nat.add_comm]
    · rw [hu2, hu1, hu3]
      omega
    · rw [f2.1, f1.1, f3.1]
    · rw [f2.2.1, f1.2.1, f3.2.1]
    · rw [f2.2.2.1, f1.2.2.1, f3.2.2.1]
    · rw [f2.2.2.2.1, f1.2.2.2.1, f3.2.2.2.1]
    · rw [f2.2.2.2.2, f1.2.2.2.2, f3.2.2.2.2]

/-- Witness of C30: on a fresh connection, append "ab", append "c", consume 2: "c" is
what stays buffered. -/
theorem buffer_is_fifo_witness :
    ∃ c c1 c2 c3, conn_create 4 true = some c ∧
      conn_add_buffer (some c) [97, 98] 2 = some (some c1, 2) ∧
      conn_add_buffer (some c1) [99] 1 = some (some c2, 1) ∧
      conn_consume_buffer (some c2) 2 = some (some c3, 2) ∧ conn_peek c3 = [99] := by
  have hc : conn_create 4 true =
      some
        { FD := 4
          State := ConnState.CONN_NEW
          LastAddr := List.replicate 64 0
          LastPort := 0
          Buffer := List.replicate BUFFER_SIZE 0
          BufferUsed := 0
          IsMaster := false } := rfl
  obtain ⟨c1, c2, c3, h1, h2, _, h3, h4, _⟩ :=
    (buffer_is_fifo _ [97, 98] [99] (conn_create_wf hc) rfl (by decide)).1
  exact ⟨_, c1, c2, c3, hc, h1, h2, h3, h4⟩

/-! ## The event loops -/

theorem fd_set_loop_fds (clients : List (Option client_t)) : ∀ (fuel i : Nat) (m : Int),
    (fd_set_loop clients fuel i m).1 = ((clients.drop i).take fuel).filterMap slot_fd := by
  intro fuel
  induction fuel with
  | zero => intro i m; simp [fd_set_loop]
  | succ n ih =>
    intro i m
    by_cases hi : i < clients.length
    · have hd : clients.drop i = clients[i] :: clients.drop (i + 1) :=
        List.drop_eq_getElem_cons hi
      have hg : clients.getD i none = clients[i] := by
        simp [List.getD_eq_getElem?_getD, List.getElem?_eq_getElem hi]
      rw [hd, List.take_succ_cons, List.filterMap_cons]
      rcases hs : clients[i] with _ | c
      · simp only [fd_set_loop, hg, hs, slot_fd, Option.map_none']
        exact ih (i + 1) m
      · simp only [fd_set_loop, hg, hs, slot_fd, Option.map_some']
        rw [ih (i + 1)]
    · have hd : clients.drop i = [] := List.drop_eq_nil_of_le (by omega)
      have hg : clients.getD i none = none := List.getD_eq_default _ _ (by omega)
      rw [hd]
      simp only [fd_set_loop, hg, List.take_nil, List.filterMap_nil]
      rw [ih (i + 1), List.drop_eq_nil_of_le (by omega)]
      simp

theorem fd_set_loop_max (clients : List (Option client_t)) : ∀ (fuel i : Nat) (m : Int),
    m ≤ (fd_set_loop clients fuel i m).2 ∧
      ∀ fd, fd ∈ (fd_set_loop clients fuel i m).1 → fd ≤ (fd_set_loop clients fuel i m).2 := by
  intro fuel
  induction fuel with
  | zero => intro i m; simp [fd_set_loop]
  | succ n ih =>
    intro i m
    rcases hs : clients.getD i none with _ | c
    · simp only [fd_set_loop, hs]
      exact ih (i + 1) m
    · simp only [fd_set_loop, hs]
      obtain ⟨h1, h2⟩ := ih (i + 1) (if c.fd > m then c.fd else m)
      have h3 : m ≤ (if c.fd > m then c.fd else m) ∧ c.fd ≤ (if c.fd > m then c.fd else m) := by
        split <;> omega
      refine ⟨by omega, ?_⟩
      intro fd hfd
      simp only [List.mem_cons] at hfd
      rcases hfd with hfd | hfd
      · rw [hfd]
        omega
      · exact h2 fd hfd

theorem mem_slot_fds (clients : List (Option client_t)) (fd : Int) :
    fd ∈ clients.filterMap slot_fd ↔
      ∃ j c, j < clients.length ∧ clients.getD j none = some c ∧ c.fd = fd := by
  simp only [List.mem_filterMap, slot_fd, Option.map_eq_some']
  constructor
  · rintro ⟨s, hs, c, hc, hfd⟩
    obtain ⟨j, hj, hjs⟩ := List.getElem_of_mem hs
    refine ⟨j, c, hj, ?_, hfd⟩
    simp [List.getD_eq_getElem?_getD, List.getElem?_eq_getElem hj, hjs, hc]
  · rintro ⟨j, c, hj, hjc, hfd⟩
    refine ⟨some c, ?_, c, rfl, hfd⟩
    have : clients[j] = some c := by
      simpa [List.getD_eq_getElem?_getD, List.getElem?_eq_getElem hj] using hjc
    rw [← this]
    exact List.getElem_mem _

/-- The descriptor set that an iteration of `server_run` hands to `select`: the listening
socket, then the socket of every client of the table. -/
theorem server_run_cycle_read_fds (g : Globals) (m : Int) (inp : CycleInput)
    (hm : g.g_clients_mutex = false) (hlen : g.g_clients.length = DEFAULT_MAX_CLIENTS) :
    server_run_cycle g m inp = CycleResult.undefined ∨
      (server_run_cycle g m inp).read_fds =
        some (g.g_server.listen_fd :: g.g_clients.filterMap slot_fd) := by
  have hf : (fd_set_loop g.g_clients DEFAULT_MAX_CLIENTS 0 m).1 =
      g.g_clients.filterMap slot_fd := by
    rw [fd_set_loop_fds, List.drop_zero, ← hlen, List.take_length]
  simp only [server_run_cycle, hm, hf, Bool.false_eq_true, if_false]
  split
  · split <;> exact Or.inr rfl
  · split
    · split
      · exact Or.inr rfl
      · split
        · exact Or.inr rfl
        · exact Or.inr rfl
        · exact Or.inl rfl
    · exact Or.inr rfl
    · exact Or.inl rfl

/-- Claim C23, which the code breaks. In `main.c`, every iteration of `server_loop` hands to
`select` the listening socket alone. A fresh server (listening socket 3) that
accepts a connection with descriptor 7 in one iteration registers it (the registry
count becomes 1 and nothing is closed), and in the following iteration polls the
set `[3]` again: the socket 7 of the live connection is not in it. The sibling
`server_run` of `server.c` does what the claim says: an iteration hands to `select`
the listening socket and the socket of every client of the table, no value of
which exceeds `max_fd`; after accepting descriptor 7 it polls `[3, 7]`. -/
theorem server_loop_polls_listener_only :
    (∀ state inp r, server_loop_cycle state inp = some r → r.2.1 = [state.Socket]) ∧
      (∃ s2 reg c, server_loop [accept_seven, idle_cycle]
          (server_state_of (empty_registry 0) (some (collector_of 0))) =
            some (s2, [[3], [3]], []) ∧
        s2.Clients = some reg ∧ client_registry_count reg = 1 ∧ live_at reg 0 c) ∧
      (7 : Int) ∉ ([3] : List Int) ∧
      (∀ g m inp, g.g_clients_mutex = false → g.g_clients.length = DEFAULT_MAX_CLIENTS →
        server_run_cycle g m inp = CycleResult.undefined ∨
          ∃ fds, (server_run_cycle g m inp).read_fds = some fds ∧
            (∀ fd, fd ∈ fds ↔ fd = g.g_server.listen_fd ∨
              ∃ j c, j < DEFAULT_MAX_CLIENTS ∧ g.g_clients.getD j none = some c ∧ c.fd = fd) ∧
            ∀ fd, fd ∈ fds → fd = g.g_server.listen_fd ∨
              fd ≤ (fd_set_loop g.g_clients DEFAULT_MAX_CLIENTS 0 m).2) ∧
      ∃ g1 m1 g2 m2,
        server_run_cycle (running_globals []) 3 (cycle_with [3] none) =
            CycleResult.next g1 m1 [3] [] [] ∧
          server_run_cycle g1 m1 (cycle_with [] none) = CycleResult.next g2 m2 [3, 7] [] [] := by
  refine ⟨?_, ?_, by decide, ?_, ⟨_, _, _, _, rfl, rfl⟩⟩
  · intro state inp r h
    simp only [server_loop_cycle] at h
    split at h
    · split at h
      · exact absurd h (by simp)
      · simp only [Option.some.injEq] at h
        rw [← h]
    · simp only [Option.some.injEq] at h
      rw [← h]
  · simp only [server_loop, server_loop_cycle, accept_seven, idle_cycle, accept_connections,
      server_state_of, register_empty, process_messages, handle_disconnections]
    refine ⟨_, _, new_client 0 [49] 80 [] false 0, rfl, rfl, rfl, by decide, ?_⟩
    exact getD_set_eq _ (by rw [List.length_replicate]; decide)
  · intro g m inp hm hlen
    rcases server_run_cycle_read_fds g m inp hm hlen with h | h
    · exact Or.inl h
    · refine Or.inr ⟨_, h, fun fd => ?_, fun fd hfd => ?_⟩
      · rw [List.mem_cons, mem_slot_fds, hlen]
      · rw [List.mem_cons] at hfd
        rcases hfd with hfd | hfd
        · exact Or.inl hfd
        · right
          have hf : (fd_set_loop g.g_clients DEFAULT_MAX_CLIENTS 0 m).1 =
              g.g_clients.filterMap slot_fd := by
            rw [fd_set_loop_fds, List.drop_zero, ← hlen, List.take_length]
          rw [← hf] at hfd
          exact (fd_set_loop_max g.g_clients DEFAULT_MAX_CLIENTS 0 m).2 fd hfd

/-! ## Start-up failures -/

theorem init_server_socket_failure (port : Int) (sys : SocketCalls) (h1 : 0 ≤ sys.socket_ret)
    (h2 : 0 ≤ sys.setsockopt_ret) (h3 : sys.bind_ret < 0 ∨ sys.listen_ret < 0) :
    init_server_socket port sys = (none, [sys.socket_ret]) := by
  unfold init_server_socket
  rw [if_neg (by omega), if_neg (by omega)]
  by_cases hb : sys.bind_ret < 0
  · rw [if_pos hb]
  · rw [if_neg hb, if_pos (by omega)]

theorem main_socket_failure (argv : List String) (env : MainEnv) (cycles : List LoopInput)
    (o : Options)
    (hp : parse_args env.atoi argv.tail
      { port := DEFAULT_PORT, asset_port := DEFAULT_ASSET_PORT, auto_restart := false } = some o)
    (hs : env.state_ok = true) (h1 : 0 ≤ env.sys.socket_ret) (h2 : 0 ≤ env.sys.setsockopt_ret)
    (h3 : env.sys.bind_ret < 0 ∨ env.sys.listen_ret < 0) :
    main argv env cycles =
      MainResult.exited 1 ["Failed to initialize server socket\n"]
        ([env.sys.socket_ret] ++ server_state_free (server_state_create o.port env)) none := by
  have hi := init_server_socket_failure o.port env.sys h1 h2 h3
  have hc : ∃ state, server_state_create o.port env = some state := by
    simp only [server_state_create, hs, if_true]
    exact ⟨_, rfl⟩
  obtain ⟨state, hst⟩ := hc
  simp only [main, hp, hst, hi]

theorem server_stop_free (g : Globals) (hm : g.g_clients_mutex = false) :
    server_stop g =
      Outcome.returned
        { g with
          g_server := { g.g_server with running := false }
          g_clients := (stop_loop DEFAULT_MAX_CLIENTS 0 g.g_clients).1 } []
        (((if g.g_server.listen_fd ≥ 0 then [g.g_server.listen_fd] else []) ++
            (if g.g_server.metrics_fd ≥ 0 then [g.g_server.metrics_fd] else [])) ++
          (stop_loop DEFAULT_MAX_CLIENTS 0 g.g_clients).2) () := by
  unfold server_stop
  simp only [hm, Bool.false_eq_true, if_false]

theorem griefly_main_bind_failure (argv : List String) (atoi : String → Int) (now : Int)
    (sys metrics_sys : SocketCalls) (cycles : List CycleInput) (h1 : 0 ≤ sys.socket_ret)
    (h2 : sys.bind_ret < 0) :
    ∃ e cl, griefly_main argv atoi now sys metrics_sys cycles = MainResult.exited 0 e cl none := by
  have hc : ∀ port, create_server_socket port sys = (-1, ["bind"], [sys.socket_ret]) := by
    intro port
    unfold create_server_socket
    rw [if_neg (by omega), if_pos h2]
  have hrun : ∀ g port, server_run g port sys cycles =
      RunResult.returned { g with g_server := { g.g_server with listen_fd := -1 } }
        (["bind"] ++ ["Failed to create server socket\n"]) [] [] [sys.socket_ret] := by
    intro g port
    simp only [server_run, hc]
    rfl
  simp only [griefly_main, hrun]
  split
  · exact ⟨_, _, rfl⟩
  · next heq =>
    rw [server_stop_free _ rfl] at heq
    exact Outcome.noConfusion heq
  · next heq =>
    rw [server_stop_free _ rfl] at heq
    exact Outcome.noConfusion heq

/-- Claim C26, which the code breaks. In `main.c` the claim holds: whenever the socket is
created and `bind` or `listen` fails, `main` writes "Failed to initialize server
socket" to the standard error stream and returns 1 without calling
`server_loop`. In `server.c` it does not: when `bind` fails, `server_run` reports the
failure and returns, and `main` returns 0; and when `listen` fails,
`create_server_socket` does not look at the value returned and the event loop is
entered. -/
theorem bind_failure_exit_status :
    (∀ argv env cycles o,
      parse_args env.atoi (List.tail argv)
          { port := DEFAULT_PORT, asset_port := DEFAULT_ASSET_PORT, auto_restart := false } =
        some o →
      env.state_ok = true → 0 ≤ env.sys.socket_ret → 0 ≤ env.sys.setsockopt_ret →
      env.sys.bind_ret < 0 ∨ env.sys.listen_ret < 0 →
      ∃ closed, main argv env cycles =
        MainResult.exited 1 ["Failed to initialize server socket\n"] closed none) ∧
      main ["server"] { env_ok with sys := { sys_ok with bind_ret := -1 } } [idle_cycle] =
        MainResult.exited 1 ["Failed to initialize server socket\n"] [3, 0] none ∧
      main ["server"] { env_ok with sys := { sys_ok with listen_ret := -1 } } [idle_cycle] =
        MainResult.exited 1 ["Failed to initialize server socket\n"] [3, 0] none ∧
      (∀ argv atoi now sys metrics_sys cycles, 0 ≤ sys.socket_ret → sys.bind_ret < 0 →
        ∃ e cl, griefly_main argv atoi now sys metrics_sys cycles =
          MainResult.exited 0 e cl none) ∧
      griefly_main ["server"] (fun _ => 0) 0 { sys_ok with bind_ret := -1 } sys_ok
          [cycle_with [] none] =
        MainResult.exited 0 ["bind", "Failed to create server socket\n"] [3, 3] none ∧
      griefly_main ["server"] (fun _ => 0) 0 { sys_ok with listen_ret := -1 } sys_ok
          [cycle_with [] none] = MainResult.running [[3]] := by
  refine ⟨?_, by decide, by decide, ?_, by decide, by decide⟩
  · intro argv env cycles o hp hs h1 h2 h3
    exact ⟨_, main_socket_failure argv env cycles o hp hs h1 h2 h3⟩
  · intro argv atoi now sys metrics_sys cycles h1 h2
    exact griefly_main_bind_failure argv atoi now sys metrics_sys cycles h1 h2

/-! ## The scan of the ready clients -/

theorem message_at_type (received rest : List Nat) (mem : Nat → Option (List Nat))
    (hne : received ≠ []) :
    (message_at (received ++ rest) mem).type = received.getD 0 0 := by
  cases received with
  | nil => exact absurd rfl hne
  | cons b bs => rfl

/-- A chat frame processed while the mutex of the client table is held: the call does
not return, it waits for the mutex in `handle_client_message`. -/
theorem server_process_client_chat_blocked (g : Globals) (idx : Nat) (stack received : List Nat)
    (mem : Nat → Option (List Nat)) (now now2 : Int) (c : client_t)
    (hc : g.g_clients.getD idx none = some c) (hm : g.g_clients_mutex = true)
    (hne : received ≠ []) (ht : received.getD 0 0 = MSG_TYPE_CHAT) :
    ∃ g1, server_process_client g idx stack (some received) mem now now2 =
      Outcome.blocked g1 [] [] := by
  have hl : ¬ received.length = 0 := by
    intro h
    exact hne (List.length_eq_zero.1 h)
  simp only [server_process_client, hc, hl, if_false]
  exact ⟨_, handle_chat_blocked _ idx _ now2 _ (slot_set_eq _ (client_getD_lt hc))
    (by rw [message_at_type _ _ _ hne, ht]) hm⟩

/-- Claim C27, which the code breaks. The scan of `server_run` calls `server_process_client`
with `g_clients_mutex` held, and the chat case of `handle_client_message` locks that
mutex again: whatever the client and the rest of the frame, a chat frame processed
with the mutex held makes the thread wait for ever. So an iteration of `server_run`
in which the only client (socket 5) has sent a chat frame does not end, and nor
does `server_run`; the same iteration with a ping frame ends, with the pong sent. -/
theorem chat_in_scan_blocks_reactor :
    (∀ g idx stack received mem now now2 c, g.g_clients.getD idx none = some c →
      g.g_clients_mutex = true → received ≠ [] → received.getD 0 0 = MSG_TYPE_CHAT →
      ∃ g1, server_process_client g idx stack (some received) mem now now2 =
        Outcome.blocked g1 [] []) ∧
      (∃ g1, server_run_cycle (running_globals [some (client_of 5 CLIENT_STATE_AUTHENTICATED)]) 3
          (cycle_with [5] (some (header MSG_TYPE_CHAT 0 0))) =
        CycleResult.blocked g1 [3, 5] [] [] ∧ g1.g_clients_mutex = true) ∧
      (∃ g1, server_run (globals_of [some (client_of 5 CLIENT_STATE_AUTHENTICATED)]) 1111 sys_ok
          [cycle_with [5] (some (header MSG_TYPE_CHAT 0 0)), cycle_with [] none] =
        RunResult.blocked g1 [[3, 5]] [] []) ∧
      ∃ g1 m ev, server_run_cycle (running_globals [some (client_of 5 CLIENT_STATE_AUTHENTICATED)])
          3 (cycle_with [5] (some (header MSG_TYPE_PING 0 0))) =
        CycleResult.next g1 m [3, 5] [ev] [] ∧ ev.fd = 5 ∧ ev.msg.type = MSG_TYPE_PONG :=
  ⟨fun g idx stack received mem now now2 c hc hm hne ht =>
      server_process_client_chat_blocked g idx stack received mem now now2 c hc hm hne ht,
    ⟨_, rfl, rfl⟩, ⟨_, rfl⟩, ⟨_, _, _, rfl, rfl, rfl⟩⟩

/-- Claim C28, which the code breaks. Neither `server_process_client` nor
`handle_client_message` compares an offset with the number of bytes received or with
`msg->length`. (a) A chat frame of which the 16 bytes of the header were received,
with a declared length of 5000: `send` is asked to forward 5016 bytes from the array
of 1024 bytes. (b) A position frame with a declared length of 0: the 12 bytes at
the address found in the header are decoded into the position. (c) A position
frame of which a single byte was received: the address is taken from bytes of the
array that were never received, and the position is updated from there. -/
theorem frame_length_not_checked :
    ((header MSG_TYPE_CHAT 5000 0).length = 16 ∧
      (message_at (header MSG_TYPE_CHAT 5000 0 ++ List.replicate 1008 0) (fun _ => none)).length =
        5000 ∧
      ∃ g1 m, server_process_client three_clients 0 (List.replicate 1024 0)
          (some (header MSG_TYPE_CHAT 5000 0)) (fun _ => none) 9 9 =
        Outcome.returned g1
          [{ fd := 5, msg := m, nbytes := 5016 }, { fd := 6, msg := m, nbytes := 5016 }] [] () ∧
        (1024 : Nat) < 5016) ∧
      ((message_at (header MSG_TYPE_POSITION 0 4096 ++ List.replicate 1008 0) mem_at_4096).length =
          0 ∧
        ∃ g1 c1, server_process_client two_clients 0 (List.replicate 1024 0)
            (some (header MSG_TYPE_POSITION 0 4096)) mem_at_4096 9 9 =
          Outcome.returned g1 [] [] () ∧
          g1.g_clients.getD 0 none = some c1 ∧ c1.pos_x = [1, 2, 3, 4] ∧
          c1.pos_y = [5, 6, 7, 8] ∧ c1.pos_z = [9, 10, 11, 12]) ∧
      ([MSG_TYPE_POSITION].length = 1 ∧
        (∃ g1 c1, server_process_client two_clients 0 stack_with_pointer
            (some [MSG_TYPE_POSITION]) mem_at_4096 9 9 =
          Outcome.returned g1 [] [] () ∧
          g1.g_clients.getD 0 none = some c1 ∧ c1.pos_x = [1, 2, 3, 4] ∧
          c1.pos_y = [5, 6, 7, 8] ∧ c1.pos_z = [9, 10, 11, 12]) ∧
        server_process_client two_clients 0 (List.replicate 1024 0)
            (some [MSG_TYPE_POSITION]) mem_at_4096 9 9 = Outcome.undefined) :=
  ⟨⟨rfl, rfl, _, _, rfl, by decide⟩, ⟨rfl, _, _, rfl, rfl, rfl, rfl, rfl⟩,
    ⟨rfl, ⟨_, _, rfl, rfl, rfl, rfl, rfl⟩, rfl⟩⟩

/-! ## The telemetry counters -/

theorem stats_run_append (sc : Option StatsCollector) (a b : List StatsOp) :
    stats_run sc (a ++ b) = stats_run (stats_run sc a) b := by
  induction a generalizing sc with
  | nil => rfl
  | cons op ops ih => exact ih _

/-- One call on a collector that has seen fewer than `INT_MAX` increments: no counter
wraps, the totals do not decrease, and the gauge decreases only in a remove or a
reset. -/
theorem stats_step_within (n : Int) (s : StatsCollector) (op : StatsOp) (hn : n < INT_MAX)
    (h : stats_within n s) :
    ∃ s2, stats_step (some s) op = some s2 ∧ stats_within (n + 1) s2 ∧
      s.total_session_clients ≤ s2.total_session_clients ∧
      stats_collector_get_total_messages (some s) ≤
        stats_collector_get_total_messages (some s2) ∧
      (s2.current_clients < s.current_clients →
        op = StatsOp.remove_client ∨ op = StatsOp.reset_clients) := by
  obtain ⟨h1, h2, h3, h4, h5, h6⟩ := h
  simp only [INT_MAX] at hn
  have w : ∀ v : Int, -2147483648 ≤ v → v ≤ 2147483647 → wrap_int v = v := by
    intro v a b
    exact wrap_int_id (by simp only [INT_MIN]; exact a) (by simp only [INT_MAX]; exact b)
  cases op with
  | record_incoming =>
    refine ⟨_, rfl, ?_, le_refl _, ?_, ?_⟩
    · simp only [stats_within, w _ (show -2147483648 ≤ s.total_messages_in + 1 by omega)
        (show s.total_messages_in + 1 ≤ 2147483647 by omega)]
      omega
    · simp only [stats_collector_get_total_messages,
        w _ (show -2147483648 ≤ s.total_messages_in + 1 by omega)
          (show s.total_messages_in + 1 ≤ 2147483647 by omega),
        w _ (show -2147483648 ≤ s.total_messages_in + s.total_messages_out by omega)
          (show s.total_messages_in + s.total_messages_out ≤ 2147483647 by omega),
        w _ (show -2147483648 ≤ s.total_messages_in + 1 + s.total_messages_out by omega)
          (show s.total_messages_in + 1 + s.total_messages_out ≤ 2147483647 by omega)]
      omega
    · intro hlt
      exact absurd hlt (lt_irrefl _)
  | record_outgoing =>
    refine ⟨_, rfl, ?_, le_refl _, ?_, ?_⟩
    · simp only [stats_within, w _ (show -2147483648 ≤ s.total_messages_out + 1 by omega)
        (show s.total_messages_out + 1 ≤ 2147483647 by omega)]
      omega
    · simp only [stats_collector_get_total_messages,
        w _ (show -2147483648 ≤ s.total_messages_out + 1 by omega)
          (show s.total_messages_out + 1 ≤ 2147483647 by omega),
        w _ (show -2147483648 ≤ s.total_messages_in + s.total_messages_out by omega)
          (show s.total_messages_in + s.total_messages_out ≤ 2147483647 by omega),
        w _ (show -2147483648 ≤ s.total_messages_in + (s.total_messages_out + 1) by omega)
          (show s.total_messages_in + (s.total_messages_out + 1) ≤ 2147483647 by omega)]
      omega
    · intro hlt
      exact absurd hlt (lt_irrefl _)
  | bytes_received bytes =>
    refine ⟨_, rfl, ?_, le_refl _, le_refl _, ?_⟩
    · simp only [stats_within]
      omega
    · intro hlt
      exact absurd hlt (lt_irrefl _)
  | bytes_sent bytes =>
    refine ⟨_, rfl, ?_, le_refl _, le_refl _, ?_⟩
    · simp only [stats_within]
      omega
    · intro hlt
      exact absurd hlt (lt_irrefl _)
  | add_client =>
    refine ⟨_, rfl, ?_, ?_, le_refl _, ?_⟩
    · simp only [stats_within, w _ (show -2147483648 ≤ s.current_clients + 1 by omega)
        (show s.current_clients + 1 ≤ 2147483647 by omega),
        w _ (show -2147483648 ≤ s.total_session_clients + 1 by omega)
        (show s.total_session_clients + 1 ≤ 2147483647 by omega)]
      omega
    · simp only [w _ (show -2147483648 ≤ s.total_session_clients + 1 by omega)
        (show s.total_session_clients + 1 ≤ 2147483647 by omega)]
      omega
    · intro hlt
      simp only [w _ (show -2147483648 ≤ s.current_clients + 1 by omega)
        (show s.current_clients + 1 ≤ 2147483647 by omega)] at hlt
      omega
  | remove_client =>
    by_cases hp : s.current_clients > 0
    · refine ⟨{ s with current_clients := wrap_int (s.current_clients - 1) }, ?_, ?_,
        le_refl _, le_refl _, fun _ => Or.inl rfl⟩
      · simp only [stats_step, stats_collector_remove_client, hp, if_true]
      · simp only [stats_within, w _ (show -2147483648 ≤ s.current_clients - 1 by omega)
          (show s.current_clients - 1 ≤ 2147483647 by omega)]
        omega
    · refine ⟨s, ?_, ?_, le_refl _, le_refl _, fun _ => Or.inl rfl⟩
      · simp only [stats_step, stats_collector_remove_client, hp, if_false]
      · simp only [stats_within]
        omega
  | reset_clients =>
    refine ⟨_, rfl, ?_, le_refl _, le_refl _, fun _ => Or.inr rfl⟩
    simp only [stats_within]
    omega

/-- A sequence of calls on a collector, as long as no more than `INT_MAX` increments can
have been made: the run is defined and the bounds are maintained. -/
theorem stats_run_within : ∀ (ops : List StatsOp) (n : Int) (s : StatsCollector),
    stats_within n s → n + ops.length ≤ INT_MAX →
    ∃ s2, stats_run (some s) ops = some s2 ∧ stats_within (n + ops.length) s2 := by
  intro ops
  induction ops with
  | nil =>
    intro n s h _
    exact ⟨s, rfl, by simpa using h⟩
  | cons op ops ih =>
    intro n s h hn
    simp only [List.length_cons, Nat.cast_add, Nat.cast_one] at hn
    obtain ⟨s1, h1, hw1, _⟩ := stats_step_within n s op (by omega) h
    obtain ⟨s2, h2, hw2⟩ := ih (n + 1) s1 hw1 (by omega)
    refine ⟨s2, ?_, ?_⟩
    · simp only [stats_run, h1, h2]
    · simp only [List.length_cons, Nat.cast_add, Nat.cast_one]
      rw [show n + ((ops.length : Int) + 1) = n + 1 + ops.length by omega]
      exact hw2

theorem fresh_within (now : Int) : stats_within 0 (collector_with now 0 0) := by
  simp [stats_within, collector_with]

theorem stats_collector_create_eq (now : Int) :
    stats_collector_create now true = some (collector_with now 0 0) := rfl

/-- The collector reached from a fresh one by `n` calls of `stats_collector_add_client`:
both client counters hold `n`. -/
theorem adds_state (now : Int) : ∀ n : Nat, n ≤ 2147483647 →
    stats_run (stats_collector_create now true) (List.replicate n StatsOp.add_client) =
      some (collector_with now n 0) := by
  intro n
  induction n with
  | zero => intro _; rfl
  | succ k ih =>
    intro hk
    rw [List.replicate_succ', stats_run_append, ih (by omega)]
    simp only [stats_run, stats_step, stats_collector_add_client, collector_with]
    rw [wrap_int_id (by simp only [INT_MIN]; omega) (by simp only [INT_MAX]; omega)]
    simp only [Nat.cast_add, Nat.cast_one]

/-- The collector reached from a fresh one by `n` calls of
`stats_collector_record_incoming`: the counter of incoming messages holds `n`. -/
theorem incomings_state (now : Int) : ∀ n : Nat, n ≤ 2147483647 →
    stats_run (stats_collector_create now true) (List.replicate n StatsOp.record_incoming) =
      some (collector_with now 0 n) := by
  intro n
  induction n with
  | zero => intro _; rfl
  | succ k ih =>
    intro hk
    rw [List.replicate_succ', stats_run_append, ih (by omega)]
    simp only [stats_run, stats_step, stats_collector_record_incoming, collector_with]
    rw [wrap_int_id (by simp only [INT_MIN]; omega) (by simp only [INT_MAX]; omega)]
    simp only [Nat.cast_add, Nat.cast_one]

/-- Claim C31, as stated, fails. The counters are `int`s that are incremented without a
bound. After 2147483647 calls of `stats_collector_add_client` on a fresh collector
the total of session clients is `INT_MAX`, and the next call takes it to `INT_MIN`.
After 2147483647 calls of `stats_collector_record_incoming` the total message count
is `INT_MAX`, and one `stats_collector_record_outgoing` later
`stats_collector_get_total_messages` returns `INT_MIN`. -/
theorem telemetry_totals_wrap :
    stats_run (stats_collector_create 0 true)
        (List.replicate 2147483647 StatsOp.add_client) =
        some (collector_with 0 2147483647 0) ∧
      (∃ s2, stats_step (some (collector_with 0 2147483647 0)) StatsOp.add_client = some s2 ∧
        s2.total_session_clients = -2147483648 ∧
        s2.total_session_clients < (collector_with 0 2147483647 0).total_session_clients) ∧
      stats_run (stats_collector_create 0 true)
        (List.replicate 2147483647 StatsOp.record_incoming) =
        some (collector_with 0 0 2147483647) ∧
      stats_collector_get_total_messages (some (collector_with 0 0 2147483647)) = 2147483647 ∧
      stats_collector_get_total_messages
        (stats_step (some (collector_with 0 0 2147483647)) StatsOp.record_outgoing) =
        -2147483648 := by
  have e : ((2147483647 : Nat) : Int) = 2147483647 := by norm_num
  have h1 := adds_state 0 2147483647 (le_refl _)
  have h2 := incomings_state 0 2147483647 (le_refl _)
  rw [e] at h1 h2
  exact ⟨h1, ⟨_, rfl, by decide, by decide⟩, h2, by decide, by decide⟩

/-- Claim C31, amended. For every sequence of at most `INT_MAX` (2147483647) collector
calls (`record_incoming`, `record_outgoing`, `add_client`, `remove_client`,
`reset_clients`, `bytes_received`, `bytes_sent`, with any arguments) applied to a
collector returned by `stats_collector_create`, no call of the sequence decreases
`total_session_clients` or the count returned by `stats_collector_get_total_messages`;
the gauge of current clients decreases in a `remove_client` or a `reset_clients`
only. -/
theorem telemetry_totals_monotonic (now : Int) (pre : List StatsOp) (op : StatsOp)
    (h : pre.length < 2147483647) :
    ∃ s s2, stats_run (stats_collector_create now true) pre = some s ∧
      stats_step (some s) op = some s2 ∧
      stats_run (stats_collector_create now true) (pre ++ [op]) = some s2 ∧
      s.total_session_clients ≤ s2.total_session_clients ∧
      stats_collector_get_total_clients (some s) ≤ stats_collector_get_total_clients (some s2) ∧
      stats_collector_get_total_messages (some s) ≤
        stats_collector_get_total_messages (some s2) ∧
      (s2.current_clients < s.current_clients →
        op = StatsOp.remove_client ∨ op = StatsOp.reset_clients) := by
  obtain ⟨s, hs, hw⟩ := stats_run_within pre 0 (collector_with now 0 0) (fresh_within now)
    (by simp only [INT_MAX]; omega)
  obtain ⟨s2, h2, _, ht, hm, hg⟩ := stats_step_within (0 + pre.length) s op
    (by simp only [INT_MAX]; omega) hw
  rw [← stats_collector_create_eq] at hs
  refine ⟨s, s2, hs, h2, ?_, ht, ht, hm, hg⟩
  rw [stats_run_append, hs]
  exact h2

/-- Witness of C31 (amended): a client is added, a message recorded, and the client
removed: the totals stay. -/
theorem telemetry_totals_monotonic_witness :
    ∃ s s2, stats_run (stats_collector_create 0 true)
        [StatsOp.add_client, StatsOp.record_incoming] = some s ∧
      stats_step (some s) StatsOp.remove_client = some s2 ∧
      s.total_session_clients ≤ s2.total_session_clients ∧
      stats_collector_get_total_messages (some s) ≤
        stats_collector_get_total_messages (some s2) := by
  obtain ⟨s, s2, h1, h2, _, h3, _, h4, _⟩ := telemetry_totals_monotonic 0
    [StatsOp.add_client, StatsOp.record_incoming] StatsOp.remove_client (by decide)
  exact ⟨s, s2, h1, h2, h3, h4⟩

/-- Claim C35, as stated, fails. After 2147483648 calls of `stats_collector_add_client` on
a fresh collector, the gauge of current clients has wrapped to `INT_MIN`: it is
negative. -/
theorem telemetry_gauge_wraps :
    ∃ s, stats_run (stats_collector_create 0 true)
        (List.replicate 2147483647 StatsOp.add_client ++ [StatsOp.add_client]) = some s ∧
      s.current_clients = -2147483648 ∧ ¬ 0 ≤ s.current_clients := by
  have e : ((2147483647 : Nat) : Int) = 2147483647 := by norm_num
  have h1 := adds_state 0 2147483647 (le_refl _)
  rw [e] at h1
  refine ⟨collector_with 0 (-2147483648) 0, ?_, rfl, by decide⟩
  rw [stats_run_append, h1]
  rfl

/-- Claim C35, amended. For every sequence of at most `INT_MAX` (2147483647) collector
calls applied to a collector returned by `stats_collector_create`,
`0 ≤ current_clients ≤ total_session_clients` holds at the end (hence after every
call of the sequence). And on every collector whose gauge is 0 (or negative),
`stats_collector_remove_client` changes nothing. -/
theorem telemetry_gauge_bounds (now : Int) (ops : List StatsOp)
    (h : ops.length ≤ 2147483647) :
    (∃ s, stats_run (stats_collector_create now true) ops = some s ∧
      0 ≤ s.current_clients ∧ s.current_clients ≤ s.total_session_clients ∧
      0 ≤ stats_collector_get_clients (some s) ∧
      stats_collector_get_clients (some s) ≤ stats_collector_get_total_clients (some s)) ∧
      ∀ t : StatsCollector, t.current_clients ≤ 0 →
        stats_collector_remove_client (some t) = some t := by
  obtain ⟨s, hs, hw⟩ := stats_run_within ops 0 (collector_with now 0 0) (fresh_within now)
    (by simp only [INT_MAX]; omega)
  rw [← stats_collector_create_eq] at hs
  refine ⟨⟨s, hs, hw.1, hw.2.1, hw.1, hw.2.1⟩, ?_⟩
  intro t ht
  have hn : ¬ t.current_clients > 0 := by omega
  simp only [stats_collector_remove_client, hn, if_false]

/-- Witness of C35 (amended): a remove on a fresh collector, then an add and two
removes: the gauge ends at 0. -/
theorem telemetry_gauge_bounds_witness :
    ∃ s, stats_run (stats_collector_create 0 true)
        [StatsOp.remove_client, StatsOp.add_client, StatsOp.remove_client,
          StatsOp.remove_client] = some s ∧
      0 ≤ s.current_clients ∧ s.current_clients ≤ s.total_session_clients := by
  obtain ⟨s, h1, h2, h3, _⟩ := (telemetry_gauge_bounds 0
    [StatsOp.remove_client, StatsOp.add_client, StatsOp.remove_client, StatsOp.remove_client]
    (by decide)).1
  exact ⟨s, h1, h2, h3⟩

/-! ## The client count of `server.c` -/

/-- Claim C32, which the code breaks. After `server_init` and one `server_accept_client`
(descriptor 7), `g_num_clients` is 1 and one slot is occupied. `server_stop` then
closes the client and sets its slot to `NULL` but does not write `g_num_clients`:
`server_client_count` returns 1 while no slot is occupied. The same holds after a
second `server_init`. -/
theorem client_count_not_reset :
    ∃ g1 g2, server_accept_client (server_init initial_globals 0) 7 [49] 80 0 true =
        Outcome.returned g1 [] [] (some 0) ∧
      server_client_count g1 = 1 ∧ live_slots g1 = 1 ∧
      server_stop g1 = Outcome.returned g2 [] [7] () ∧
      server_client_count g2 = 1 ∧ live_slots g2 = 0 ∧
      server_client_count (server_init g1 5) = 1 ∧ live_slots (server_init g1 5) = 0 :=
  ⟨_, _, rfl, rfl, by decide, rfl, rfl, by decide, rfl, by decide⟩

/-! ## The shipped credential store -/

/-- Claim C33. With the credential store of the source, for every database, user name,
password hash and prior content of the result record: `json_db_get_user` returns
`NULL`; `authenticate` with `is_guest = false` makes one lookup, returns
`ErrNotAuthenticated` (-1) and leaves the result record as it was; and
`json_db_is_admin` returns `false`. -/
theorem shipped_store_knows_nobody (db : Option json_db_t) (username passhash : List Nat)
    (result : UserInfo) :
    json_db_get_user db username = none ∧
      authenticate db username passhash false result =
        { ret := ErrNotAuthenticated, result := result, lookups := [username] } ∧
      (authenticate db username passhash false result).ret = -1 ∧
      json_db_is_admin db username = false :=
  ⟨rfl, rfl, rfl, rfl⟩

/-! ## The options of `main.c` -/

/-- The function `main` is its start followed by `server_loop` and the release of the
state. -/
theorem main_eq_main_start (argv : List String) (env : MainEnv) (cycles : List LoopInput) :
    main argv env cycles =
      match main_start argv env with
      | Sum.inl r => r
      | Sum.inr (state, closed) =>
        match server_loop cycles state with
        | none => MainResult.undefined
        | some r =>
          MainResult.exited 0 [] (closed ++ r.2.2 ++ server_state_free (some r.1))
            (some r.2.1) := by
  simp only [main, main_start]
  cases parse_args env.atoi argv.tail
      { port := DEFAULT_PORT, asset_port := DEFAULT_ASSET_PORT, auto_restart := false } with
  | none => rfl
  | some o =>
    dsimp only
    cases server_state_create o.port env with
    | none => rfl
    | some state =>
      dsimp only
      rcases init_server_socket o.port env.sys with ⟨_ | sock, closed⟩
      · rfl
      · rfl

theorem asset_server_start_port (server : Option AssetServer) (sys : SocketCalls)
    (a : AssetServer) (h : (asset_server_start server sys).1 = some a) :
    ∃ a0, server = some a0 ∧ a.Port = a0.Port := by
  cases server with
  | none => simp [asset_server_start] at h
  | some a0 =>
    refine ⟨a0, rfl, ?_⟩
    simp only [asset_server_start] at h
    split at h
    · simp only [Option.some.injEq] at h
      rw [← h]
    · split at h
      · simp only [Option.some.injEq] at h
        rw [← h]
      · split at h
        · simp only [Option.some.injEq] at h
          rw [← h]
        · split at h
          · simp only [Option.some.injEq] at h
            rw [← h]
          · simp only [Option.some.injEq] at h
            rw [← h]

/-- The asset server that `main` hands to `server_loop` has the default port, whatever
the arguments. -/
theorem main_start_asset_port (argv : List String) (env : MainEnv) (state : ServerState)
    (closed : List Int) (a : AssetServer) (h : main_start argv env = Sum.inr (state, closed))
    (ha : state.AssetServer = some a) : a.Port = DEFAULT_ASSET_PORT := by
  simp only [main_start] at h
  split at h
  · exact absurd h (by simp)
  · next o _ =>
    split at h
    · exact absurd h (by simp)
    · next st hst =>
      have hport : ∀ a0, st.AssetServer = some a0 → a0.Port = DEFAULT_ASSET_PORT := by
        intro a0 h0
        simp only [server_state_create] at hst
        split at hst
        · simp only [Option.some.injEq] at hst
          rw [← hst] at h0
          simp only [asset_server_create] at h0
          split at h0
          · simp only [Option.some.injEq] at h0
            rw [← h0]
          · exact absurd h0 (by simp)
        · exact absurd hst (by simp)
      split at h
      · exact absurd h (by simp)
      · simp only [Sum.inr.injEq, Prod.mk.injEq] at h
        obtain ⟨hs, _⟩ := h
        rw [← hs] at ha
        simp only at ha
        split at ha
        · obtain ⟨a0, h0, hp⟩ := asset_server_start_port _ _ _ ha
          rw [hp]
          exact hport a0 h0
        · exact hport a ha

/-- Claim C34, which the code breaks. The option `-asset-port 9000` is parsed (the local
`asset_port` becomes 9000), but `server_state_create` is called with the server port
only and creates the asset server with `DEFAULT_ASSET_PORT`: the asset server that
`main` starts and hands to `server_loop` has port 8767, as it has for every
argument list; the parsed value is only compared with 0, `-asset-port 0` leaving
the asset server unstarted. When the option is absent the port is 8767, as
claimed; and the sibling option `-port 9000` does set the server port. -/
theorem asset_port_option_ignored :
    parse_args env_9000.atoi ["-asset-port", "9000"]
        { port := DEFAULT_PORT, asset_port := DEFAULT_ASSET_PORT, auto_restart := false } =
        some { port := 8766, asset_port := 9000, auto_restart := false } ∧
      (∃ state closed, main_start ["server", "-asset-port", "9000"] env_9000 =
          Sum.inr (state, closed) ∧
        state.AssetServer = some { Port := 8767, Socket := 4, Running := true }) ∧
      (∀ argv env state closed a, main_start argv env = Sum.inr (state, closed) →
        state.AssetServer = some a → a.Port = DEFAULT_ASSET_PORT) ∧
      (∃ state closed, main_start ["server", "-asset-port", "0"] env_9000 =
          Sum.inr (state, closed) ∧
        state.AssetServer = some { Port := 8767, Socket := -1, Running := false }) ∧
      (∃ state closed, main_start ["server"] env_9000 = Sum.inr (state, closed) ∧
        state.AssetServer = some { Port := 8767, Socket := 4, Running := true }) ∧
      ∃ state closed, main_start ["server", "-port", "9000"] env_9000 =
          Sum.inr (state, closed) ∧
        state.Port = 9000 :=
  ⟨by decide, ⟨_, _, rfl, rfl⟩,
    fun argv env state closed a h ha => main_start_asset_port argv env state closed a h ha,
    ⟨_, _, rfl, rfl⟩, ⟨_, _, rfl, rfl⟩, ⟨_, _, rfl, rfl⟩⟩

/-! ## The lifecycle state of a connection -/

/-- A buffer call writes `Buffer` and `BufferUsed` only. -/
theorem conn_step_frame (c : Conn) (op : ConnOp) (q : Option Conn)
    (h : conn_step (some c) op = some q) :
    ∃ c2, q = some c2 ∧ c2.FD = c.FD ∧ c2.State = c.State ∧ c2.IsMaster = c.IsMaster ∧
      c2.LastAddr = c.LastAddr ∧ c2.LastPort = c.LastPort := by
  cases op with
  | add data length =>
    simp only [conn_step, conn_add_buffer] at h
    split at h
    · simp only [Option.map_some', Option.some.injEq] at h
      exact ⟨c, h.symm, rfl, rfl, rfl, rfl, rfl⟩
    · split at h
      · simp at h
      · simp only [Option.map_some', Option.some.injEq] at h
        exact ⟨_, h.symm, rfl, rfl, rfl, rfl, rfl⟩
  | consume amount =>
    simp only [conn_step, conn_consume_buffer] at h
    split at h
    · simp only [Option.map_some', Option.some.injEq] at h
      exact ⟨c, h.symm, rfl, rfl, rfl, rfl, rfl⟩
    · split at h
      · simp at h
      · simp only [Option.map_some', Option.some.injEq] at h
        exact ⟨_, h.symm, rfl, rfl, rfl, rfl, rfl⟩
  | clear =>
    simp only [conn_step, conn_clear_buffer, Option.some.injEq] at h
    exact ⟨_, h.symm, rfl, rfl, rfl, rfl, rfl⟩

/-- No call writes `State` or `FD`. -/
theorem conn_call_state (c : Conn) (call : ConnCall) (q : Option Conn)
    (h : conn_call (some c) call = some q) :
    ∃ c2, q = some c2 ∧ c2.State = c.State ∧ c2.FD = c.FD := by
  cases call with
  | buffer op =>
    obtain ⟨c2, h2, hfd, hst, _⟩ := conn_step_frame c op q h
    exact ⟨c2, h2, hst, hfd⟩
  | set_master is_master =>
    simp only [conn_call, conn_set_master, Option.some.injEq] at h
    exact ⟨_, h.symm, rfl, rfl⟩
  | update_addr addr port =>
    simp only [conn_call, conn_update_addr, Option.some.injEq] at h
    exact ⟨_, h.symm, rfl, rfl⟩

theorem conn_calls_state : ∀ (calls : List ConnCall) (c : Conn) (q : Option Conn),
    conn_calls (some c) calls = some q →
    ∃ c2, q = some c2 ∧ c2.State = c.State ∧ c2.FD = c.FD := by
  intro calls
  induction calls with
  | nil =>
    intro c q h
    simp only [conn_calls, Option.some.injEq] at h
    exact ⟨c, h.symm, rfl, rfl⟩
  | cons call calls ih =>
    intro c q h
    simp only [conn_calls] at h
    cases h1 : conn_call (some c) call with
    | none => simp [h1] at h
    | some p1 =>
      rw [h1] at h
      obtain ⟨c1, hp1, hs1, hf1⟩ := conn_call_state c call p1 h1
      rw [hp1] at h
      obtain ⟨c2, hq, hs2, hf2⟩ := ih c1 q h
      exact ⟨c2, hq, by rw [hs2, hs1], by rw [hf2, hf1]⟩

theorem conn_calls_null : ∀ (calls : List ConnCall), conn_calls none calls = some none := by
  intro calls
  induction calls with
  | nil => rfl
  | cons call calls ih =>
    cases call with
    | buffer op => cases op <;> exact ih
    | set_master is_master => exact ih
    | update_addr addr port => exact ih

/-- The lifecycle state where the calls are defined. For every sequence of
`conn_add_buffer`, `conn_consume_buffer`, `conn_clear_buffer`, `conn_set_master` and
`conn_update_addr` calls on what `conn_create` returned, none of which writes outside
an array: after the calls a connection that was allocated is
still in state `CONN_NEW`, with its descriptor, and `conn_is_closed` returns `false`
for it; `conn_is_closed` returns `true` exactly when the pointer is `NULL`, which is
the case when the allocation failed. A buffer call leaves `FD`, `State`, the master
flag and the stored address and port as they were; and every call other than an
append has a defined result. -/
theorem conn_state_stays_new (fd : Int) (malloc_ok : Bool) (calls : List ConnCall)
    (p : Option Conn) (h : conn_calls (conn_create fd malloc_ok) calls = some p) :
    (malloc_ok = true →
      ∃ c, p = some c ∧ c.State = ConnState.CONN_NEW ∧ c.FD = fd ∧ conn_get_fd p = fd ∧
        conn_is_closed p = false) ∧
      (malloc_ok = false → p = none) ∧
      (conn_is_closed p = true ↔ p = none) ∧
      (∀ (c : Conn) (op : ConnOp) (q : Option Conn), conn_step (some c) op = some q →
        ∃ c2, q = some c2 ∧ c2.FD = c.FD ∧ c2.State = c.State ∧ c2.IsMaster = c.IsMaster ∧
          c2.LastAddr = c.LastAddr ∧ c2.LastPort = c.LastPort) ∧
      ∀ (c : Conn) (call : ConnCall), conn_wf c →
        (∀ data length, call ≠ ConnCall.buffer (ConnOp.add data length)) →
        conn_call (some c) call ≠ none := by
  have hnew : malloc_ok = true →
      ∃ c, p = some c ∧ c.State = ConnState.CONN_NEW ∧ c.FD = fd := by
    intro hm
    rw [hm] at h
    obtain ⟨c2, hq, hs, hf⟩ := conn_calls_state calls _ p h
    exact ⟨c2, hq, hs, hf⟩
  have hnull : malloc_ok = false → p = none := by
    intro hm
    rw [hm] at h
    have h2 : conn_calls none calls = some p := h
    rw [conn_calls_null] at h2
    simp only [Option.some.injEq] at h2
    exact h2.symm
  refine ⟨?_, hnull, ?_, conn_step_frame, ?_⟩
  · intro hm
    obtain ⟨c, hp, hs, hf⟩ := hnew hm
    refine ⟨c, hp, hs, hf, ?_, ?_⟩
    · rw [hp]
      exact hf
    · rw [hp]
      simp only [conn_is_closed, hs]
      decide
  · rcases Bool.eq_false_or_eq_true malloc_ok with hm | hm
    · obtain ⟨c, hp, hs, _⟩ := hnew hm
      rw [hp]
      simp [conn_is_closed, hs]
    · rw [hnull hm]
      simp [conn_is_closed]
  · intro c call hw hcall
    cases call with
    | buffer op =>
      cases op with
      | add data length => exact absurd rfl (hcall data length)
      | consume amount =>
        by_cases ha : amount ≤ c.BufferUsed
        · simp only [conn_call, conn_step, conn_consume_buffer_fits c amount hw ha]
          simp
        · simp only [conn_call, conn_step, conn_consume_buffer,
            if_pos (show amount > c.BufferUsed by omega)]
          simp
      | clear => simp [conn_call, conn_step]
    | set_master is_master => simp [conn_call]
    | update_addr addr port => simp [conn_call]

/-- Example of a defined sequence: three bytes appended, the master flag set, the address
updated, one byte consumed and the buffer cleared: the connection is not closed. -/
theorem conn_state_stays_new_witness :
    ∃ p c, conn_calls (conn_create 3 true)
        [ConnCall.buffer (ConnOp.add [1, 2, 3] 3), ConnCall.set_master true,
          ConnCall.update_addr [49] 80, ConnCall.buffer (ConnOp.consume 1),
          ConnCall.buffer ConnOp.clear] = some p ∧
      p = some c ∧ c.State = ConnState.CONN_NEW ∧ conn_is_closed p = false := by
  have h : ∃ p, conn_calls (conn_create 3 true)
      [ConnCall.buffer (ConnOp.add [1, 2, 3] 3), ConnCall.set_master true,
        ConnCall.update_addr [49] 80, ConnCall.buffer (ConnOp.consume 1),
        ConnCall.buffer ConnOp.clear] = some p := by
    simp [conn_calls, conn_call, conn_step, conn_add_buffer, conn_consume_buffer,
      conn_clear_buffer, conn_set_master, conn_update_addr, memcpy, memmove, conn_create,
      BUFFER_SIZE, SIZE_MOD, -List.reduceReplicate]
  obtain ⟨p, hp⟩ := h
  obtain ⟨c, h1, h2, _, _, h3⟩ := (conn_state_stays_new 3 true _ p hp).1 rfl
  exact ⟨p, c, hp, h1, h2, h3⟩

/-- A call on a well-formed connection has no defined result only when it is an append
that the bound test lets through although `used + length` wraps in `size_t`, or an
append whose `data` holds fewer than `length` bytes. -/
theorem conn_call_undefined (c : Conn) (call : ConnCall) (hw : conn_wf c)
    (h : conn_call (some c) call = none) :
    ∃ data length, call = ConnCall.buffer (ConnOp.add data length) ∧
      ¬ ((c.BufferUsed + length) % SIZE_MOD > BUFFER_SIZE) ∧
      (SIZE_MOD ≤ c.BufferUsed + length ∨ data.length < length) := by
  cases call with
  | buffer op =>
    obtain ⟨data, length, hop, ht, hd⟩ := conn_step_undefined c op hw h
    exact ⟨data, length, by rw [hop], ht, hd⟩
  | set_master is_master => simp [conn_call] at h
  | update_addr addr port => simp [conn_call] at h

/-- Claim C36, which the code breaks. Wherever the behaviour of the calls is defined the
claim holds: after every such sequence an allocated connection is still in state
`CONN_NEW` with its descriptor, `conn_is_closed` returns `false` for it, and a buffer
call leaves `FD`, `State`, the master flag and the stored address and port as they
were; the only calls without a defined result are the appends that the bound test
lets through although `used + length` wraps in `size_t` (or whose `data` holds fewer
than `length` bytes). But such a sequence is covered by the claim, and there the
code does not keep the state: after one byte has been appended, an append of
length `SIZE_MAX` has `used + length = 2 ^ 64`, which wraps to 0; the test passes and
`memcpy` is asked to write `SIZE_MAX` bytes at `Buffer + 1`, that is every byte of the
address space but one, the other members of the record included: `State`, `FD`, the
master flag and the stored address after the call are not determined by the
code. -/
theorem wrapping_append_breaks_conn_state :
    (∀ (fd : Int) (calls : List ConnCall) (p : Option Conn),
      conn_calls (conn_create fd true) calls = some p →
      ∃ c, p = some c ∧ c.State = ConnState.CONN_NEW ∧ c.FD = fd ∧
        conn_is_closed p = false) ∧
      (∀ (c : Conn) (op : ConnOp) (q : Option Conn), conn_step (some c) op = some q →
        ∃ c2, q = some c2 ∧ c2.FD = c.FD ∧ c2.State = c.State ∧ c2.IsMaster = c.IsMaster ∧
          c2.LastAddr = c.LastAddr ∧ c2.LastPort = c.LastPort) ∧
      (∀ (c : Conn) (call : ConnCall), conn_wf c → conn_call (some c) call = none →
        ∃ data length, call = ConnCall.buffer (ConnOp.add data length) ∧
          ¬ ((c.BufferUsed + length) % SIZE_MOD > BUFFER_SIZE) ∧
          (SIZE_MOD ≤ c.BufferUsed + length ∨ data.length < length)) ∧
      ∃ c, conn_calls (conn_create 3 true) [ConnCall.buffer (ConnOp.add [65] 1)] =
          some (some c) ∧
        c.State = ConnState.CONN_NEW ∧ c.FD = 3 ∧ c.BufferUsed = 1 ∧
        c.Buffer.length = 8192 ∧
        (c.BufferUsed + SIZE_MAX) % SIZE_MOD = 0 ∧
        ¬ ((c.BufferUsed + SIZE_MAX) % SIZE_MOD > BUFFER_SIZE) ∧
        c.BufferUsed + SIZE_MAX > c.Buffer.length ∧
        (∀ data, conn_add_buffer (some c) data SIZE_MAX = none) ∧
        ∀ data, conn_calls (conn_create 3 true)
          [ConnCall.buffer (ConnOp.add [65] 1), ConnCall.buffer (ConnOp.add data SIZE_MAX)] =
            none := by
  refine ⟨?_, conn_step_frame, fun c call hw h => conn_call_undefined c call hw h, ?_⟩
  · intro fd calls p h
    obtain ⟨c, hp, hs, hf, _, hcl⟩ := (conn_state_stays_new fd true calls p h).1 rfl
    exact ⟨c, hp, hs, hf, hcl⟩
  · have hc0 : conn_create 3 true =
        some
          { FD := 3
            State := ConnState.CONN_NEW
            LastAddr := List.replicate 64 0
            LastPort := 0
            Buffer := List.replicate BUFFER_SIZE 0
            BufferUsed := 0
            IsMaster := false } := rfl
    have hw0 := conn_create_wf hc0
    have hadd := conn_add_buffer_fits _ [65] hw0 (by decide)
    have hrun : conn_calls (conn_create 3 true) [ConnCall.buffer (ConnOp.add [65] 1)] =
        some (some
          { FD := 3
            State := ConnState.CONN_NEW
            LastAddr := List.replicate 64 0
            LastPort := 0
            Buffer := (List.replicate BUFFER_SIZE 0).take 0 ++ [65] ++
              (List.replicate BUFFER_SIZE 0).drop (0 + [65].length)
            BufferUsed := 0 + [65].length
            IsMaster := false }) := by
      have hadd1 : conn_add_buffer (some
          { FD := 3
            State := ConnState.CONN_NEW
            LastAddr := List.replicate 64 0
            LastPort := 0
            Buffer := List.replicate BUFFER_SIZE 0
            BufferUsed := 0
            IsMaster := false }) [65] 1 = _ := hadd
      simp only [conn_calls, conn_call, conn_step, hc0, hadd1, Option.map_some']
    have hw : conn_wf
        { FD := 3
          State := ConnState.CONN_NEW
          LastAddr := List.replicate 64 0
          LastPort := 0
          Buffer := (List.replicate BUFFER_SIZE 0).take 0 ++ [65] ++
            (List.replicate BUFFER_SIZE 0).drop (0 + [65].length)
          BufferUsed := 0 + [65].length
          IsMaster := false } := by
      have h1 : conn_run (conn_create 3 true) [ConnOp.add [65] 1] = some (some
          { FD := 3
            State := ConnState.CONN_NEW
            LastAddr := List.replicate 64 0
            LastPort := 0
            Buffer := (List.replicate BUFFER_SIZE 0).take 0 ++ [65] ++
              (List.replicate BUFFER_SIZE 0).drop (0 + [65].length)
            BufferUsed := 0 + [65].length
            IsMaster := false }) := by
        have hadd1 : conn_add_buffer (some
            { FD := 3
              State := ConnState.CONN_NEW
              LastAddr := List.replicate 64 0
              LastPort := 0
              Buffer := List.replicate BUFFER_SIZE 0
              BufferUsed := 0
              IsMaster := false }) [65] 1 = _ := hadd
        simp only [conn_run, conn_step, hc0, hadd1, Option.map_some']
      exact conn_run_wf _ (fun c0 h0 => conn_create_wf h0) h1 _ rfl
    have hnone : ∀ data, conn_add_buffer (some
        { FD := 3
          State := ConnState.CONN_NEW
          LastAddr := List.replicate 64 0
          LastPort := 0
          Buffer := (List.replicate BUFFER_SIZE 0).take 0 ++ [65] ++
            (List.replicate BUFFER_SIZE 0).drop (0 + [65].length)
          BufferUsed := 0 + [65].length
          IsMaster := false }) data SIZE_MAX = none := by
      intro data
      exact conn_add_buffer_wrap _ data SIZE_MAX hw (by decide) (by decide)
    refine ⟨_, hrun, rfl, rfl, rfl, hw.1, by decide, by decide, ?_, hnone, ?_⟩
    · rw [hw.1]
      decide
    · intro data
      have h2 : conn_calls (conn_create 3 true)
          [ConnCall.buffer (ConnOp.add [65] 1), ConnCall.buffer (ConnOp.add data SIZE_MAX)] =
          conn_calls (some
            { FD := 3
              State := ConnState.CONN_NEW
              LastAddr := List.replicate 64 0
              LastPort := 0
              Buffer := (List.replicate BUFFER_SIZE 0).take 0 ++ [65] ++
                (List.replicate BUFFER_SIZE 0).drop (0 + [65].length)
              BufferUsed := 0 + [65].length
              IsMaster := false }) [ConnCall.buffer (ConnOp.add data SIZE_MAX)] := by
        have hadd1 : conn_add_buffer (some
            { FD := 3
              State := ConnState.CONN_NEW
              LastAddr := List.replicate 64 0
              LastPort := 0
              Buffer := List.replicate BUFFER_SIZE 0
              BufferUsed := 0
              IsMaster := false }) [65] 1 = _ := hadd
        simp only [conn_calls, conn_call, conn_step, hc0, hadd1, Option.map_some']
      rw [h2]
      simp only [conn_calls, conn_call, conn_step, hnone data, Option.map_none']

end Locus
